import Mathlib

/-!
# VolleyPanel: the file updater (`fileupdater.cpp`, `fileupdater.h`)

A shallow embedding of `FileUpdater`, the client that asks a file server for a
manifest (`file_list`), compares it with the destination directory, and
downloads the missing files in chunks, resuming from `<file>.temp`.

Conventions of the embedding.

* `QString` is a list of Unicode characters, `QByteArray` a list of bytes.
* `qint64`, `long` and `int` values are mathematical integers; the only places
  where a machine range matters are `QString::toLong` and `QByteArray::toInt`,
  which fail (return 0) outside the range of `long` and of `int`.
* The member variables of `FileUpdater` and the part of the outside world the
  object acts on (the disk, the messages handed to the socket, the calls of
  `thread()->exit`) are fields of one record, passed explicitly.
* What the outside world answers during one slot invocation (can the file be
  opened, how many bytes were written, how many bytes were sent, is an
  interruption requested) is the record `Env`.
* A slot returns `none` where the C++ code reaches an access with no defined
  result (`QList::last()` on an empty list).
* Paths are compared as strings (canonical absolute paths, no links). The host
  passes a destination directory that ends in `/` (`scorepanel.cpp`, lines 105
  and 114), so `destinationDir + name` is the file `name` of that directory.
* Removing and renaming a file succeed whenever the rules of the file system
  allow them; opening and writing succeed or fail as `Env` says.
* Functions whose code is not in `fileupdater.cpp` and whose exact behaviour
  the theorems do not need (`XML_Parse`, the conversion of bytes to text, the
  name filters of `QDir`) are the fields of the record `Deps`; the theorems
  hold for every `Deps`.
-/

namespace VolleyPanel

/-! ## Qt strings -/

/-- A `QString`, as the list of its characters. -/
abbrev QString := List Char

/-- A `QByteArray`, as the list of its bytes. -/
abbrev QByteArray := List UInt8

/-- The pieces of `s` between the occurrences of `sep`, empty pieces included:
`QString::split(sep)` for a one-character separator (`Qt::KeepEmptyParts`). -/
def QString.splitKeep (sep : Char) : QString → List QString
  | [] => [[]]
  | c :: cs =>
    if c = sep then [] :: QString.splitKeep sep cs
    else
      match QString.splitKeep sep cs with
      | [] => [[c]]
      | piece :: pieces => (c :: piece) :: pieces

/-- The non-empty pieces of `s` between the occurrences of `sep`:
`QString::split(sep, Qt::SkipEmptyParts)`. -/
def QString.split (sep : Char) (s : QString) : List QString :=
  (QString.splitKeep sep s).filter (fun piece => !piece.isEmpty)

/-- The test `QChar::isSpace`: the ASCII white space, NEL, the no-break space
and the Unicode space separators. -/
def QChar.isSpace (c : Char) : Bool :=
  let n := c.toNat
  (9 ≤ n && n ≤ 13) || n = 0x20 || n = 0x85 || n = 0xA0 || n = 0x1680 ||
  (0x2000 ≤ n && n ≤ 0x200A) || n = 0x2028 || n = 0x2029 || n = 0x202F ||
  n = 0x205F || n = 0x3000

/-- An ASCII decimal digit. -/
def QChar.isAsciiDigit (c : Char) : Bool :=
  48 ≤ c.toNat && c.toNat ≤ 57

/-- The value of a string of decimal digits, most significant digit first. -/
def decimalValue (ds : QString) : Nat :=
  ds.foldl (fun acc c => 10 * acc + (c.toNat - 48)) 0

/-- The string without its leading and trailing white space. -/
def QString.trimmed (s : QString) : QString :=
  ((s.dropWhile QChar.isSpace).reverse.dropWhile QChar.isSpace).reverse

/-- Largest value of the C++ type `long` (LP64: 64 bits). -/
def LONG_MAX : Int := 2 ^ 63 - 1

/-- Smallest value of the C++ type `long` (LP64: 64 bits). -/
def LONG_MIN : Int := -(2 ^ 63)

/-- The digits of an integer literal, when `ds` is one: a non-empty string of
ASCII digits. -/
def digitsValue (ds : QString) : Option Nat :=
  if !ds.isEmpty && ds.all QChar.isAsciiDigit then some (decimalValue ds) else none

/-- The library function `QString::toLong(nullptr, 10)`: white space around the
number is skipped, a sign may precede the digits, and the result is 0 when the
conversion fails (no digits, another character, or a value outside `long`). -/
def QString.toLong (s : QString) : Int :=
  let signed : Option Int :=
    match QString.trimmed s with
    | [] => none
    | c :: cs =>
      if c = '-' ∨ c.toNat = 0x2212 then (digitsValue cs).map (fun v => -(v : Int))
      else if c = '+' then (digitsValue cs).map (fun v => (v : Int))
      else (digitsValue (c :: cs)).map (fun v => (v : Int))
  match signed with
  | some v => if LONG_MIN ≤ v ∧ v ≤ LONG_MAX then v else 0
  | none => 0

/-- Number of UTF-16 code units of the string: `QString::length()`. -/
def QString.qlength (s : QString) : Int :=
  (s.map (fun c => if c.toNat < 0x10000 then (1 : Int) else 2)).sum

/-- Index of the last `.` of the string, or -1: `QString::lastIndexOf(".")`,
counted in characters. -/
def QString.lastIndexOfDot : QString → Int
  | [] => -1
  | c :: cs =>
    let r := QString.lastIndexOfDot cs
    if 0 ≤ r then r + 1 else if c = '.' then 0 else -1

/-- The first `n` characters of the string, the whole string when `n` is
negative or at least its length: `QString::left(n)`. -/
def QString.left (s : QString) (n : Int) : QString :=
  if n < 0 then s else s.take n.toNat

/-! ## The manifest -/

/-- A file to transfer: `struct files` of `fileupdater.h`. -/
structure files where
  /-- The file name. -/
  fileName : QString
  /-- Its size in bytes (`qint64`). -/
  fileSize : Int
  deriving DecidableEq, Repr

/-- The sentinel payload of an empty manifest: `sNoData`. -/
def sNoData : QString := "NoData".toList

/-- One round of the loop of `onProcessTextMessage` (lines 436-444): the item
is split at `;`, and appended to the list when it has more than one field. -/
def parseItem (remoteFileList : List files) (item : QString) : List files :=
  let tmpList := QString.split ';' item
  match tmpList with
  | name :: size :: _ => remoteFileList ++ [{ fileName := name, fileSize := QString.toLong size }]
  | _ => remoteFileList

/-- Lines 433-444 of `onProcessTextMessage`: the new `remoteFileList` built from
the token of the `file_list` message. -/
def parseFileList (sToken : QString) : List files :=
  (QString.split ',' sToken).foldl parseItem []

/-! ## Building commands: `QString::arg` -/

/-- A piece of a format string: a plain character, or a place marker `%N` or
`%LN` (N of one or two digits) with the text it was written as. -/
inductive ArgPiece where
  | lit (c : Char)
  | marker (n : Nat) (raw : QString)
  deriving DecidableEq, Repr

/-- What the scanner of place markers has read and not yet emitted. -/
inductive ArgScan where
  /-- Nothing pending. -/
  | idle
  /-- A `%`, or `%L`, has been read (`raw` is that text). -/
  | percent (raw : QString)
  /-- A marker with one digit has been read. -/
  | digit (n : Nat) (raw : QString)
  deriving DecidableEq, Repr

/-- The pieces still pending when the scan stops or meets an ordinary
character. -/
def ArgScan.flush : ArgScan → List ArgPiece
  | .idle => []
  | .percent raw => raw.map ArgPiece.lit
  | .digit n raw => [ArgPiece.marker n raw]

/-- The place markers of a format string, as `QString::arg` finds them: `%`,
an optional `L`, then one or two decimal digits (the ASCII digits; the other
Unicode digits that Qt accepts are left as ordinary characters). -/
def argPieces : ArgScan → QString → List ArgPiece
  | st, [] => st.flush
  | .idle, c :: cs =>
    if c = '%' then argPieces (.percent [c]) cs else ArgPiece.lit c :: argPieces .idle cs
  | .percent raw, c :: cs =>
    if c.isDigit then argPieces (.digit (c.toNat - 48) (raw ++ [c])) cs
    else if c = 'L' ∧ raw = ['%'] then argPieces (.percent (raw ++ [c])) cs
    else if c = '%' then raw.map ArgPiece.lit ++ argPieces (.percent [c]) cs
    else raw.map ArgPiece.lit ++ ArgPiece.lit c :: argPieces .idle cs
  | .digit n raw, c :: cs =>
    if c.isDigit then ArgPiece.marker (10 * n + (c.toNat - 48)) (raw ++ [c]) :: argPieces .idle cs
    else if c = '%' then ArgPiece.marker n raw :: argPieces (.percent [c]) cs
    else ArgPiece.marker n raw :: ArgPiece.lit c :: argPieces .idle cs

/-- The lowest number among the markers of the pieces, if there is a marker. -/
def lowestMarker : List ArgPiece → Option Nat
  | [] => none
  | .lit _ :: ps => lowestMarker ps
  | .marker n _ :: ps =>
    match lowestMarker ps with
    | none => some n
    | some m => some (min n m)

/-- The text of a piece once the markers numbered `low` are replaced by `a`. -/
def ArgPiece.render (low : Nat) (a : QString) : ArgPiece → QString
  | .lit c => [c]
  | .marker n raw => if n = low then a else raw

/-- The library function `QString::arg(a)`: every occurrence of the
lowest-numbered place marker is replaced by `a`; a string without a marker is
returned unchanged. -/
def QString.arg (fmt : QString) (a : QString) : QString :=
  let pieces := argPieces .idle fmt
  match lowestMarker pieces with
  | none => fmt
  | some low => (pieces.map (ArgPiece.render low a)).flatten

/-- The decimal digits of a natural number, least significant first; `fuel`
bounds the number of digits. -/
def decimalDigitsRev : Nat → Nat → List Char
  | 0, _ => []
  | fuel + 1, n =>
    Char.ofNat (48 + n % 10) :: (if n / 10 = 0 then [] else decimalDigitsRev fuel (n / 10))

/-- The decimal text of an integer: `QString::number`, which `QString::arg`
applies to a `qint64` or `int` argument. -/
def QString.number (n : Int) : QString :=
  let ds := (decimalDigitsRev (n.natAbs + 1) n.natAbs).reverse
  if n < 0 then '-' :: ds else ds

/-- The macro `CHUNK_SIZE` (line 26), as the expression it expands to. -/
def CHUNK_SIZE : Int := 512 * 1024

/-- The command `QString("<get>%1,%2,%3</get>").arg(fileName).arg(offset).arg(CHUNK_SIZE)`
(lines 293-296, 343-346 and 559-562). -/
def getCommand (fileName : QString) (offset : Int) : QString :=
  QString.arg (QString.arg (QString.arg "<get>%1,%2,%3</get>".toList fileName)
    (QString.number offset)) (QString.number CHUNK_SIZE)

/-! ## The outside world -/

/-- The disk: the existing directories (written with a final `/`) and the
files, as pairs of a path and a content. The first pair with a given path is
the file at that path. -/
structure Disk where
  dirs : List QString
  entries : List (QString × QByteArray)
  deriving DecidableEq, Repr

/-- The content bound to `path` in a list of pairs, if any. -/
def lookupPath (path : QString) : List (QString × QByteArray) → Option QByteArray
  | [] => none
  | (p, content) :: rest => if p = path then some content else lookupPath path rest

/-- The content of the file at `path`, if it exists. -/
def Disk.read (d : Disk) (path : QString) : Option QByteArray :=
  lookupPath path d.entries

/-- The test `QFile::exists`. -/
def Disk.fileExists (d : Disk) (path : QString) : Bool :=
  (d.read path).isSome

/-- The size `QFile::size()` of the file at `path`, 0 when there is none. -/
def Disk.size (d : Disk) (path : QString) : Int :=
  match d.read path with
  | some content => content.length
  | none => 0

/-- The disk without the file at `path`: `QFile::remove`. -/
def Disk.remove (d : Disk) (path : QString) : Disk :=
  { d with entries := d.entries.filter (fun e => e.1 ≠ path) }

/-- The disk with an empty file created at `path` unless a file is there: the
effect on the disk of a successful `open(QIODevice::Append)`. -/
def Disk.create (d : Disk) (path : QString) : Disk :=
  if d.fileExists path then d else { d with entries := d.entries ++ [(path, [])] }

/-- The disk with `data` appended to the file at `path`; a file that is no
longer at that path is not brought back. -/
def Disk.append (d : Disk) (path : QString) (data : QByteArray) : Disk :=
  { d with entries := d.entries.map (fun e => if e.1 = path then (e.1, e.2 ++ data) else e) }

/-- The disk after `QDir::rename(oldName, newName)`: nothing happens when
`oldName` does not exist or when `newName` exists already. -/
def Disk.rename (d : Disk) (oldName newName : QString) : Disk :=
  if d.fileExists oldName ∧ ¬ d.fileExists newName then
    { d with entries := d.entries.map (fun e => if e.1 = oldName then (newName, e.2) else e) }
  else d

/-- The directory path written with a final `/`. -/
def dirPath (dir : QString) : QString :=
  if dir.getLast? = some '/' then dir else dir ++ ['/']

/-- The test `QDir::exists()`. -/
def Disk.dirExists (d : Disk) (dir : QString) : Bool :=
  decide (dirPath dir ∈ d.dirs)

/-- The paths of the files, each once, in the order of the disk. -/
def distinctPaths : List (QString × QByteArray) → List QString
  | [] => []
  | (p, _) :: rest => p :: (distinctPaths rest).filter (fun q => q ≠ p)

/-- What `QFileInfo` tells about a file of a listing. -/
structure QFileInfo where
  fileName : QString
  size : Int
  absoluteFilePath : QString
  deriving DecidableEq, Repr

/-- Functions the updater calls whose code is outside `fileupdater.cpp`. -/
structure Deps where
  /-- The helper `XML_Parse(sMessage, tag)` of `utility.h`. -/
  XML_Parse : QString → QString → QString
  /-- The conversion `QString(QByteArray)`. -/
  fromUtf8 : QByteArray → QString
  /-- Does `QDir`, with the filter `QDir::Files` and the given name filters,
  list a file of this name. -/
  nameFilterAccepts : List QString → QString → Bool

/-- The listing `fileDir.entryInfoList()` of lines 467-475: the files directly
in `dir` whose names the name filters accept. The order of the listing has no
influence on what `updateFiles` computes; here it is the order of the disk. -/
def entryInfoList (deps : Deps) (d : Disk) (dir : QString) (nameFilter : List QString) :
    List QFileInfo :=
  (distinctPaths d.entries).filterMap (fun p =>
    let name := p.drop (dirPath dir).length
    if (dirPath dir).isPrefixOf p ∧ name ≠ [] ∧ '/' ∉ name ∧
        deps.nameFilterAccepts nameFilter name = true then
      some { fileName := name, size := d.size p, absoluteFilePath := p }
    else none)

/-- The answers of the outside world during one slot invocation. -/
structure Env where
  /-- The flag `thread()->isInterruptionRequested()`. -/
  interruptionRequested : Bool
  /-- Can the file at this path be opened for appending. -/
  canOpen : QString → Bool
  /-- The value `QFile::write` returns for a block of this many bytes. -/
  fileWrite : Nat → Int
  /-- The value `sendTextMessage` returns for this message. -/
  sendTextMessage : QString → Int
  /-- The flag `pUpdateSocket->isValid()`. -/
  socketValid : Bool

/-! ## The updater -/

/-- The member `file`: its name and whether it is open. -/
structure QFile where
  fileName : QString
  isOpen : Bool
  deriving DecidableEq, Repr

/-- The members of `FileUpdater` (`fileupdater.h`, lines 73-87) and the part of
the world it acts on. `returnCode` is `none` until it is first assigned. -/
structure FileUpdater where
  destinationDir : QString
  sFileExtensions : QString
  bytesReceived : Int
  sCurrentFileName : QString
  file : QFile
  queryList : List files
  remoteFileList : List files
  returnCode : Option Int
  /-- The disk. -/
  disk : Disk
  /-- The messages handed to `pUpdateSocket->sendTextMessage`, oldest first. -/
  sent : List QString
  /-- The codes of the calls `thread()->exit(returnCode)`, oldest first. -/
  exits : List Int
  deriving DecidableEq, Repr

/-- The status `TRANSFER_DONE`. -/
def TRANSFER_DONE : Int := 0

/-- The status `ERROR_SOCKET`. -/
def ERROR_SOCKET : Int := -1

/-- The status `SERVER_DISCONNECTED`. -/
def SERVER_DISCONNECTED : Int := -2

/-- The status `FILE_ERROR`. -/
def FILE_ERROR : Int := -3

/-- The two statements `returnCode = code; thread()->exit(returnCode);`. -/
def threadExit (s : FileUpdater) (code : Int) : FileUpdater :=
  { s with returnCode := some code, exits := s.exits ++ [code] }

/-- The call `file.setFileName(name)`; Qt closes a file that is still open. -/
def setFileName (s : FileUpdater) (name : QString) : FileUpdater :=
  { s with file := { fileName := name, isOpen := false } }

/-- The call `file.remove()`: the file is closed and removed from the disk. -/
def fileRemove (s : FileUpdater) : FileUpdater :=
  { s with file := { s.file with isOpen := false }, disk := s.disk.remove s.file.fileName }

/-- The call `file.open(QIODevice::Append)`: `none` when it returns false. -/
def fileOpenAppend (env : Env) (s : FileUpdater) : Option FileUpdater :=
  if s.file.isOpen = false ∧ env.canOpen s.file.fileName = true then
    some { s with file := { s.file with isOpen := true }, disk := s.disk.create s.file.fileName }
  else none

/-- The call `file.write(data)`: the new state and the returned count, which is
-1 when the file is not open. The bytes that reach the disk are the first
`written` bytes of the block. -/
def fileWrite (env : Env) (s : FileUpdater) (data : QByteArray) : FileUpdater × Int :=
  if s.file.isOpen then
    let written := env.fileWrite data.length
    ({ s with disk := s.disk.append s.file.fileName (data.take written.toNat) }, written)
  else (s, -1)

/-- The call `file.close()`. -/
def fileClose (s : FileUpdater) : FileUpdater :=
  { s with file := { s.file with isOpen := false } }

/-- The call `pUpdateSocket->sendTextMessage(sMessage)`: the new state and the
returned count. -/
def sendTextMessage (env : Env) (s : FileUpdater) (sMessage : QString) : FileUpdater × Int :=
  ({ s with sent := s.sent ++ [sMessage] }, env.sendTextMessage sMessage)

/-- The function `FileUpdater::handleWriteFileError` (lines 387-396). -/
def handleWriteFileError (s : FileUpdater) : FileUpdater :=
  threadExit (fileClose s) FILE_ERROR

/-- The function `FileUpdater::handleOpenFileError` (lines 402-410). -/
def handleOpenFileError (s : FileUpdater) : FileUpdater :=
  threadExit s FILE_ERROR

/-- The suffix `.temp` of a file in transfer. -/
def dotTemp : QString := ".temp".toList

/-- The block `if(tempFile.exists()) ...` of lines 546-558 and 330-342: an
existing `.temp` file gives the number of bytes already received and is opened
for appending. `.error`: the function has returned after a file error. -/
def openTempFile (env : Env) (s : FileUpdater) (tempFile : QString) :
    Except FileUpdater FileUpdater :=
  if s.disk.fileExists tempFile then
    let s := { s with bytesReceived := s.disk.size tempFile }
    let s := setFileName s tempFile
    match fileOpenAppend env s with
    | none => .error (handleOpenFileError s)
    | some s => .ok s
  else .ok s

/-- The block of lines 293-306, 343-356 and 559-572: the command `get` for
`fileName` at the offset `bytesReceived` is sent; a count different from the
length of the command is a socket error. -/
def sendGet (env : Env) (s : FileUpdater) (fileName : QString) : FileUpdater :=
  let sMessage := getCommand fileName s.bytesReceived
  let (s, written) := sendTextMessage env s sMessage
  if written ≠ QString.qlength sMessage then threadExit s ERROR_SOCKET else s

/-- The function `FileUpdater::askFirstFile` (lines 540-583). `none`: the call
`queryList.last()` on an empty list. -/
def askFirstFile (env : Env) (s : FileUpdater) : Option FileUpdater :=
  match s.queryList.getLast? with
  | none => none
  | some last =>
    let s := { s with bytesReceived := 0, sCurrentFileName := last.fileName }
    match openTempFile env s (s.destinationDir ++ s.sCurrentFileName ++ dotTemp) with
    | .error s => some s
    | .ok s => some (sendGet env s s.sCurrentFileName)

/-- The inner loop of lines 482-488: is there a listed local file with the
name and the size of the remote entry. -/
def foundLocal (remote : files) : List QFileInfo → Bool
  | [] => false
  | info :: rest =>
    if remote.fileName = info.fileName ∧ remote.fileSize = info.size then true
    else foundLocal remote rest

/-- One round of the loop of lines 480-492. -/
def queryStep (localFileInfoList : List QFileInfo) (queryList : List files) (remote : files) :
    List files :=
  if !foundLocal remote localFileInfoList then queryList ++ [remote] else queryList

/-- Lines 479-492 of `updateFiles`: the list of the files to ask the server. -/
def buildQueryList (remoteFileList : List files) (localFileInfoList : List QFileInfo) :
    List files :=
  remoteFileList.foldl (queryStep localFileInfoList) []

/-- The inner loop of lines 499-509: is the local file still requested, as
itself (same name and size) or through its name without its last extension. -/
def foundRemote (info : QFileInfo) (sTempFilename : QString) : List files → Bool
  | [] => false
  | remote :: rest =>
    if remote.fileName = info.fileName ∧ remote.fileSize = info.size then true
    else if remote.fileName = sTempFilename then true
    else foundRemote info sTempFilename rest

/-- One round of the loop of lines 494-518. -/
def removeStep (remoteFileList : List files) (d : Disk) (info : QFileInfo) : Disk :=
  let sTempFilename := QString.left info.fileName (QString.lastIndexOfDot info.fileName)
  if !foundRemote info sTempFilename remoteFileList then d.remove info.absoluteFilePath else d

/-- Lines 494-518 of `updateFiles`: the local files not requested any more are
removed. -/
def removeLocalFiles (remoteFileList : List files) (localFileInfoList : List QFileInfo)
    (d : Disk) : Disk :=
  localFileInfoList.foldl (removeStep remoteFileList) d

/-- Lines 466-476 of `updateFiles`: the listing of the destination directory. -/
def localFiles (deps : Deps) (s : FileUpdater) : List QFileInfo :=
  if s.disk.dirExists s.destinationDir then
    entryInfoList deps s.disk s.destinationDir
      (QString.splitKeep ' ' s.sFileExtensions ++ ["*.temp".toList])
  else []

/-- The function `FileUpdater::updateFiles` (lines 464-533). -/
def updateFiles (deps : Deps) (env : Env) (s : FileUpdater) : Option FileUpdater :=
  let localFileInfoList := localFiles deps s
  let s := { s with queryList := buildQueryList s.remoteFileList localFileInfoList }
  let s := { s with disk := removeLocalFiles s.remoteFileList localFileInfoList s.disk }
  if s.queryList.isEmpty then some (threadExit s TRANSFER_DONE)
  else askFirstFile env s

/-- The tag `"file_list"` of the manifest message (line 424). -/
def fileListTag : QString := "file_list".toList

/-- The slot `FileUpdater::onProcessTextMessage` (lines 420-457). -/
def onProcessTextMessage (deps : Deps) (env : Env) (s : FileUpdater) (sMessage : QString) :
    Option FileUpdater :=
  let sToken := deps.XML_Parse sMessage fileListTag
  if sToken ≠ sNoData then
    let s := { s with remoteFileList := parseFileList sToken }
    updateFiles deps env s
  else some (threadExit s TRANSFER_DONE)

/-- Index of the first byte equal to `b`, or -1: `QByteArray::indexOf`. -/
def QByteArray.indexOf (b : UInt8) : QByteArray → Int
  | [] => -1
  | x :: xs =>
    if x = b then 0
    else
      let r := QByteArray.indexOf b xs
      if 0 ≤ r then r + 1 else -1

/-- The first `n` bytes, none when `n` is negative: `QByteArray::left(n)`. -/
def QByteArray.left (a : QByteArray) (n : Int) : QByteArray :=
  a.take n.toNat

/-- The bytes from the position `pos` on, for `pos` not negative:
`QByteArray::mid(pos)`. -/
def QByteArray.mid (a : QByteArray) (pos : Int) : QByteArray :=
  a.drop pos.toNat

/-- The test `ascii_isspace` of the conversions of `QByteArray`. -/
def isAsciiSpace (b : UInt8) : Bool :=
  (9 ≤ b.toNat && b.toNat ≤ 13) || b.toNat = 32

/-- Largest value of the C++ type `int`. -/
def INT_MAX : Int := 2 ^ 31 - 1

/-- Smallest value of the C++ type `int`. -/
def INT_MIN : Int := -(2 ^ 31)

/-- The digits of an integer literal, when `ds` is one: a non-empty block of
ASCII digits. -/
def byteDigitsValue (ds : QByteArray) : Option Nat :=
  if !ds.isEmpty && ds.all (fun b => 48 ≤ b.toNat && b.toNat ≤ 57) then
    some (ds.foldl (fun acc b => 10 * acc + (b.toNat - 48)) 0)
  else none

/-- The library function `QByteArray::toInt(nullptr, 10)`: white space around
the number is skipped, a sign may precede the digits, and the result is 0 when
the conversion fails (no digits, another byte, or a value outside `int`). -/
def QByteArray.toInt (a : QByteArray) : Int :=
  let signed : Option Int :=
    match ((a.dropWhile isAsciiSpace).reverse.dropWhile isAsciiSpace).reverse with
    | [] => none
    | c :: cs =>
      if c = 45 then (byteDigitsValue cs).map (fun v => -(v : Int))
      else if c = 43 then (byteDigitsValue cs).map (fun v => (v : Int))
      else (byteDigitsValue (c :: cs)).map (fun v => (v : Int))
  match signed with
  | some v => if INT_MIN ≤ v ∧ v ≤ INT_MAX then v else 0
  | none => 0

/-- Lines 325-378 of `onProcessBinaryFrame`: after a file is complete, the next
file of the list is asked for, or the transfer is done. -/
def askNextFile (env : Env) (s : FileUpdater) : FileUpdater :=
  match s.queryList.getLast? with
  | some last =>
    let s := { s with bytesReceived := 0 }
    let s := { s with sCurrentFileName := s.destinationDir ++ last.fileName }
    match openTempFile env s (s.sCurrentFileName ++ dotTemp) with
    | .error s => s
    | .ok s => sendGet env s last.fileName
  | none => threadExit s TRANSFER_DONE

set_option linter.unusedVariables false in
/-- Lines 227-284 of `onProcessBinaryFrame`: the frame is written to the file.
`.error`: the slot has returned after a file error. The length read in the
header (lines 233-236) is assigned to `len`, which is assigned again (line
245) before it is read. -/
def writeFrame (deps : Deps) (env : Env) (s : FileUpdater) (baMessage : QByteArray) :
    Except FileUpdater FileUpdater :=
  if s.bytesReceived = 0 then
    let header := QByteArray.left baMessage 1024
    let iSeparator := QByteArray.indexOf 44 header
    let s := { s with sCurrentFileName := deps.fromUtf8 (QByteArray.left header iSeparator) }
    let header := QByteArray.mid header (iSeparator + 1)
    let iSeparator := QByteArray.indexOf 0 header
    let len : Int := QByteArray.toInt (QByteArray.left header iSeparator)
    let s := setFileName s (s.destinationDir ++ s.sCurrentFileName)
    let s := fileRemove s
    let s := setFileName s (s.destinationDir ++ s.sCurrentFileName ++ dotTemp)
    let s := fileRemove s
    match fileOpenAppend env s with
    | some s =>
      let len : Int := (baMessage.length : Int) - 1024
      let (s, written) := fileWrite env s (baMessage.drop 1024)
      let s := { s with bytesReceived := s.bytesReceived + written }
      if len ≠ written then .error (handleWriteFileError s) else .ok s
    | none => .error (handleOpenFileError s)
  else
    let len : Int := baMessage.length
    let (s, written) := fileWrite env s baMessage
    let s := { s with bytesReceived := s.bytesReceived + written }
    if len ≠ written then .error (handleWriteFileError s) else .ok s

/-- Lines 291-380 of `onProcessBinaryFrame`: what is done after the last frame
of a delivery. `none`: the call `queryList.last()` on an empty list. -/
def lastFrame (env : Env) (s : FileUpdater) : Option FileUpdater :=
  match s.queryList.getLast? with
  | none => none
  | some last =>
    if s.bytesReceived < last.fileSize then some (sendGet env s last.fileName)
    else
      let s := fileClose s
      let oldName := s.destinationDir ++ s.sCurrentFileName ++ dotTemp
      let newName := s.destinationDir ++ s.sCurrentFileName
      let s := { s with disk := s.disk.rename oldName newName }
      let s := { s with queryList := s.queryList.dropLast }
      some (askNextFile env s)

/-- The slot `FileUpdater::onProcessBinaryFrame` (lines 214-381). -/
def onProcessBinaryFrame (deps : Deps) (env : Env) (s : FileUpdater) (baMessage : QByteArray)
    (isLastFrame : Bool) : Option FileUpdater :=
  if env.interruptionRequested then some (threadExit s TRANSFER_DONE)
  else
    match writeFrame deps env s baMessage with
    | .error s => some s
    | .ok s => if isLastFrame then lastFrame env s else some s

/-- The function `FileUpdater::askFileList` (lines 140-166). -/
def askFileList (env : Env) (s : FileUpdater) : FileUpdater :=
  if env.socketValid then
    let sMessage := "<send_file_list>1</send_file_list>".toList
    let (s, bytesSent) := sendTextMessage env s sMessage
    if bytesSent ≠ QString.qlength sMessage then threadExit s ERROR_SOCKET else s
  else s

/-- The slot `FileUpdater::onUpdateSocketConnected` (lines 122-133). -/
def onUpdateSocketConnected (env : Env) (s : FileUpdater) : FileUpdater :=
  askFileList env s

/-- The slot `FileUpdater::onServerDisconnected` (lines 175-184). -/
def onServerDisconnected (s : FileUpdater) : FileUpdater :=
  threadExit s SERVER_DISCONNECTED

/-- The slot `FileUpdater::onUpdateSocketError` (lines 194-205). -/
def onUpdateSocketError (s : FileUpdater) : FileUpdater :=
  threadExit s ERROR_SOCKET

/-- A binary frame with the answers of the world while the slot handles it. -/
structure Frame where
  env : Env
  baMessage : QByteArray
  isLastFrame : Bool

/-- The slot `onProcessBinaryFrame` invoked for each frame of the list, in
order. -/
def processFrames (deps : Deps) : FileUpdater → List Frame → Option FileUpdater
  | s, [] => some s
  | s, fr :: rest =>
    match onProcessBinaryFrame deps fr.env s fr.baMessage fr.isLastFrame with
    | none => none
    | some s1 => processFrames deps s1 rest

/-! ## A concrete instance of the outside functions

The theorems below hold for every `Deps`. The instance here is used to run the
updater on concrete inputs. -/

/-- Index of the first occurrence of `pat` in the string, if any. -/
def indexOfSub (pat : QString) : QString → Option Nat
  | [] => if pat.isEmpty then some 0 else none
  | c :: cs =>
    if pat.isPrefixOf (c :: cs) then some 0 else (indexOfSub pat cs).map (fun i => i + 1)

/-- Modelled from the spec: the helper `XML_Parse` of `utility.cpp`, which is
not among the sources. The spec describes the framing `<tag>payload</tag>`
found by substring search: the result is the text between the first `<tag>` and
the first `</tag>`, and the sentinel `NoData` when the tag is not found. -/
def xmlParseModel (sMessage tag : QString) : QString :=
  let startToken := "<".toList ++ tag ++ ">".toList
  let endToken := "</".toList ++ tag ++ ">".toList
  match indexOfSub startToken sMessage, indexOfSub endToken sMessage with
  | some i, some j => (sMessage.drop (i + startToken.length)).take (j - (i + startToken.length))
  | _, _ => sNoData

/-- Wildcard matching with `*` and `?`, letters compared without case. -/
def globMatch : QString → QString → Bool
  | [], name => name.isEmpty
  | p :: ps, name =>
    if p = '*' then (List.range (name.length + 1)).any (fun k => globMatch ps (name.drop k))
    else
      match name with
      | [] => false
      | c :: cs => (p = '?' || p.toLower = c.toLower) && globMatch ps cs

/-- Bytes below 128 as the characters they encode, up to the first zero byte. -/
def asciiText : QByteArray → QString
  | [] => []
  | b :: bs => if b = 0 then [] else Char.ofNat b.toNat :: asciiText bs

/-- The instance: `xmlParseModel`, ASCII text, and name filters with `*` and
`?` that do not list hidden files. -/
def referenceDeps : Deps where
  XML_Parse := xmlParseModel
  fromUtf8 := asciiText
  nameFilterAccepts := fun nameFilter name =>
    name.head? ≠ some '.' && nameFilter.any (fun pattern => globMatch pattern name)

/-- A world in which every operation succeeds: files open, every block is
written whole, and every message is sent whole. -/
def fairEnv : Env where
  interruptionRequested := false
  canOpen := fun _ => true
  fileWrite := fun n => n
  sendTextMessage := fun m => QString.qlength m
  socketValid := true

/-- The text of a string as bytes (ASCII). -/
def asciiBytes (s : String) : QByteArray :=
  s.toList.map (fun c => UInt8.ofNat c.toNat)

/-- An updater just constructed and given its destination (lines 41-50 and
`setDestination`), on the given disk. -/
def freshUpdater (destinationDir sFileExtensions : String) (d : Disk) : FileUpdater where
  destinationDir := destinationDir.toList
  sFileExtensions := sFileExtensions.toList
  bytesReceived := 0
  sCurrentFileName := []
  file := { fileName := [], isOpen := false }
  queryList := []
  remoteFileList := []
  returnCode := none
  disk := d
  sent := []
  exits := []

/-! ## Reference definitions, after the specification -/

/-- The entry the specification gives for one item of the manifest payload:
the item needs at least two non-empty fields between `;`; the name is the
first field and the size what `sizeOf` reads in the second. -/
def specEntry (sizeOf : QString → Int) (item : QString) : Option files :=
  match QString.split ';' item with
  | name :: size :: _ => some { fileName := name, fileSize := sizeOf size }
  | _ => none

/-- The manifest the specification gives for a payload: one entry for each
non-empty item between `,` that has a name and a size, in payload order. -/
def specManifest (sizeOf : QString → Int) (payload : QString) : List files :=
  (QString.split ',' payload).filterMap (specEntry sizeOf)

/-- A manifest entry is satisfied locally when a listed local file has its
name and its size. -/
def satisfiedLocally (infos : List QFileInfo) (r : files) : Prop :=
  ∃ info ∈ infos, info.fileName = r.fileName ∧ info.size = r.fileSize

instance (infos : List QFileInfo) (r : files) : Decidable (satisfiedLocally infos r) := by
  unfold satisfiedLocally; infer_instance

/-! ## Sequences of frames -/

/-- The frame is handled with no interruption requested and its block is
written whole. -/
def Frame.written (fr : Frame) : Prop :=
  fr.env.interruptionRequested = false ∧
    fr.env.fileWrite fr.baMessage.length = fr.baMessage.length

/-- The bytes of the frames, in order. -/
def framesBytes (frames : List Frame) : QByteArray :=
  (frames.map (fun fr => fr.baMessage)).flatten

/-- None of the frames completes the file: when `received` bytes are there
before the first frame, no frame marked final brings the count to `expected`
or more. -/
def framesKeepOpen (expected : Int) : Int → List Frame → Prop
  | _, [] => True
  | received, fr :: rest =>
    (fr.isLastFrame = true → received + fr.baMessage.length < expected) ∧
    framesKeepOpen expected (received + fr.baMessage.length) rest

/-- The state of an updater in the middle of the transfer of `f` (expected size
`N`) into `<dest>f.temp`, which is open and holds `data`, a non-empty block;
`<dest>f` does not exist. -/
def Resuming (dest f : QString) (N : Int) (data : QByteArray) (s : FileUpdater) : Prop :=
  s.destinationDir = dest ∧ s.sCurrentFileName = f ∧
  s.file = { fileName := dest ++ f ++ dotTemp, isOpen := true } ∧
  s.disk.read (dest ++ f ++ dotTemp) = some data ∧
  s.bytesReceived = data.length ∧ 0 < data.length ∧
  s.queryList.getLast? = some { fileName := f, fileSize := N } ∧
  s.disk.read (dest ++ f) = none

/-! ## The first frame of a file -/

/-- Lines 229-232 of `onProcessBinaryFrame`: the file name written in the
header of the first frame of a file, the text before the first `,` of the
first 1024 bytes. -/
def headerFileName (deps : Deps) (baMessage : QByteArray) : QString :=
  deps.fromUtf8 (QByteArray.left (QByteArray.left baMessage 1024)
    (QByteArray.indexOf 44 (QByteArray.left baMessage 1024)))

/-- Lines 229-242 of `onProcessBinaryFrame`: the name of the header becomes
`sCurrentFileName`, and the final file and the `.temp` file of that name are
removed; `file` is left closed on the `.temp` path. -/
def prepareNewFile (deps : Deps) (s : FileUpdater) (baMessage : QByteArray) : FileUpdater :=
  let s := { s with sCurrentFileName := headerFileName deps baMessage }
  let s := setFileName s (s.destinationDir ++ s.sCurrentFileName)
  let s := fileRemove s
  let s := setFileName s (s.destinationDir ++ s.sCurrentFileName ++ dotTemp)
  fileRemove s

/-- The payload of the first frame of a file: its bytes after the header of
1024 bytes. -/
def Frame.payload (fr : Frame) : QByteArray :=
  fr.baMessage.drop 1024

/-- The first frame of a file is handled with no interruption requested, it
holds the whole header, the `.temp` file named by the header can be opened in
the directory `dest`, and the payload is written whole. -/
def Frame.firstWritten (deps : Deps) (dest : QString) (fr : Frame) : Prop :=
  fr.env.interruptionRequested = false ∧ 1024 ≤ fr.baMessage.length ∧
  fr.env.canOpen (dest ++ headerFileName deps fr.baMessage ++ dotTemp) = true ∧
  fr.env.fileWrite fr.payload.length = fr.payload.length

/-- The state of an updater in the middle of a transfer: `last` is the tail of
`queryList`, the bytes go to `<dest><cur>.temp`, which is open and holds
`data`, a non-empty block; `<dest><cur>` does not exist. -/
def Receiving (dest cur : QString) (last : files) (data : QByteArray) (s : FileUpdater) :
    Prop :=
  s.destinationDir = dest ∧ s.sCurrentFileName = cur ∧
  s.file = { fileName := dest ++ cur ++ dotTemp, isOpen := true } ∧
  s.disk.read (dest ++ cur ++ dotTemp) = some data ∧
  s.bytesReceived = data.length ∧ 0 < data.length ∧
  s.queryList.getLast? = some last ∧
  s.disk.read (dest ++ cur) = none

/-- The command of the specification: `<get>name,offset,524288</get>`. -/
def specGet (name : QString) (offset : Int) : QString :=
  "<get>".toList ++ name ++ ",".toList ++ QString.number offset ++ ",524288</get>".toList

/-! ## Runs of a session -/

/-- Number of bytes of the UTF-8 encoding of the string: what
`sendTextMessage` returns when the whole message is sent. -/
def QString.utf8Length (s : QString) : Int :=
  (s.map (fun c =>
    if c.toNat < 0x80 then (1 : Int) else if c.toNat < 0x800 then 2
    else if c.toNat < 0x10000 then 3 else 4)).sum

/-- An event delivered to the updater, with the answers of the world while its
slot runs. -/
inductive Event where
  /-- The signal `connected()`. -/
  | connected (env : Env)
  /-- The signal `textMessageReceived(sMessage)`. -/
  | textMessage (env : Env) (sMessage : QString)
  /-- The signal `binaryFrameReceived(baMessage, isLastFrame)`. -/
  | binaryFrame (env : Env) (baMessage : QByteArray) (isLastFrame : Bool)
  /-- The signal `error(QAbstractSocket::SocketError)`. -/
  | socketError
  /-- The signal `disconnected()`. -/
  | disconnected

/-- The slot connected to the signal (`startUpdate`, lines 99-108). -/
def handleEvent (deps : Deps) (s : FileUpdater) : Event → Option FileUpdater
  | .connected env => some (onUpdateSocketConnected env s)
  | .textMessage env sMessage => onProcessTextMessage deps env s sMessage
  | .binaryFrame env baMessage isLastFrame =>
    onProcessBinaryFrame deps env s baMessage isLastFrame
  | .socketError => some (onUpdateSocketError s)
  | .disconnected => some (onServerDisconnected s)

/-- The slots invoked for the events of the list, in order. -/
def runSession (deps : Deps) : FileUpdater → List Event → Option FileUpdater
  | s, [] => some s
  | s, e :: rest =>
    match handleEvent deps s e with
    | none => none
    | some s1 => runSession deps s1 rest

/-- Between `s` and `s'` the terminal status is set at most once: either
`returnCode` and the calls of `thread()->exit` are as before, or one call
`thread()->exit(c)` was added and `returnCode` is `c`. -/
def SetsStatusAtMostOnce (s s' : FileUpdater) : Prop :=
  (s'.exits = s.exits ∧ s'.returnCode = s.returnCode) ∨
  (∃ c, s'.exits = s.exits ++ [c] ∧ s'.returnCode = some c)

/-! ## The host: `ScorePanel` (`scorepanel.cpp`) -/

/-- The members of `ScorePanel` that the thread-done slots of the two updaters
read and write. A thread pointer is `true` when it is not null; a timer is the
list of the intervals (in ms) it was started with, oldest first. -/
structure ScorePanel where
  /-- The member `pSpotUpdater->returnCode`. -/
  spotReturnCode : Int
  /-- The member `pSlideUpdater->returnCode`. -/
  slideReturnCode : Int
  pSpotUpdaterThread : Bool
  pSlideUpdaterThread : Bool
  spotUpdaterRestartTimer : List Nat
  slideUpdaterRestartTimer : List Nat
  deriving DecidableEq, Repr

/-- The function `ScorePanel::closeSpotUpdaterThread` (lines 225-245): the
thread is deleted and the pointer set to null. -/
def closeSpotUpdaterThread (p : ScorePanel) : ScorePanel :=
  { p with pSpotUpdaterThread := false }

/-- The function `ScorePanel::closeSlideUpdaterThread` (lines 338-358). -/
def closeSlideUpdaterThread (p : ScorePanel) : ScorePanel :=
  { p with pSlideUpdaterThread := false }

/-- The slot `ScorePanel::onSpotUpdaterThreadDone` (lines 252-292); `r` is the
value of `rand()`. -/
def onSpotUpdaterThreadDone (p : ScorePanel) (r : Nat) : ScorePanel :=
  let p := closeSpotUpdaterThread p
  if p.spotReturnCode = TRANSFER_DONE then p
  else if p.spotReturnCode = ERROR_SOCKET then
    { p with spotUpdaterRestartTimer := p.spotUpdaterRestartTimer ++ [r % 5000 + 5000] }
  else if p.spotReturnCode = FILE_ERROR then p
  else if p.spotReturnCode = SERVER_DISCONNECTED then
    { p with spotUpdaterRestartTimer := p.spotUpdaterRestartTimer ++ [r % 5000 + 5000] }
  else p

/-- The slot `ScorePanel::onSlideUpdaterThreadDone` (lines 365-405); `r` is the
value of `rand()`. -/
def onSlideUpdaterThreadDone (p : ScorePanel) (r : Nat) : ScorePanel :=
  let p := closeSlideUpdaterThread p
  if p.slideReturnCode = TRANSFER_DONE then p
  else if p.slideReturnCode = ERROR_SOCKET then
    { p with slideUpdaterRestartTimer := p.slideUpdaterRestartTimer ++ [r % 5000 + 5000] }
  else if p.slideReturnCode = FILE_ERROR then p
  else if p.slideReturnCode = SERVER_DISCONNECTED then
    { p with slideUpdaterRestartTimer := p.slideUpdaterRestartTimer ++ [r % 5000 + 5000] }
  else p

/-! ## The artifact in transfer -/

/-- The count of bytes agrees with the artifact at `path`: the file at `path`
has `bytesReceived` bytes (`QFile::size()`, 0 when there is no file), and once
bytes have been received the member `file` is that artifact, open. -/
def InFlight (path : QString) (s : FileUpdater) : Prop :=
  s.disk.size path = s.bytesReceived ∧
  (s.bytesReceived ≠ 0 → s.file = { fileName := path, isOpen := true })

/-- The first frame of a file as the server builds it: a header of 1024 bytes
that starts with the file name, a `,` and the field of the announced length,
followed by the payload. `field` stands for the rest of the header after the
`,`: the decimal length, the zero byte that ends it and the padding. -/
def firstFrame (name field payload : QByteArray) : QByteArray :=
  name ++ [44] ++ field ++ payload

/-- Lines 233-236 of `onProcessBinaryFrame`: the length announced in the
header of the first frame of a file, the decimal number between the first `,`
and the first zero byte after it. -/
def headerLength (baMessage : QByteArray) : Int :=
  QByteArray.toInt
    (QByteArray.left
      (QByteArray.mid (QByteArray.left baMessage 1024)
        (QByteArray.indexOf 44 (QByteArray.left baMessage 1024) + 1))
      (QByteArray.indexOf 0
        (QByteArray.mid (QByteArray.left baMessage 1024)
          (QByteArray.indexOf 44 (QByteArray.left baMessage 1024) + 1))))

/-! ## Lemmas: strings -/

theorem splitKeep_ne_nil (sep : Char) (s : QString) : QString.splitKeep sep s ≠ [] := by
  induction s with
  | nil => simp [QString.splitKeep]
  | cons c cs ih =>
    unfold QString.splitKeep
    split
    · simp
    · split <;> simp

theorem splitKeep_cons_ne (sep c : Char) (cs : QString) (h : c ≠ sep) :
    QString.splitKeep sep (c :: cs) =
      match QString.splitKeep sep cs with
      | [] => [[c]]
      | piece :: pieces => (c :: piece) :: pieces := by
  simp [QString.splitKeep, h]

theorem splitKeep_append_sep (sep : Char) (a b : QString) :
    QString.splitKeep sep (a ++ sep :: b) = QString.splitKeep sep a ++ QString.splitKeep sep b := by
  induction a with
  | nil => simp [QString.splitKeep]
  | cons c cs ih =>
    by_cases hc : c = sep
    · simp [QString.splitKeep, hc, ih]
    · have hne := splitKeep_ne_nil sep cs
      rw [List.cons_append, splitKeep_cons_ne sep c _ hc, ih, splitKeep_cons_ne sep c _ hc]
      cases h : QString.splitKeep sep cs with
      | nil => exact absurd h hne
      | cons p ps => simp

theorem splitKeep_of_not_mem (sep : Char) (a : QString) (h : sep ∉ a) :
    QString.splitKeep sep a = [a] := by
  induction a with
  | nil => simp [QString.splitKeep]
  | cons c cs ih =>
    simp only [List.mem_cons, not_or] at h
    have hc : c ≠ sep := fun e => h.1 e.symm
    simp [QString.splitKeep, hc, ih h.2]

theorem split_append_sep (sep : Char) (a b : QString) :
    QString.split sep (a ++ sep :: b) = QString.split sep a ++ QString.split sep b := by
  simp [QString.split, splitKeep_append_sep]

theorem split_of_not_mem (sep : Char) (a : QString) (h : sep ∉ a) :
    QString.split sep a = if a = [] then [] else [a] := by
  simp only [QString.split, splitKeep_of_not_mem sep a h]
  cases a <;> simp

/-! ## Lemmas: the manifest -/

theorem parseItem_eq (acc : List files) (item : QString) :
    parseItem acc item = acc ++ (specEntry QString.toLong item).toList := by
  unfold parseItem specEntry
  split <;> simp_all

theorem foldl_parseItem (items : List QString) (acc : List files) :
    items.foldl parseItem acc = acc ++ items.filterMap (specEntry QString.toLong) := by
  induction items generalizing acc with
  | nil => simp
  | cons it rest ih =>
    simp only [List.foldl_cons, ih, parseItem_eq, List.filterMap_cons]
    cases specEntry QString.toLong it <;> simp

theorem parseFileList_eq (payload : QString) :
    parseFileList payload = specManifest QString.toLong payload := by
  simp [parseFileList, specManifest, foldl_parseItem]

end VolleyPanel

namespace VolleyPanel

theorem isSpace_of_isAsciiDigit (c : Char) (h : QChar.isAsciiDigit c = true) :
    QChar.isSpace c = false := by
  simp only [QChar.isAsciiDigit, Bool.and_eq_true, decide_eq_true_eq] at h
  simp only [QChar.isSpace, Bool.or_eq_false_iff, Bool.and_eq_false_iff, decide_eq_false_iff_not]
  omega

theorem dropWhile_isSpace_digits (ds : QString) (h : ds.all QChar.isAsciiDigit = true) :
    ds.dropWhile QChar.isSpace = ds := by
  cases ds with
  | nil => rfl
  | cons c cs =>
    simp only [List.all_cons, Bool.and_eq_true] at h
    simp [List.dropWhile, isSpace_of_isAsciiDigit c h.1]

theorem trimmed_digits (ds : QString) (h : ds.all QChar.isAsciiDigit = true) :
    QString.trimmed ds = ds := by
  unfold QString.trimmed
  rw [dropWhile_isSpace_digits ds h, dropWhile_isSpace_digits ds.reverse (by simpa using h)]
  simp

theorem toLong_digits (field : QString) (hne : field ≠ [])
    (hd : field.all QChar.isAsciiDigit = true) (hr : (decimalValue field : Int) ≤ LONG_MAX) :
    QString.toLong field = decimalValue field := by
  unfold QString.toLong
  rw [trimmed_digits field hd]
  cases field with
  | nil => exact absurd rfl hne
  | cons c cs =>
    have hc : QChar.isAsciiDigit c = true := by
      simp only [List.all_cons, Bool.and_eq_true] at hd; exact hd.1
    simp only [QChar.isAsciiDigit, Bool.and_eq_true, decide_eq_true_eq] at hc
    have h1 : c ≠ '-' := by rintro rfl; revert hc; decide
    have h2 : c.toNat ≠ 0x2212 := by omega
    have h3 : c ≠ '+' := by rintro rfl; revert hc; decide
    have hv : digitsValue (c :: cs) = some (decimalValue (c :: cs)) := by
      simp [digitsValue, hd]
    have hmin : LONG_MIN ≤ (decimalValue (c :: cs) : Int) := by
      have : (0 : Int) ≤ (decimalValue (c :: cs) : Int) := Int.ofNat_nonneg _
      have h0 : LONG_MIN ≤ 0 := by decide
      omega
    simp [h1, h2, h3, hv, hmin, hr]

/-! ## Lemmas: requests -/

theorem create_of_fileExists (d : Disk) (path : QString) (h : d.fileExists path = true) :
    d.create path = d := by
  simp [Disk.create, h]

theorem openTempFile_absent (env : Env) (s : FileUpdater) (t : QString)
    (h : s.disk.fileExists t = false) : openTempFile env s t = .ok s := by
  simp [openTempFile, h]

theorem openTempFile_opened (env : Env) (s : FileUpdater) (t : QString)
    (h : s.disk.fileExists t = true) (ho : env.canOpen t = true) :
    openTempFile env s t =
      .ok { s with bytesReceived := s.disk.size t, file := { fileName := t, isOpen := true } } := by
  simp [openTempFile, h, fileOpenAppend, setFileName, ho, create_of_fileExists]

theorem openTempFile_refused (env : Env) (s : FileUpdater) (t : QString)
    (h : s.disk.fileExists t = true) (ho : env.canOpen t = false) :
    openTempFile env s t =
      .error (threadExit
        { s with bytesReceived := s.disk.size t, file := { fileName := t, isOpen := false } }
        FILE_ERROR) := by
  simp [openTempFile, h, fileOpenAppend, setFileName, ho, handleOpenFileError]

/-- The fields an attempt to open the `.temp` file leaves alone. -/
def SameSession (s s' : FileUpdater) : Prop :=
  s'.queryList = s.queryList ∧ s'.remoteFileList = s.remoteFileList ∧ s'.disk = s.disk ∧
    s'.destinationDir = s.destinationDir ∧ s'.sFileExtensions = s.sFileExtensions ∧
    s'.sent = s.sent ∧ s'.sCurrentFileName = s.sCurrentFileName

theorem openTempFile_same (env : Env) (s : FileUpdater) (t : QString) :
    (∃ s', openTempFile env s t = .ok s' ∧ SameSession s s' ∧ s'.returnCode = s.returnCode ∧
        s'.exits = s.exits) ∨
    (∃ s', openTempFile env s t = .error s' ∧ SameSession s s' ∧
        s'.returnCode = some FILE_ERROR) := by
  cases h : s.disk.fileExists t with
  | false => exact Or.inl ⟨s, openTempFile_absent env s t h, by simp [SameSession]⟩
  | true =>
    cases ho : env.canOpen t with
    | true => exact Or.inl ⟨_, openTempFile_opened env s t h ho, by simp [SameSession]⟩
    | false =>
      exact Or.inr ⟨_, openTempFile_refused env s t h ho, by simp [SameSession, threadExit]⟩

@[simp] theorem sendGet_queryList (env : Env) (s : FileUpdater) (n : QString) :
    (sendGet env s n).queryList = s.queryList := by
  unfold sendGet sendTextMessage; dsimp only; split <;> rfl

@[simp] theorem sendGet_remoteFileList (env : Env) (s : FileUpdater) (n : QString) :
    (sendGet env s n).remoteFileList = s.remoteFileList := by
  unfold sendGet sendTextMessage; dsimp only; split <;> rfl

@[simp] theorem sendGet_disk (env : Env) (s : FileUpdater) (n : QString) :
    (sendGet env s n).disk = s.disk := by
  unfold sendGet sendTextMessage; dsimp only; split <;> rfl

@[simp] theorem sendGet_file (env : Env) (s : FileUpdater) (n : QString) :
    (sendGet env s n).file = s.file := by
  unfold sendGet sendTextMessage; dsimp only; split <;> rfl

@[simp] theorem sendGet_bytesReceived (env : Env) (s : FileUpdater) (n : QString) :
    (sendGet env s n).bytesReceived = s.bytesReceived := by
  unfold sendGet sendTextMessage; dsimp only; split <;> rfl

@[simp] theorem sendGet_sCurrentFileName (env : Env) (s : FileUpdater) (n : QString) :
    (sendGet env s n).sCurrentFileName = s.sCurrentFileName := by
  unfold sendGet sendTextMessage; dsimp only; split <;> rfl

@[simp] theorem sendGet_destinationDir (env : Env) (s : FileUpdater) (n : QString) :
    (sendGet env s n).destinationDir = s.destinationDir := by
  unfold sendGet sendTextMessage; dsimp only; split <;> rfl

@[simp] theorem sendGet_sFileExtensions (env : Env) (s : FileUpdater) (n : QString) :
    (sendGet env s n).sFileExtensions = s.sFileExtensions := by
  unfold sendGet sendTextMessage; dsimp only; split <;> rfl

@[simp] theorem sendGet_sent (env : Env) (s : FileUpdater) (n : QString) :
    (sendGet env s n).sent = s.sent ++ [getCommand n s.bytesReceived] := by
  unfold sendGet sendTextMessage; dsimp only; split <;> rfl

theorem askFirstFile_frame (env : Env) (s : FileUpdater) (h : s.queryList ≠ []) :
    ∃ s', askFirstFile env s = some s' ∧ s'.queryList = s.queryList ∧
      s'.remoteFileList = s.remoteFileList ∧ s'.disk = s.disk ∧
      s'.destinationDir = s.destinationDir ∧ s'.sFileExtensions = s.sFileExtensions := by
  obtain ⟨last, hlast⟩ : ∃ last, s.queryList.getLast? = some last := by
    cases hq : s.queryList.getLast? with
    | none => exact absurd (List.getLast?_eq_none_iff.mp hq) h
    | some last => exact ⟨last, rfl⟩
  unfold askFirstFile
  simp only [hlast]
  rcases openTempFile_same env
      { s with bytesReceived := 0, sCurrentFileName := last.fileName }
      (s.destinationDir ++ last.fileName ++ dotTemp) with ⟨s', h1, h2, -⟩ | ⟨s', h1, h2, -⟩
  · rw [h1]
    obtain ⟨a, b, c, d, e, -⟩ := h2
    exact ⟨_, rfl, by simp [a], by simp [b], by simp [c], by simp [d], by simp [e]⟩
  · rw [h1]
    obtain ⟨a, b, c, d, e, -⟩ := h2
    exact ⟨_, rfl, a, b, c, d, e⟩

/-! ## Lemmas: the diff -/

theorem foundLocal_iff (remote : files) (infos : List QFileInfo) :
    foundLocal remote infos = true ↔
      ∃ info ∈ infos, remote.fileName = info.fileName ∧ remote.fileSize = info.size := by
  induction infos with
  | nil => simp [foundLocal]
  | cons info rest ih =>
    unfold foundLocal
    by_cases h : remote.fileName = info.fileName ∧ remote.fileSize = info.size
    · simp only [h, and_self, if_true, List.mem_cons, exists_eq_or_imp, true_or]
    · simp only [h, if_false, ih, List.mem_cons, exists_eq_or_imp, false_or]

theorem foldl_queryStep (infos : List QFileInfo) (remotes acc : List files) :
    remotes.foldl (queryStep infos) acc =
      acc ++ remotes.filter (fun r => !foundLocal r infos) := by
  induction remotes generalizing acc with
  | nil => simp
  | cons r rest ih =>
    simp only [List.foldl_cons, ih, queryStep, List.filter_cons]
    cases foundLocal r infos <;> simp

theorem buildQueryList_eq (remotes : List files) (infos : List QFileInfo) :
    buildQueryList remotes infos = remotes.filter (fun r => !foundLocal r infos) := by
  simp [buildQueryList, foldl_queryStep]

theorem updateFiles_result (deps : Deps) (env : Env) (s : FileUpdater) :
    ∃ s', updateFiles deps env s = some s' ∧
      s'.queryList = buildQueryList s.remoteFileList (localFiles deps s) ∧
      s'.remoteFileList = s.remoteFileList ∧
      s'.disk = removeLocalFiles s.remoteFileList (localFiles deps s) s.disk ∧
      (s'.queryList = [] →
        s'.returnCode = some TRANSFER_DONE ∧ s'.sent = s.sent ∧
          s'.exits = s.exits ++ [TRANSFER_DONE]) := by
  unfold updateFiles
  dsimp only
  cases hq : buildQueryList s.remoteFileList (localFiles deps s) with
  | nil =>
    let d' := removeLocalFiles s.remoteFileList (localFiles deps s) s.disk
    exact ⟨threadExit { s with queryList := [], disk := d' } TRANSFER_DONE, by simp,
      rfl, rfl, rfl, fun _ => ⟨rfl, rfl, rfl⟩⟩
  | cons q qs =>
    obtain ⟨s', h1, h2, h3, h4, -⟩ := askFirstFile_frame env
      { s with queryList := q :: qs,
               disk := removeLocalFiles s.remoteFileList (localFiles deps s) s.disk } (by simp)
    refine ⟨s', ?_, h2, h3, h4, ?_⟩
    · simpa using h1
    · intro h; rw [h2] at h; simp at h

end VolleyPanel

namespace VolleyPanel

theorem mem_distinctPaths (l : List (QString × QByteArray)) (q : QString) :
    q ∈ distinctPaths l ↔ q ∈ l.map Prod.fst := by
  induction l with
  | nil => simp [distinctPaths]
  | cons e rest ih =>
    obtain ⟨p, c⟩ := e
    simp only [distinctPaths, List.mem_cons, List.mem_filter, ih, List.map_cons,
      decide_eq_true_eq]
    by_cases h : q = p <;> simp [h]

theorem mem_entryInfoList (deps : Deps) (d : Disk) (dir : QString) (nf : List QString)
    (info : QFileInfo) :
    info ∈ entryInfoList deps d dir nf ↔
      info.absoluteFilePath ∈ d.entries.map Prod.fst ∧
      info.absoluteFilePath = dirPath dir ++ info.fileName ∧
      info.size = d.size info.absoluteFilePath ∧ info.fileName ≠ [] ∧ '/' ∉ info.fileName ∧
      deps.nameFilterAccepts nf info.fileName = true := by
  unfold entryInfoList
  simp only [List.mem_filterMap, mem_distinctPaths]
  constructor
  · rintro ⟨p, hp, hif⟩
    split at hif
    · rename_i hc
      obtain ⟨h1, h2, h3, h4⟩ := hc
      simp only [Option.some.injEq] at hif
      subst hif
      have hpre : dirPath dir ++ p.drop (dirPath dir).length = p :=
        List.prefix_iff_eq_append.mp (List.isPrefixOf_iff_prefix.mp h1)
      exact ⟨hp, hpre.symm, rfl, h2, h3, h4⟩
    · exact absurd hif (by simp)
  · rintro ⟨hp, hpath, hsize, hne, hslash, hacc⟩
    refine ⟨info.absoluteFilePath, hp, ?_⟩
    have hdrop : info.absoluteFilePath.drop (dirPath dir).length = info.fileName := by
      rw [hpath]; simp
    have hpre : (dirPath dir).isPrefixOf info.absoluteFilePath = true := by
      rw [List.isPrefixOf_iff_prefix, hpath]; exact List.prefix_append _ _
    rw [hdrop]
    rw [if_pos ⟨hpre, hne, hslash, hacc⟩]
    cases info
    simp_all

theorem entryInfoList_name_inj (deps : Deps) (d : Disk) (dir : QString) (nf : List QString)
    (i1 i2 : QFileInfo) (h1 : i1 ∈ entryInfoList deps d dir nf)
    (h2 : i2 ∈ entryInfoList deps d dir nf) (h : i1.fileName = i2.fileName) : i1 = i2 := by
  rw [mem_entryInfoList] at h1 h2
  obtain ⟨-, a1, b1, -⟩ := h1
  obtain ⟨-, a2, b2, -⟩ := h2
  have hp : i1.absoluteFilePath = i2.absoluteFilePath := by rw [a1, a2, h]
  cases i1; cases i2
  simp_all

theorem localFiles_name_inj (deps : Deps) (s : FileUpdater) (i1 i2 : QFileInfo)
    (h1 : i1 ∈ localFiles deps s) (h2 : i2 ∈ localFiles deps s)
    (h : i1.fileName = i2.fileName) : i1 = i2 := by
  unfold localFiles at h1 h2
  split at h1
  · rw [if_pos (by assumption)] at h2
    exact entryInfoList_name_inj _ _ _ _ _ _ h1 h2 h
  · simp at h1

theorem buildQueryList_spec (remotes : List files) (infos : List QFileInfo) :
    buildQueryList remotes infos =
      remotes.filter (fun r => decide (¬ satisfiedLocally infos r)) := by
  rw [buildQueryList_eq]
  apply List.filter_congr
  intro r _
  by_cases h : foundLocal r infos = true
  · have h' : satisfiedLocally infos r := by
      obtain ⟨info, hi, a, b⟩ := (foundLocal_iff r infos).mp h
      exact ⟨info, hi, a.symm, b.symm⟩
    simp [h, h']
  · have h' : ¬ satisfiedLocally infos r := by
      rintro ⟨info, hi, a, b⟩
      exact h ((foundLocal_iff r infos).mpr ⟨info, hi, a.symm, b.symm⟩)
    simp [h, h']

/-! ## Lemmas: the disk -/

theorem lookupPath_filter_self (p : QString) (l : List (QString × QByteArray)) :
    lookupPath p (l.filter (fun e => e.1 ≠ p)) = none := by
  induction l with
  | nil => rfl
  | cons e rest ih =>
    by_cases h : e.1 = p
    · rw [List.filter_cons_of_neg (by simp [h])]
      exact ih
    · rw [List.filter_cons_of_pos (by simp [h])]
      obtain ⟨q, c⟩ := e
      simp only [lookupPath]
      rw [if_neg h]
      exact ih

theorem lookupPath_filter_ne (p q : QString) (h : q ≠ p) (l : List (QString × QByteArray)) :
    lookupPath q (l.filter (fun e => e.1 ≠ p)) = lookupPath q l := by
  induction l with
  | nil => rfl
  | cons e rest ih =>
    obtain ⟨r, c⟩ := e
    by_cases hr : r = p
    · subst hr
      have hne : ¬ r = q := fun e => h e.symm
      rw [List.filter_cons_of_neg (by simp), ih]
      simp [lookupPath, hne]
    · rw [List.filter_cons_of_pos (by simp [hr])]
      simp only [lookupPath, ih]

theorem read_remove_self (d : Disk) (p : QString) : (d.remove p).read p = none :=
  lookupPath_filter_self p d.entries

theorem read_remove_ne (d : Disk) (p q : QString) (h : q ≠ p) :
    (d.remove p).read q = d.read q :=
  lookupPath_filter_ne p q h d.entries

theorem read_remove_of_none (d : Disk) (p q : QString) (h : d.read q = none) :
    (d.remove p).read q = none := by
  by_cases e : q = p
  · subst e; exact read_remove_self d q
  · rw [read_remove_ne d p q e]; exact h

theorem lookupPath_isSome_iff (p : QString) (l : List (QString × QByteArray)) :
    (lookupPath p l).isSome = true ↔ p ∈ l.map Prod.fst := by
  induction l with
  | nil => simp [lookupPath]
  | cons e rest ih =>
    obtain ⟨q, c⟩ := e
    by_cases h : q = p
    · simp [lookupPath, h]
    · have h' : ¬ p = q := fun e => h e.symm
      simp [lookupPath, h, h', ih]

/-! ## Lemmas: pruning -/

theorem foundRemote_iff (info : QFileInfo) (t : QString) (remotes : List files) :
    foundRemote info t remotes = true ↔
      ∃ r ∈ remotes, (r.fileName = info.fileName ∧ r.fileSize = info.size) ∨ r.fileName = t := by
  induction remotes with
  | nil => simp [foundRemote]
  | cons r rest ih =>
    unfold foundRemote
    by_cases h1 : r.fileName = info.fileName ∧ r.fileSize = info.size
    · rw [if_pos h1]
      simp only [List.mem_cons, exists_eq_or_imp, h1, and_self, true_or]
    · rw [if_neg h1]
      by_cases h2 : r.fileName = t
      · rw [if_pos h2]
        simp only [List.mem_cons, exists_eq_or_imp, h2, or_true, true_or]
      · rw [if_neg h2, ih]
        simp only [List.mem_cons, exists_eq_or_imp, h1, h2, or_self, false_or]

theorem lastIndexOfDot_cons (c : Char) (cs : QString) :
    QString.lastIndexOfDot (c :: cs) =
      if 0 ≤ QString.lastIndexOfDot cs then QString.lastIndexOfDot cs + 1
      else if c = '.' then 0 else -1 := rfl

theorem lastIndexOfDot_append_dotTemp (f : QString) :
    QString.lastIndexOfDot (f ++ dotTemp) = f.length := by
  induction f with
  | nil => decide
  | cons c cs ih =>
    rw [List.cons_append, lastIndexOfDot_cons, ih]
    have : (0 : Int) ≤ (cs.length : Int) := Int.ofNat_nonneg _
    simp [this]

theorem left_append_dotTemp (f : QString) :
    QString.left (f ++ dotTemp) (QString.lastIndexOfDot (f ++ dotTemp)) = f := by
  rw [lastIndexOfDot_append_dotTemp]
  unfold QString.left
  have : ¬ ((f.length : Int) < 0) := by omega
  simp [this]

theorem removeLocalFiles_read_none (remotes : List files) (p : QString)
    (infos : List QFileInfo) (d : Disk)
    (h : d.read p = none ∨ ∃ info ∈ infos, info.absoluteFilePath = p ∧
      foundRemote info (QString.left info.fileName (QString.lastIndexOfDot info.fileName))
        remotes = false) :
    (removeLocalFiles remotes infos d).read p = none := by
  induction infos generalizing d with
  | nil =>
    rcases h with h | ⟨info, hi, -⟩
    · exact h
    · simp at hi
  | cons i rest ih =>
    unfold removeLocalFiles
    rw [List.foldl_cons]
    apply ih
    rcases h with h | ⟨info, hi, hp, hf⟩
    · left
      unfold removeStep
      dsimp only
      split
      · exact read_remove_of_none _ _ _ h
      · exact h
    · rcases List.mem_cons.mp hi with e | hmem
      · left
        subst e
        unfold removeStep
        simp only [hf, Bool.not_false, if_true]
        rw [hp]
        exact read_remove_self d p
      · right
        exact ⟨info, hmem, hp, hf⟩

theorem removeLocalFiles_read_kept (remotes : List files) (p : QString)
    (infos : List QFileInfo) (d : Disk)
    (h : ∀ info ∈ infos, info.absoluteFilePath = p →
      foundRemote info (QString.left info.fileName (QString.lastIndexOfDot info.fileName))
        remotes = true) :
    (removeLocalFiles remotes infos d).read p = d.read p := by
  induction infos generalizing d with
  | nil => rfl
  | cons i rest ih =>
    unfold removeLocalFiles
    rw [List.foldl_cons]
    have hrest := ih (removeStep remotes d i) (fun info hi => h info (List.mem_cons_of_mem _ hi))
    unfold removeLocalFiles at hrest
    rw [hrest]
    unfold removeStep
    dsimp only
    split
    · rename_i hnf
      apply read_remove_ne
      intro e
      have := h i (List.mem_cons_self _ _) e.symm
      simp [this] at hnf
    · rfl

/-! ## Lemmas: the command `get` -/

theorem argPieces_idle_cons (c : Char) (cs : QString) :
    argPieces .idle (c :: cs) =
      if c = '%' then argPieces (.percent [c]) cs else ArgPiece.lit c :: argPieces .idle cs :=
  rfl

theorem argPieces_plain (pre tail : QString) (h : '%' ∉ pre) :
    argPieces .idle (pre ++ tail) = pre.map ArgPiece.lit ++ argPieces .idle tail := by
  induction pre with
  | nil => rfl
  | cons c cs ih =>
    simp only [List.mem_cons, not_or] at h
    have hc : c ≠ '%' := fun e => h.1 e.symm
    rw [List.cons_append, argPieces_idle_cons, if_neg hc, ih h.2]
    rfl

theorem lowestMarker_plain (pre : QString) (ps : List ArgPiece) :
    lowestMarker (pre.map ArgPiece.lit ++ ps) = lowestMarker ps := by
  induction pre with
  | nil => rfl
  | cons c cs ih => simpa [lowestMarker] using ih

theorem render_plain (low : Nat) (a pre : QString) :
    ((pre.map ArgPiece.lit).map (ArgPiece.render low a)).flatten = pre := by
  induction pre with
  | nil => rfl
  | cons c cs ih =>
    show [c] ++ ((cs.map ArgPiece.lit).map (ArgPiece.render low a)).flatten = c :: cs
    rw [ih]
    rfl

theorem arg_plain (pre tail a : QString) (low : Nat) (h : '%' ∉ pre)
    (hlow : lowestMarker (argPieces .idle tail) = some low) :
    QString.arg (pre ++ tail) a =
      pre ++ ((argPieces .idle tail).map (ArgPiece.render low a)).flatten := by
  unfold QString.arg
  simp only [argPieces_plain pre tail h, lowestMarker_plain, hlow, List.map_append,
    List.flatten_append, render_plain]

theorem decimalDigitsRev_no_percent (fuel n : Nat) : '%' ∉ decimalDigitsRev fuel n := by
  induction fuel generalizing n with
  | zero => simp [decimalDigitsRev]
  | succ k ih =>
    have hd : ∀ d, d < 10 → '%' ≠ Char.ofNat (48 + d) := by decide
    unfold decimalDigitsRev
    simp only [List.mem_cons, not_or]
    refine ⟨hd _ (Nat.mod_lt _ (by decide)), ?_⟩
    split
    · simp
    · exact ih _

theorem number_no_percent (k : Int) : '%' ∉ QString.number k := by
  unfold QString.number
  have h := decimalDigitsRev_no_percent (k.natAbs + 1) k.natAbs
  dsimp only
  split
  · simp only [List.mem_cons, List.mem_reverse, not_or]
    exact ⟨by decide, h⟩
  · simpa using h

/-- For a file name without `%`, the command is `<get>name,offset,524288</get>`. -/
theorem getCommand_plain (f : QString) (k : Int) (h : '%' ∉ f) :
    getCommand f k =
      "<get>".toList ++ f ++ ",".toList ++ QString.number k ++ ",524288</get>".toList := by
  unfold getCommand
  have e1 : QString.arg "<get>%1,%2,%3</get>".toList f =
      ("<get>".toList ++ f) ++ ",%2,%3</get>".toList := by
    have := arg_plain "<get>".toList "%1,%2,%3</get>".toList f 1 (by decide) (by rfl)
    simpa [ArgPiece.render, argPieces] using this
  have h2 : '%' ∉ "<get>".toList ++ f := by
    simp only [List.mem_append, not_or]
    exact ⟨by decide, h⟩
  have e2 : QString.arg (("<get>".toList ++ f) ++ ",%2,%3</get>".toList) (QString.number k) =
      ("<get>".toList ++ f ++ ",".toList ++ QString.number k) ++ ",%3</get>".toList := by
    have := arg_plain ("<get>".toList ++ f) ",%2,%3</get>".toList (QString.number k) 2 h2
      (by rfl)
    simpa [ArgPiece.render, argPieces] using this
  have h3 : '%' ∉ "<get>".toList ++ f ++ ",".toList ++ QString.number k := by
    simp only [List.mem_append, not_or]
    exact ⟨⟨⟨by decide, h⟩, by decide⟩, number_no_percent k⟩
  have e3 : QString.arg (("<get>".toList ++ f ++ ",".toList ++ QString.number k) ++
        ",%3</get>".toList) (QString.number CHUNK_SIZE) =
      "<get>".toList ++ f ++ ",".toList ++ QString.number k ++ ",524288</get>".toList := by
    have := arg_plain ("<get>".toList ++ f ++ ",".toList ++ QString.number k)
      ",%3</get>".toList (QString.number CHUNK_SIZE) 3 h3 (by rfl)
    rw [this]
    have hn : QString.number CHUNK_SIZE = "524288".toList := by decide
    rw [hn]
    rfl
  rw [e1, e2, e3]

/-! ## Lemmas: frames -/

theorem lookupPath_cons (p q : QString) (c : QByteArray) (rest : List (QString × QByteArray)) :
    lookupPath p ((q, c) :: rest) = if q = p then some c else lookupPath p rest := rfl

theorem lookupPath_map_append_self (p : QString) (x : QByteArray)
    (l : List (QString × QByteArray)) :
    lookupPath p (l.map (fun e => if e.1 = p then (e.1, e.2 ++ x) else e)) =
      (lookupPath p l).map (fun c => c ++ x) := by
  induction l with
  | nil => rfl
  | cons e rest ih =>
    obtain ⟨q, c⟩ := e
    by_cases h : q = p
    · rw [List.map_cons, if_pos h, lookupPath_cons, if_pos h, lookupPath_cons, if_pos h]
      rfl
    · rw [List.map_cons, if_neg h, lookupPath_cons, if_neg h, lookupPath_cons, if_neg h, ih]

theorem lookupPath_map_append_ne (p q : QString) (h : q ≠ p) (x : QByteArray)
    (l : List (QString × QByteArray)) :
    lookupPath q (l.map (fun e => if e.1 = p then (e.1, e.2 ++ x) else e)) = lookupPath q l := by
  induction l with
  | nil => rfl
  | cons e rest ih =>
    obtain ⟨r, c⟩ := e
    by_cases hr : r = p
    · have hne : ¬ r = q := fun e => h (e.symm.trans hr)
      rw [List.map_cons, if_pos hr, lookupPath_cons, if_neg hne, lookupPath_cons, if_neg hne, ih]
    · rw [List.map_cons, if_neg hr, lookupPath_cons, lookupPath_cons, ih]

theorem read_append_self (d : Disk) (p : QString) (x : QByteArray) :
    (d.append p x).read p = (d.read p).map (fun c => c ++ x) :=
  lookupPath_map_append_self p x d.entries

theorem read_append_ne (d : Disk) (p q : QString) (h : q ≠ p) (x : QByteArray) :
    (d.append p x).read q = d.read q :=
  lookupPath_map_append_ne p q h x d.entries

theorem lookupPath_map_rename_new (o n : QString) (c : QByteArray)
    (l : List (QString × QByteArray)) (ho : lookupPath o l = some c)
    (hn : lookupPath n l = none) :
    lookupPath n (l.map (fun e => if e.1 = o then (n, e.2) else e)) = some c := by
  induction l with
  | nil => simp [lookupPath] at ho
  | cons e rest ih =>
    obtain ⟨q, x⟩ := e
    by_cases hq : q = o
    · rw [lookupPath_cons, if_pos hq] at ho
      rw [List.map_cons, if_pos hq, lookupPath_cons, if_pos rfl]
      exact ho
    · have hqn : ¬ q = n := by
        intro e
        rw [lookupPath_cons, if_pos e] at hn
        exact absurd hn (by simp)
      rw [lookupPath_cons, if_neg hq] at ho
      rw [lookupPath_cons, if_neg hqn] at hn
      rw [List.map_cons, if_neg hq, lookupPath_cons, if_neg hqn]
      exact ih ho hn

theorem lookupPath_map_rename_old (o n : QString) (hne : o ≠ n)
    (l : List (QString × QByteArray)) :
    lookupPath o (l.map (fun e => if e.1 = o then (n, e.2) else e)) = none := by
  induction l with
  | nil => rfl
  | cons e rest ih =>
    obtain ⟨q, x⟩ := e
    by_cases hq : q = o
    · have : ¬ n = o := fun e => hne e.symm
      rw [List.map_cons, if_pos hq, lookupPath_cons, if_neg this]
      exact ih
    · rw [List.map_cons, if_neg hq, lookupPath_cons, if_neg hq]
      exact ih

theorem read_rename (d : Disk) (o n : QString) (c : QByteArray) (hne : o ≠ n)
    (ho : d.read o = some c) (hn : d.read n = none) :
    (d.rename o n).read n = some c ∧ (d.rename o n).read o = none := by
  have h1 : d.fileExists o = true := by unfold Disk.fileExists; rw [ho]; rfl
  have h2 : ¬ d.fileExists n = true := by unfold Disk.fileExists; rw [hn]; simp
  unfold Disk.rename
  rw [if_pos ⟨h1, h2⟩]
  exact ⟨lookupPath_map_rename_new o n c d.entries ho hn,
    lookupPath_map_rename_old o n hne d.entries⟩

theorem path_ne_temp (p : QString) : p ++ dotTemp ≠ p := by
  intro h
  have := congrArg List.length h
  simp [dotTemp] at this

/-- A frame that is not the first of its file and is written whole. -/
theorem writeFrame_next (deps : Deps) (env : Env) (s : FileUpdater) (ba : QByteArray)
    (h0 : s.bytesReceived ≠ 0) (hopen : s.file.isOpen = true)
    (hw : env.fileWrite ba.length = ba.length) :
    writeFrame deps env s ba =
      .ok { s with disk := s.disk.append s.file.fileName ba,
                   bytesReceived := s.bytesReceived + ba.length } := by
  unfold writeFrame
  rw [if_neg h0]
  simp [fileWrite, hopen, hw]

end VolleyPanel

namespace VolleyPanel

theorem askNextFile_frame (env : Env) (s : FileUpdater) :
    (askNextFile env s).disk = s.disk ∧ (askNextFile env s).queryList = s.queryList := by
  unfold askNextFile
  cases hq : s.queryList.getLast? with
  | none => exact ⟨rfl, rfl⟩
  | some last =>
    dsimp only
    rcases openTempFile_same env
        { s with bytesReceived := 0, sCurrentFileName := s.destinationDir ++ last.fileName }
        (s.destinationDir ++ last.fileName ++ dotTemp) with ⟨s', h1, h2, -⟩ | ⟨s', h1, h2, -⟩
    · rw [h1]
      obtain ⟨a, -, c, -⟩ := h2
      exact ⟨by simp [c], by simp [a]⟩
    · rw [h1]
      obtain ⟨a, -, c, -⟩ := h2
      exact ⟨c, a⟩

theorem frame_keeps_resuming (deps : Deps) (dest f : QString) (N : Int) (data : QByteArray)
    (s : FileUpdater) (fr : Frame) (hinv : Resuming dest f N data s) (hw : fr.written)
    (hkeep : fr.isLastFrame = true → (data.length : Int) + fr.baMessage.length < N) :
    ∃ s', onProcessBinaryFrame deps fr.env s fr.baMessage fr.isLastFrame = some s' ∧
      Resuming dest f N (data ++ fr.baMessage) s' ∧ s'.queryList = s.queryList := by
  obtain ⟨hd, hc, hfile, htemp, hbytes, hpos, hlast, hfinal⟩ := hinv
  have h0 : s.bytesReceived ≠ 0 := by rw [hbytes]; omega
  have hopen : s.file.isOpen = true := by rw [hfile]
  have hwr := writeFrame_next deps fr.env s fr.baMessage h0 hopen hw.2
  have hname : s.file.fileName = dest ++ f ++ dotTemp := by rw [hfile]
  have hlen : s.bytesReceived + (fr.baMessage.length : Int) =
      ((data ++ fr.baMessage).length : Int) := by
    rw [hbytes, List.length_append]; push_cast; rfl
  have hpos' : 0 < (data ++ fr.baMessage).length := by
    rw [List.length_append]; omega
  have hread1 : (s.disk.append s.file.fileName fr.baMessage).read (dest ++ f ++ dotTemp) =
      some (data ++ fr.baMessage) := by
    rw [hname, read_append_self, htemp]; rfl
  have hread2 : (s.disk.append s.file.fileName fr.baMessage).read (dest ++ f) = none := by
    rw [hname, read_append_ne _ _ _ (path_ne_temp (dest ++ f)).symm, hfinal]
  unfold onProcessBinaryFrame
  rw [hw.1, hwr]
  simp only [Bool.false_eq_true, if_false]
  cases hfin : fr.isLastFrame with
  | false =>
    simp only [Bool.false_eq_true, if_false]
    exact ⟨_, rfl, ⟨hd, hc, hfile, hread1, hlen, hpos', hlast, hread2⟩, rfl⟩
  | true =>
    simp only [if_true]
    have hlt := hkeep hfin
    unfold lastFrame
    simp only [hlast]
    rw [if_pos (by rw [hbytes]; exact hlt)]
    refine ⟨_, rfl, ⟨?_, ?_, ?_, ?_, ?_, hpos', ?_, ?_⟩, ?_⟩
    · simp [hd]
    · simp [hc]
    · simp [hfile]
    · rw [sendGet_disk]; exact hread1
    · rw [sendGet_bytesReceived]; exact hlen
    · rw [sendGet_queryList]; exact hlast
    · rw [sendGet_disk]; exact hread2
    · rw [sendGet_queryList]

theorem frame_completes (deps : Deps) (dest f : QString) (N : Int) (data : QByteArray)
    (s : FileUpdater) (fr : Frame) (hinv : Resuming dest f N data s) (hw : fr.written)
    (hfin : fr.isLastFrame = true)
    (hsum : ¬ ((data.length : Int) + fr.baMessage.length < N)) :
    ∃ s', onProcessBinaryFrame deps fr.env s fr.baMessage fr.isLastFrame = some s' ∧
      s'.disk.read (dest ++ f) = some (data ++ fr.baMessage) ∧
      s'.disk.read (dest ++ f ++ dotTemp) = none ∧
      s'.queryList = s.queryList.dropLast := by
  obtain ⟨hd, hc, hfile, htemp, hbytes, hpos, hlast, hfinal⟩ := hinv
  have h0 : s.bytesReceived ≠ 0 := by rw [hbytes]; omega
  have hopen : s.file.isOpen = true := by rw [hfile]
  have hwr := writeFrame_next deps fr.env s fr.baMessage h0 hopen hw.2
  have hname : s.file.fileName = dest ++ f ++ dotTemp := by rw [hfile]
  have hread1 : (s.disk.append s.file.fileName fr.baMessage).read (dest ++ f ++ dotTemp) =
      some (data ++ fr.baMessage) := by
    rw [hname, read_append_self, htemp]; rfl
  have hread2 : (s.disk.append s.file.fileName fr.baMessage).read (dest ++ f) = none := by
    rw [hname, read_append_ne _ _ _ (path_ne_temp (dest ++ f)).symm, hfinal]
  obtain ⟨hr1, hr2⟩ := read_rename _ _ _ _ (path_ne_temp (dest ++ f)) hread1 hread2
  unfold onProcessBinaryFrame
  rw [hw.1, hwr, hfin]
  simp only [Bool.false_eq_true, if_false, if_true]
  unfold lastFrame
  simp only [hlast]
  rw [if_neg (by rw [hbytes]; exact hsum)]
  simp only [fileClose, hd, hc]
  refine ⟨_, rfl, ?_, ?_, ?_⟩
  · rw [(askNextFile_frame _ _).1]; exact hr1
  · rw [(askNextFile_frame _ _).1]; exact hr2
  · rw [(askNextFile_frame _ _).2]

theorem processFrames_append (deps : Deps) (s : FileUpdater) (xs ys : List Frame) :
    processFrames deps s (xs ++ ys) =
      (processFrames deps s xs).bind (fun s1 => processFrames deps s1 ys) := by
  induction xs generalizing s with
  | nil => rfl
  | cons fr rest ih =>
    simp only [List.cons_append, processFrames]
    cases onProcessBinaryFrame deps fr.env s fr.baMessage fr.isLastFrame with
    | none => rfl
    | some s1 => exact ih s1

theorem processFrames_keep (deps : Deps) (dest f : QString) (N : Int) (pre : List Frame)
    (data : QByteArray) (s : FileUpdater) (hinv : Resuming dest f N data s)
    (hw : ∀ fr ∈ pre, fr.written) (hkeep : framesKeepOpen N data.length pre) :
    ∃ s', processFrames deps s pre = some s' ∧
      Resuming dest f N (data ++ framesBytes pre) s' ∧ s'.queryList = s.queryList := by
  induction pre generalizing data s with
  | nil => exact ⟨s, rfl, by simpa [framesBytes] using hinv, rfl⟩
  | cons fr rest ih =>
    obtain ⟨hk1, hk2⟩ := hkeep
    obtain ⟨s1, h1, hinv1, hq1⟩ := frame_keeps_resuming deps dest f N data s fr hinv
      (hw fr (List.mem_cons_self _ _)) hk1
    have hk2' : framesKeepOpen N ((data ++ fr.baMessage).length : Int) rest := by
      rw [List.length_append]; push_cast; exact hk2
    obtain ⟨s2, h2, hinv2, hq2⟩ := ih (data ++ fr.baMessage) s1 hinv1
      (fun x hx => hw x (List.mem_cons_of_mem _ hx)) hk2'
    refine ⟨s2, ?_, ?_, by rw [hq2, hq1]⟩
    · simp only [processFrames, h1]; exact h2
    · simpa [framesBytes, List.append_assoc] using hinv2

/-! ## The manifest (claims C1 to C4) -/

/-- C1, as stated, fails: for the payload `big.jpg;99999999999999999999` the
slot stores the entry `big.jpg` with size 0, because `toLong` fails outside the
range of `long`, while the decimal value of the second field is
99999999999999999999. -/
theorem manifest_decimal_value_counterexample :
    referenceDeps.XML_Parse
        "<file_list>big.jpg;99999999999999999999</file_list>".toList fileListTag
      ≠ sNoData ∧
    (onProcessTextMessage referenceDeps fairEnv
        (freshUpdater "/home/pi/slides/" "*.jpg" { dirs := [], entries := [] })
        "<file_list>big.jpg;99999999999999999999</file_list>".toList).map
      (fun s => s.remoteFileList) = some [{ fileName := "big.jpg".toList, fileSize := 0 }] ∧
    specManifest (fun field => (decimalValue field : Int))
        "big.jpg;99999999999999999999".toList
      = [{ fileName := "big.jpg".toList, fileSize := 99999999999999999999 }] := by
  refine ⟨by decide, by rfl, by rfl⟩

/-- C1, amended: for every `file_list` payload other than the sentinel, the
slot returns and `remoteFileList` is exactly the reference manifest: one entry
for each non-empty item between `,` that has at least two non-empty fields
between `;`, in payload order, with the first field as name and `toLong` of the
second field as size. That size is the decimal value of the field whenever the
field is a non-empty string of ASCII digits whose value fits in a `long`; and
the payload `a.jpg;100,b.jpg;200` gives `{a.jpg,100}` and `{b.jpg,200}`. -/
theorem manifest_parse_refines_spec (deps : Deps) (env : Env) (s : FileUpdater)
    (sMessage : QString) (h : deps.XML_Parse sMessage fileListTag ≠ sNoData) :
    (∃ s', onProcessTextMessage deps env s sMessage = some s' ∧
      s'.remoteFileList =
        specManifest QString.toLong (deps.XML_Parse sMessage fileListTag)) ∧
    (∀ field : QString, field ≠ [] → field.all QChar.isAsciiDigit = true →
      (decimalValue field : Int) ≤ LONG_MAX → QString.toLong field = decimalValue field) ∧
    specManifest QString.toLong "a.jpg;100,b.jpg;200".toList =
      [{ fileName := "a.jpg".toList, fileSize := 100 },
       { fileName := "b.jpg".toList, fileSize := 200 }] := by
  refine ⟨?_, toLong_digits, by rfl⟩
  unfold onProcessTextMessage
  simp only [h, ne_eq, not_false_eq_true, if_true]
  obtain ⟨s', h1, -, h3, -⟩ := updateFiles_result deps env
    { s with remoteFileList := parseFileList (deps.XML_Parse sMessage fileListTag) }
  exact ⟨s', h1, by rw [h3]; exact parseFileList_eq _⟩

/-- C1, amended, at the message of the specification. -/
theorem manifest_parse_refines_spec_witness :
    ∃ s', onProcessTextMessage referenceDeps fairEnv
        (freshUpdater "/home/pi/slides/" "*.jpg" { dirs := [], entries := [] })
        "<file_list>a.jpg;100,b.jpg;200</file_list>".toList = some s' ∧
      s'.remoteFileList =
        [{ fileName := "a.jpg".toList, fileSize := 100 },
         { fileName := "b.jpg".toList, fileSize := 200 }] := by
  obtain ⟨⟨s', h1, h2⟩, -, h3⟩ := manifest_parse_refines_spec referenceDeps fairEnv
    (freshUpdater "/home/pi/slides/" "*.jpg" { dirs := [], entries := [] })
    "<file_list>a.jpg;100,b.jpg;200</file_list>".toList (by decide)
  refine ⟨s', h1, ?_⟩
  rw [h2]
  exact h3

/-- C2: an item without a size field (no `,` in it and fewer than two non-empty
fields between `;`, such as `c.jpg`) gives no entry, and a payload with such an
item inserted between two items, before the first item or after the last one
parses to the same list as the payload without it. -/
theorem malformed_item_dropped (bad : QString) (hc : ',' ∉ bad)
    (hf : (QString.split ';' bad).length < 2) :
    parseFileList bad = [] ∧
    (∀ a b : QString,
      parseFileList (a ++ [','] ++ bad ++ [','] ++ b) = parseFileList (a ++ [','] ++ b)) ∧
    (∀ b : QString, parseFileList (bad ++ [','] ++ b) = parseFileList b) ∧
    (∀ a : QString, parseFileList (a ++ [','] ++ bad) = parseFileList a) := by
  have hitem : ∀ acc, parseItem acc bad = acc := by
    intro acc
    unfold parseItem
    dsimp only
    split
    · rename_i heq; rw [heq] at hf; simp at hf; omega
    · rfl
  have hbad : ∀ acc, (QString.split ',' bad).foldl parseItem acc = acc := by
    intro acc
    rw [split_of_not_mem ',' bad hc]
    split
    · rfl
    · simp [hitem]
  have happ : ∀ x y : QString, parseFileList (x ++ [','] ++ y) =
      (QString.split ',' y).foldl parseItem (parseFileList x) := by
    intro x y
    simp only [parseFileList, List.append_assoc, List.singleton_append, split_append_sep,
      List.foldl_append]
  refine ⟨hbad [], ?_, ?_, ?_⟩
  · intro a b
    rw [happ (a ++ [','] ++ bad) b, happ a bad, happ a b, hbad]
  · intro b
    rw [happ bad b]
    unfold parseFileList
    rw [hbad]
  · intro a
    rw [happ a bad, hbad]

/-- C2 at the item `c.jpg` of the specification. -/
theorem malformed_item_dropped_witness :
    parseFileList "c.jpg".toList = [] ∧
    parseFileList "a.jpg;100,c.jpg,b.jpg;200".toList = parseFileList "a.jpg;100,b.jpg;200".toList :=
  ⟨(malformed_item_dropped "c.jpg".toList (by decide) (by decide)).1,
   (malformed_item_dropped "c.jpg".toList (by decide) (by decide)).2.1
     "a.jpg;100".toList "b.jpg;200".toList⟩

/-- C3: when the token of the `file_list` message is the sentinel `NoData`,
the slot returns with `returnCode` set to `TRANSFER_DONE`, which is 0, through
one call of `thread()->exit`; the manifest and the list of files to ask are
left as they were (the diff is not run), the disk is unchanged and no message
is sent. -/
theorem noData_ends_session (deps : Deps) (env : Env) (s : FileUpdater) (sMessage : QString)
    (h : deps.XML_Parse sMessage fileListTag = sNoData) :
    ∃ s', onProcessTextMessage deps env s sMessage = some s' ∧
      s'.returnCode = some TRANSFER_DONE ∧ TRANSFER_DONE = 0 ∧
      s'.exits = s.exits ++ [TRANSFER_DONE] ∧
      s'.remoteFileList = s.remoteFileList ∧ s'.queryList = s.queryList ∧
      s'.disk = s.disk ∧ s'.sent = s.sent ∧
      s'.file = s.file ∧ s'.bytesReceived = s.bytesReceived := by
  refine ⟨threadExit s TRANSFER_DONE, ?_, rfl, rfl, rfl, rfl, rfl, rfl, rfl, rfl, rfl⟩
  simp [onProcessTextMessage, h]

/-- C3 at a message with the sentinel, on a directory that holds a file. -/
theorem noData_ends_session_witness :
    ∃ s', onProcessTextMessage referenceDeps fairEnv
        (freshUpdater "/home/pi/slides/" "*.jpg"
          { dirs := ["/home/pi/slides/".toList],
            entries := [("/home/pi/slides/old.jpg".toList, [1, 2, 3])] })
        "<file_list>NoData</file_list>".toList = some s' ∧
      s'.returnCode = some 0 ∧
      s'.disk.read "/home/pi/slides/old.jpg".toList = some [1, 2, 3] ∧ s'.sent = [] := by
  obtain ⟨s', h1, h2, -, -, -, -, h3, h4, -⟩ := noData_ends_session referenceDeps fairEnv
    (freshUpdater "/home/pi/slides/" "*.jpg"
      { dirs := ["/home/pi/slides/".toList],
        entries := [("/home/pi/slides/old.jpg".toList, [1, 2, 3])] })
    "<file_list>NoData</file_list>".toList (by decide)
  exact ⟨s', h1, h2, by rw [h3]; rfl, by rw [h4]; rfl⟩

/-- C4: for every payload other than the sentinel whose items are all
malformed (fewer than two non-empty fields between `;`; an empty payload has no
item), the slot returns (no failing access is reached) with an empty manifest,
an empty list of files to ask, `returnCode` set to `TRANSFER_DONE` through one
call of `thread()->exit`, and no message sent. -/
theorem empty_manifest_ends_session (deps : Deps) (env : Env) (s : FileUpdater)
    (sMessage : QString) (h : deps.XML_Parse sMessage fileListTag ≠ sNoData)
    (hbad : ∀ item ∈ QString.split ',' (deps.XML_Parse sMessage fileListTag),
      (QString.split ';' item).length < 2) :
    ∃ s', onProcessTextMessage deps env s sMessage = some s' ∧
      s'.remoteFileList = [] ∧ s'.queryList = [] ∧
      s'.returnCode = some TRANSFER_DONE ∧ s'.exits = s.exits ++ [TRANSFER_DONE] ∧
      s'.sent = s.sent := by
  have hparse : parseFileList (deps.XML_Parse sMessage fileListTag) = [] := by
    rw [parseFileList_eq, specManifest, List.filterMap_eq_nil_iff]
    intro item hi
    have := hbad item hi
    unfold specEntry
    split
    · rename_i heq; rw [heq] at this; simp at this; omega
    · rfl
  unfold onProcessTextMessage
  simp only [h, ne_eq, not_false_eq_true, if_true]
  obtain ⟨s', h1, h2, h3, -, h5⟩ := updateFiles_result deps env
    { s with remoteFileList := parseFileList (deps.XML_Parse sMessage fileListTag) }
  have hq : s'.queryList = [] := by
    rw [h2]
    show buildQueryList (parseFileList (deps.XML_Parse sMessage fileListTag)) _ = []
    rw [hparse]; rfl
  obtain ⟨a, b, c⟩ := h5 hq
  exact ⟨s', h1, by rw [h3]; exact hparse, hq, a, c, b⟩

/-- C4 at a payload made of malformed items only. -/
theorem empty_manifest_ends_session_witness :
    ∃ s', onProcessTextMessage referenceDeps fairEnv
        (freshUpdater "/home/pi/slides/" "*.jpg" { dirs := [], entries := [] })
        "<file_list>c.jpg,;,d.jpg;</file_list>".toList = some s' ∧
      s'.remoteFileList = [] ∧ s'.queryList = [] ∧
      s'.returnCode = some TRANSFER_DONE ∧ s'.exits = [TRANSFER_DONE] ∧ s'.sent = [] :=
  empty_manifest_ends_session referenceDeps fairEnv
    (freshUpdater "/home/pi/slides/" "*.jpg" { dirs := [], entries := [] })
    "<file_list>c.jpg,;,d.jpg;</file_list>".toList (by decide) (by decide)

/-! ## The diff (claims C5 to C8) -/

/-- C5: the loop of `updateFiles` that builds `queryList` computes, for every
manifest and every listing, the manifest entries (in manifest order) that no
listed local file satisfies with the same name and the same size; `updateFiles`
returns with `queryList` equal to that list for the listing of the destination
directory, and an entry for which a listed local file has its name and another
size is in `queryList`. -/
theorem queryList_is_unsatisfied_manifest (deps : Deps) (env : Env) (s : FileUpdater) :
    (∀ (remotes : List files) (infos : List QFileInfo),
      buildQueryList remotes infos =
        remotes.filter (fun r => decide (¬ satisfiedLocally infos r))) ∧
    ∃ s', updateFiles deps env s = some s' ∧
      s'.queryList =
        s.remoteFileList.filter (fun r => decide (¬ satisfiedLocally (localFiles deps s) r)) ∧
      ∀ r ∈ s.remoteFileList, ∀ info ∈ localFiles deps s,
        info.fileName = r.fileName → info.size ≠ r.fileSize → r ∈ s'.queryList := by
  refine ⟨buildQueryList_spec, ?_⟩
  obtain ⟨s', h1, h2, -⟩ := updateFiles_result deps env s
  have hq : s'.queryList =
      s.remoteFileList.filter (fun r => decide (¬ satisfiedLocally (localFiles deps s) r)) := by
    rw [h2, buildQueryList_spec]
  refine ⟨s', h1, hq, ?_⟩
  intro r hr info hi hname hsize
  rw [hq, List.mem_filter]
  refine ⟨hr, ?_⟩
  simp only [decide_eq_true_eq]
  rintro ⟨info2, hi2, hn2, hs2⟩
  have : info = info2 := localFiles_name_inj deps s info info2 hi hi2 (by rw [hname, hn2])
  subst this
  exact hsize hs2

/-- C6, as stated, fails: the directory holds `readme.txt` with 3 bytes, the
manifest asks for `readme.txt` with 3 bytes, and the name filters are
`*.mp4 *.MP4` (plus `*.temp`); the file is not in the listing, so it is put in
`queryList`, a `get` is sent and no status is set. -/
theorem diff_idempotence_counterexample :
    (updateFiles referenceDeps fairEnv
      { freshUpdater "/home/pi/spots/" "*.mp4 *.MP4"
          { dirs := ["/home/pi/spots/".toList],
            entries := [("/home/pi/spots/readme.txt".toList, [1, 2, 3])] } with
        remoteFileList := [{ fileName := "readme.txt".toList, fileSize := 3 }] }).map
      (fun s => (s.queryList, s.returnCode, s.sent)) =
    some ([{ fileName := "readme.txt".toList, fileSize := 3 }], none,
      ["<get>readme.txt,0,524288</get>".toList]) := by
  rfl

/-- C6, amended: when for each manifest entry the listing of the destination
directory (the files the name filters accept) has a file with the same name and
the same size, `updateFiles` returns with an empty `queryList`, `returnCode` set
to `TRANSFER_DONE` through one call of `thread()->exit`, and nothing sent. -/
theorem diff_idempotence (deps : Deps) (env : Env) (s : FileUpdater)
    (h : ∀ r ∈ s.remoteFileList, satisfiedLocally (localFiles deps s) r) :
    ∃ s', updateFiles deps env s = some s' ∧ s'.queryList = [] ∧
      s'.returnCode = some TRANSFER_DONE ∧ s'.exits = s.exits ++ [TRANSFER_DONE] ∧
      s'.sent = s.sent := by
  obtain ⟨s', h1, h2, -, -, h5⟩ := updateFiles_result deps env s
  have hq : s'.queryList = [] := by
    rw [h2, buildQueryList_spec, List.filter_eq_nil_iff]
    intro r hr
    simp [h r hr]
  obtain ⟨a, b, c⟩ := h5 hq
  exact ⟨s', h1, hq, a, c, b⟩

/-- C6, amended, on a directory with the two files of the manifest. -/
theorem diff_idempotence_witness :
    ∃ s', updateFiles referenceDeps fairEnv
        { freshUpdater "/home/pi/slides/" "*.jpg *.png"
            { dirs := ["/home/pi/slides/".toList],
              entries := [("/home/pi/slides/a.jpg".toList, [1, 2, 3]),
                          ("/home/pi/slides/b.png".toList, [4, 5])] } with
          remoteFileList := [{ fileName := "a.jpg".toList, fileSize := 3 },
                             { fileName := "b.png".toList, fileSize := 2 }] } = some s' ∧
      s'.queryList = [] ∧ s'.returnCode = some TRANSFER_DONE ∧
      s'.exits = [TRANSFER_DONE] ∧ s'.sent = [] :=
  diff_idempotence referenceDeps fairEnv _ (by decide)

/-- C7, as stated, fails twice on one directory. With the name filter `*.jpg`
and the manifest `a.jpg` (3 bytes), `x` (9 bytes): `notes.txt` is absent from
the manifest and stays, because it is not in the listing; `x.jpg` is absent
from the manifest and is not a `.temp` file, and stays, because its name
without its last extension is the manifest name `x`. -/
theorem pruning_counterexample :
    (updateFiles referenceDeps fairEnv
      { freshUpdater "/home/pi/slides/" "*.jpg"
          { dirs := ["/home/pi/slides/".toList],
            entries := [("/home/pi/slides/notes.txt".toList, [1]),
                        ("/home/pi/slides/x.jpg".toList, [1, 2]),
                        ("/home/pi/slides/a.jpg".toList, [1, 2, 3])] } with
        remoteFileList := [{ fileName := "a.jpg".toList, fileSize := 3 },
                           { fileName := "x".toList, fileSize := 9 }] }).map
      (fun s => (s.disk.read "/home/pi/slides/notes.txt".toList,
                 s.disk.read "/home/pi/slides/x.jpg".toList)) =
    some (some [1], some [1, 2]) := by
  rfl

/-- C7, amended: every local file of the listing of the destination directory
(a file the name filters accept) that is absent from the manifest (no entry has
both its name and its size) and whose name without its last `.`-suffix is not
the name of a manifest entry, is deleted by `updateFiles`. -/
theorem pruning (deps : Deps) (env : Env) (s : FileUpdater) (info : QFileInfo)
    (hin : info ∈ localFiles deps s)
    (habsent : ∀ r ∈ s.remoteFileList,
      ¬ (r.fileName = info.fileName ∧ r.fileSize = info.size))
    (hbase : ∀ r ∈ s.remoteFileList,
      r.fileName ≠ QString.left info.fileName (QString.lastIndexOfDot info.fileName)) :
    ∃ s', updateFiles deps env s = some s' ∧ s'.disk.read info.absoluteFilePath = none := by
  obtain ⟨s', h1, -, -, h4, -⟩ := updateFiles_result deps env s
  refine ⟨s', h1, ?_⟩
  rw [h4]
  apply removeLocalFiles_read_none
  right
  refine ⟨info, hin, rfl, ?_⟩
  cases hf : foundRemote info
      (QString.left info.fileName (QString.lastIndexOfDot info.fileName)) s.remoteFileList with
  | false => rfl
  | true =>
    obtain ⟨r, hr, hcase⟩ := (foundRemote_iff _ _ _).mp hf
    rcases hcase with hc | hc
    · exact absurd hc (habsent r hr)
    · exact absurd hc (hbase r hr)

/-- C7, amended, on a directory with a slide the manifest does not ask for. -/
theorem pruning_witness :
    ∃ s', updateFiles referenceDeps fairEnv
        { freshUpdater "/home/pi/slides/" "*.jpg"
            { dirs := ["/home/pi/slides/".toList],
              entries := [("/home/pi/slides/old.jpg".toList, [1]),
                          ("/home/pi/slides/a.jpg".toList, [1, 2, 3])] } with
          remoteFileList := [{ fileName := "a.jpg".toList, fileSize := 3 }] } = some s' ∧
      s'.disk.read "/home/pi/slides/old.jpg".toList = none :=
  pruning referenceDeps fairEnv _
    { fileName := "old.jpg".toList, size := 1,
      absoluteFilePath := "/home/pi/slides/old.jpg".toList }
    (by decide) (by decide) (by decide)

/-- C8: `updateFiles` leaves in place, with its content, every file of the
destination directory whose name and size are those of a manifest entry, and
every file of the destination directory named `<f>.temp` where `f` is the name
of a manifest entry, whatever its size. -/
theorem wanted_files_kept (deps : Deps) (env : Env) (s : FileUpdater) (n : QString)
    (content : QByteArray)
    (hfile : s.disk.read (dirPath s.destinationDir ++ n) = some content)
    (hwanted : (∃ r ∈ s.remoteFileList, r.fileName = n ∧ r.fileSize = content.length) ∨
      (∃ r ∈ s.remoteFileList, n = r.fileName ++ dotTemp)) :
    ∃ s', updateFiles deps env s = some s' ∧
      s'.disk.read (dirPath s.destinationDir ++ n) = some content := by
  obtain ⟨s', h1, -, -, h4, -⟩ := updateFiles_result deps env s
  refine ⟨s', h1, ?_⟩
  rw [h4, removeLocalFiles_read_kept, hfile]
  intro info hi hp
  have hmem : info ∈ entryInfoList deps s.disk s.destinationDir
      (QString.splitKeep ' ' s.sFileExtensions ++ ["*.temp".toList]) := by
    unfold localFiles at hi
    split at hi
    · exact hi
    · simp at hi
  obtain ⟨-, hpath, hsize, -⟩ := (mem_entryInfoList _ _ _ _ _).mp hmem
  have hname : info.fileName = n := by
    rw [hpath] at hp
    exact List.append_cancel_left hp
  have hsz : info.size = content.length := by
    rw [hsize, hp]
    simp [Disk.size, hfile]
  rw [foundRemote_iff]
  rcases hwanted with ⟨r, hr, hn, hs⟩ | ⟨r, hr, hn⟩
  · exact ⟨r, hr, Or.inl ⟨by rw [hn, hname], by rw [hs, hsz]⟩⟩
  · refine ⟨r, hr, Or.inr ?_⟩
    rw [hname, hn, left_append_dotTemp]

/-- C8 on a directory with an up-to-date slide and a transfer in progress. -/
theorem wanted_files_kept_witness :
    ∃ s', updateFiles referenceDeps fairEnv
        { freshUpdater "/home/pi/slides/" "*.jpg"
            { dirs := ["/home/pi/slides/".toList],
              entries := [("/home/pi/slides/old.jpg".toList, [1]),
                          ("/home/pi/slides/b.jpg.temp".toList, [7, 8])] } with
          remoteFileList := [{ fileName := "b.jpg".toList, fileSize := 5 }] } = some s' ∧
      s'.disk.read (dirPath "/home/pi/slides/".toList ++ "b.jpg.temp".toList) = some [7, 8] :=
  wanted_files_kept referenceDeps fairEnv
    { freshUpdater "/home/pi/slides/" "*.jpg"
        { dirs := ["/home/pi/slides/".toList],
          entries := [("/home/pi/slides/old.jpg".toList, [1]),
                      ("/home/pi/slides/b.jpg.temp".toList, [7, 8])] } with
      remoteFileList := [{ fileName := "b.jpg".toList, fileSize := 5 }] }
    "b.jpg.temp".toList [7, 8] (by rfl) (by decide)

/-! ## Resuming a transfer (claims C9 and C10) -/

set_option maxRecDepth 100000 in
/-- C9 fails for a file name that holds a place marker of `QString::arg`. The
tail of the list is `a%2Bb.jpg`. When `a%2Bb.jpg.temp` exists with 3 bytes,
`askFirstFile` sets `bytesReceived` to 3 and opens the artifact, but the
command handed to the socket is `<get>a3Bb.jpg,3,524288</get>`: the second
`arg` of lines 559-562 puts the offset in place of `%2` in the file name too.
When there is no `.temp` file the command is `<get>a0Bb.jpg,0,524288</get>`.
Neither is the command `<get>a%2Bb.jpg,k,524288</get>` for the tail file. -/
theorem resume_command_names_other_file :
    (askFirstFile fairEnv
      { freshUpdater "/home/pi/slides/" "*.jpg"
          { dirs := ["/home/pi/slides/".toList],
            entries := [("/home/pi/slides/a%2Bb.jpg.temp".toList, [7, 8, 9])] } with
        queryList := [{ fileName := "a%2Bb.jpg".toList, fileSize := 9 }] }).map
      (fun s => (s.bytesReceived, s.file, s.sent, s.returnCode)) =
      some (3, { fileName := "/home/pi/slides/a%2Bb.jpg.temp".toList, isOpen := true },
        ["<get>a3Bb.jpg,3,524288</get>".toList], none) ∧
    "<get>a3Bb.jpg,3,524288</get>".toList ≠ "<get>a%2Bb.jpg,3,524288</get>".toList ∧
    (askFirstFile fairEnv
      { freshUpdater "/home/pi/slides/" "*.jpg" { dirs := [], entries := [] } with
        queryList := [{ fileName := "a%2Bb.jpg".toList, fileSize := 9 }] }).map
      (fun s => (s.bytesReceived, s.sent, s.returnCode)) =
      some (0, ["<get>a0Bb.jpg,0,524288</get>".toList], none) ∧
    "<get>a0Bb.jpg,0,524288</get>".toList ≠ "<get>a%2Bb.jpg,0,524288</get>".toList := by
  refine ⟨by rfl, by decide, by rfl, by decide⟩

/-- What `askFirstFile` does for a file name without `%`. Let the tail of a
non-empty `queryList` be the file `f`, whose name has no `%`. If `<dest>f.temp`
exists with `k` bytes and can be opened, `askFirstFile` sets `bytesReceived` to
`k`, leaves `file` open on that path, leaves the disk as it is and hands the
socket exactly the command `<get>f,k,524288</get>`. If there is no such file,
it hands the socket `<get>f,0,524288</get>` with `bytesReceived` 0. In both
cases `sCurrentFileName` is `f` and the list is unchanged. -/
theorem resume_offset (env : Env) (s : FileUpdater) (f : QString) (N : Int)
    (hlast : s.queryList.getLast? = some { fileName := f, fileSize := N })
    (hf : '%' ∉ f) :
    (∀ content : QByteArray,
      s.disk.read (s.destinationDir ++ f ++ dotTemp) = some content →
      env.canOpen (s.destinationDir ++ f ++ dotTemp) = true →
      ∃ s', askFirstFile env s = some s' ∧ s'.bytesReceived = content.length ∧
        s'.file = { fileName := s.destinationDir ++ f ++ dotTemp, isOpen := true } ∧
        s'.disk = s.disk ∧ s'.sCurrentFileName = f ∧ s'.queryList = s.queryList ∧
        s'.sent = s.sent ++ ["<get>".toList ++ f ++ ",".toList ++
          QString.number content.length ++ ",524288</get>".toList]) ∧
    (s.disk.read (s.destinationDir ++ f ++ dotTemp) = none →
      ∃ s', askFirstFile env s = some s' ∧ s'.bytesReceived = 0 ∧
        s'.disk = s.disk ∧ s'.sCurrentFileName = f ∧ s'.queryList = s.queryList ∧
        s'.sent = s.sent ++ ["<get>".toList ++ f ++ ",0,524288</get>".toList]) := by
  constructor
  · intro content hread hopen
    have hex : s.disk.fileExists (s.destinationDir ++ f ++ dotTemp) = true := by
      unfold Disk.fileExists; rw [hread]; rfl
    have hsz : s.disk.size (s.destinationDir ++ f ++ dotTemp) = content.length := by
      unfold Disk.size; rw [hread]
    unfold askFirstFile
    simp only [hlast]
    rw [openTempFile_opened env { s with bytesReceived := 0, sCurrentFileName := f }
      (s.destinationDir ++ f ++ dotTemp) hex hopen]
    simp only [List.append_assoc] at hsz
    refine ⟨_, rfl, ?_, ?_, ?_, ?_, ?_, ?_⟩
    · simp [hsz]
    · simp
    · simp
    · simp
    · simp
    · simp [hsz, getCommand_plain f _ hf]
  · intro hread
    have hex : s.disk.fileExists (s.destinationDir ++ f ++ dotTemp) = false := by
      unfold Disk.fileExists; rw [hread]; rfl
    unfold askFirstFile
    simp only [hlast]
    rw [openTempFile_absent env { s with bytesReceived := 0, sCurrentFileName := f }
      (s.destinationDir ++ f ++ dotTemp) hex]
    refine ⟨_, rfl, ?_, ?_, ?_, ?_, ?_⟩
    · simp
    · simp
    · simp
    · simp
    · have h0 : QString.number 0 = "0".toList := by decide
      simp [getCommand_plain f _ hf, h0]

/-- The command of `askFirstFile` on a directory with `b.jpg.temp` of 3
bytes. -/
theorem resume_offset_witness :
    ∃ s', askFirstFile fairEnv
        { freshUpdater "/home/pi/slides/" "*.jpg"
            { dirs := ["/home/pi/slides/".toList],
              entries := [("/home/pi/slides/b.jpg.temp".toList, [7, 8, 9])] } with
          queryList := [{ fileName := "a.jpg".toList, fileSize := 4 },
                        { fileName := "b.jpg".toList, fileSize := 5 }] } = some s' ∧
      s'.bytesReceived = 3 ∧
      s'.file = { fileName := "/home/pi/slides/b.jpg.temp".toList, isOpen := true } ∧
      s'.sent = ["<get>b.jpg,3,524288</get>".toList] := by
  obtain ⟨s', h1, h2, h3, -, -, -, h4⟩ := (resume_offset fairEnv
    { freshUpdater "/home/pi/slides/" "*.jpg"
        { dirs := ["/home/pi/slides/".toList],
          entries := [("/home/pi/slides/b.jpg.temp".toList, [7, 8, 9])] } with
      queryList := [{ fileName := "a.jpg".toList, fileSize := 4 },
                    { fileName := "b.jpg".toList, fileSize := 5 }] }
    "b.jpg".toList 5 (by rfl) (by decide)).1 [7, 8, 9] (by rfl) (by rfl)
  exact ⟨s', h1, h2, h3, h4⟩

set_option maxRecDepth 100000 in
/-- C10, as stated, fails for `k = 0`: `b.jpg.temp` exists and is empty, the
manifest size of `b.jpg` is 1025, and one final frame of 1025 bytes arrives
(lengths sum to `N - k`) and is written. The updater takes the first 1024 bytes
as the header of a new file, keeps 1 byte, and asks for the rest: `b.jpg` does
not exist and `b.jpg.temp` holds 1 byte. -/
theorem resume_completion_counterexample :
    ((askFirstFile fairEnv
        { freshUpdater "/home/pi/slides/" "*.jpg"
            { dirs := ["/home/pi/slides/".toList],
              entries := [("/home/pi/slides/b.jpg.temp".toList, [])] } with
          queryList := [{ fileName := "b.jpg".toList, fileSize := 1025 }] }).bind
      (fun s => processFrames referenceDeps s
        [{ env := fairEnv,
           baMessage := asciiBytes "b.jpg,1025" ++ List.replicate 1014 0 ++ [42],
           isLastFrame := true }])).map
      (fun s => (s.disk.read "/home/pi/slides/b.jpg".toList,
                 s.disk.read "/home/pi/slides/b.jpg.temp".toList, s.sent, s.returnCode)) =
    some (none, some [42],
      ["<get>b.jpg,0,524288</get>".toList, "<get>b.jpg,1,524288</get>".toList], none) := by
  rfl

/-- C10, amended: let `f`, of manifest size `N`, be the tail of `queryList`, let
`<dest>f.temp` hold `k` bytes with `0 < k` and be openable, and let there be
no file `<dest>f`. After `askFirstFile`, for every sequence of frames handled
with no interruption requested and written whole, whose lengths sum to `N - k`
(so `k` is at most `N`), whose last frame is marked final and in which no earlier final frame already
brings the count to `N`, processing the frames ends with `<dest>f` holding
exactly `N` bytes, the `k` old bytes followed by the bytes of the frames, with
no file `<dest>f.temp`, and with `f` removed from `queryList`. -/
theorem resume_completion (deps : Deps) (env0 : Env) (s : FileUpdater) (f : QString) (N : Int)
    (old : QByteArray) (pre : List Frame) (last : Frame)
    (hlast : s.queryList.getLast? = some { fileName := f, fileSize := N })
    (htemp : s.disk.read (s.destinationDir ++ f ++ dotTemp) = some old)
    (hk : 0 < old.length)
    (hfinal : s.disk.read (s.destinationDir ++ f) = none)
    (hopen : env0.canOpen (s.destinationDir ++ f ++ dotTemp) = true)
    (hw : ∀ fr ∈ pre ++ [last], fr.written)
    (hfin : last.isLastFrame = true)
    (hsum : ((framesBytes (pre ++ [last])).length : Int) = N - old.length)
    (hkeep : framesKeepOpen N old.length pre) :
    ∃ s1 s2, askFirstFile env0 s = some s1 ∧
      processFrames deps s1 (pre ++ [last]) = some s2 ∧
      s2.disk.read (s.destinationDir ++ f) = some (old ++ framesBytes (pre ++ [last])) ∧
      ((old ++ framesBytes (pre ++ [last])).length : Int) = N ∧
      s2.disk.read (s.destinationDir ++ f ++ dotTemp) = none ∧
      s2.queryList = s.queryList.dropLast := by
  have hex : s.disk.fileExists (s.destinationDir ++ f ++ dotTemp) = true := by
    unfold Disk.fileExists; rw [htemp]; rfl
  have hsz : s.disk.size (s.destinationDir ++ f ++ dotTemp) = old.length := by
    unfold Disk.size; rw [htemp]
  have hask : askFirstFile env0 s = some (sendGet env0
      { s with bytesReceived := s.disk.size (s.destinationDir ++ f ++ dotTemp),
               sCurrentFileName := f,
               file := { fileName := s.destinationDir ++ f ++ dotTemp, isOpen := true } } f) := by
    unfold askFirstFile
    simp only [hlast]
    rw [openTempFile_opened env0 { s with bytesReceived := 0, sCurrentFileName := f }
      (s.destinationDir ++ f ++ dotTemp) hex hopen]
  have hinv : Resuming s.destinationDir f N old (sendGet env0
      { s with bytesReceived := s.disk.size (s.destinationDir ++ f ++ dotTemp),
               sCurrentFileName := f,
               file := { fileName := s.destinationDir ++ f ++ dotTemp, isOpen := true } } f) := by
    refine ⟨by simp, by simp, by simp, ?_, ?_, hk, ?_, ?_⟩
    · rw [sendGet_disk]; exact htemp
    · rw [sendGet_bytesReceived]; exact hsz
    · rw [sendGet_queryList]; exact hlast
    · rw [sendGet_disk]; exact hfinal
  obtain ⟨s1', h1, hinv1, hq1⟩ := processFrames_keep deps s.destinationDir f N pre old _ hinv
    (fun fr hfr => hw fr (List.mem_append_left _ hfr)) hkeep
  have hbytes : framesBytes (pre ++ [last]) = framesBytes pre ++ last.baMessage := by
    simp [framesBytes]
  have hlen : ((old ++ framesBytes (pre ++ [last])).length : Int) = N := by
    rw [List.length_append]; push_cast; omega
  have hnot : ¬ (((old ++ framesBytes pre).length : Int) + last.baMessage.length < N) := by
    rw [hbytes, ← List.append_assoc, List.length_append] at hlen
    push_cast at hlen
    omega
  obtain ⟨s2, h2, hr1, hr2, hq2⟩ := frame_completes deps s.destinationDir f N
    (old ++ framesBytes pre) s1' last hinv1 (hw last (by simp)) hfin hnot
  refine ⟨_, s2, hask, ?_, ?_, hlen, hr2, ?_⟩
  · rw [processFrames_append, h1]
    simp only [Option.bind, processFrames, h2]
  · rw [hbytes, ← List.append_assoc]; exact hr1
  · rw [hq2, hq1, sendGet_queryList]

/-- C10, amended, on `b.jpg.temp` holding 3 of the 8 bytes of `b.jpg`: a frame
of 2 bytes, marked final (the updater asks for the rest), then a final frame of
3 bytes. -/
theorem resume_completion_witness :
    ∃ s1 s2, askFirstFile fairEnv
        { freshUpdater "/home/pi/slides/" "*.jpg"
            { dirs := ["/home/pi/slides/".toList],
              entries := [("/home/pi/slides/b.jpg.temp".toList, [1, 2, 3])] } with
          queryList := [{ fileName := "b.jpg".toList, fileSize := 8 }] } = some s1 ∧
      processFrames referenceDeps s1
        ([{ env := fairEnv, baMessage := [4, 5], isLastFrame := true }] ++
         [{ env := fairEnv, baMessage := [6, 7, 8], isLastFrame := true }]) = some s2 ∧
      s2.disk.read "/home/pi/slides/b.jpg".toList = some [1, 2, 3, 4, 5, 6, 7, 8] ∧
      s2.disk.read "/home/pi/slides/b.jpg.temp".toList = none ∧ s2.queryList = [] := by
  obtain ⟨s1, s2, h1, h2, h3, -, h5, h6⟩ := resume_completion referenceDeps fairEnv
    { freshUpdater "/home/pi/slides/" "*.jpg"
        { dirs := ["/home/pi/slides/".toList],
          entries := [("/home/pi/slides/b.jpg.temp".toList, [1, 2, 3])] } with
      queryList := [{ fileName := "b.jpg".toList, fileSize := 8 }] }
    "b.jpg".toList 8 [1, 2, 3]
    [{ env := fairEnv, baMessage := [4, 5], isLastFrame := true }]
    { env := fairEnv, baMessage := [6, 7, 8], isLastFrame := true }
    (by rfl) (by rfl) (by decide) (by rfl) (by rfl)
    (by
      intro fr hfr
      simp only [List.mem_append, List.mem_singleton] at hfr
      rcases hfr with rfl | rfl <;> exact ⟨rfl, rfl⟩)
    (by rfl) (by rfl)
    ⟨fun _ => by decide, trivial⟩
  exact ⟨s1, s2, h1, h2, h3, h5, h6⟩

/-! ## Lemmas: writing a frame -/

theorem writeFrame_zero (deps : Deps) (env : Env) (s : FileUpdater) (ba : QByteArray)
    (h0 : s.bytesReceived = 0) :
    writeFrame deps env s ba =
      match fileOpenAppend env (prepareNewFile deps s ba) with
      | some so =>
        if ((ba.length : Int) - 1024) ≠ (fileWrite env so (ba.drop 1024)).2 then
          .error (handleWriteFileError
            { (fileWrite env so (ba.drop 1024)).1 with
              bytesReceived := (fileWrite env so (ba.drop 1024)).1.bytesReceived +
                (fileWrite env so (ba.drop 1024)).2 })
        else
          .ok { (fileWrite env so (ba.drop 1024)).1 with
              bytesReceived := (fileWrite env so (ba.drop 1024)).1.bytesReceived +
                (fileWrite env so (ba.drop 1024)).2 }
      | none => .error (handleOpenFileError (prepareNewFile deps s ba)) := by
  unfold writeFrame
  rw [if_pos h0]
  rfl

theorem writeFrame_nonzero (deps : Deps) (env : Env) (s : FileUpdater) (ba : QByteArray)
    (h0 : s.bytesReceived ≠ 0) :
    writeFrame deps env s ba =
      if (ba.length : Int) ≠ (fileWrite env s ba).2 then
        .error (handleWriteFileError
          { (fileWrite env s ba).1 with
            bytesReceived := (fileWrite env s ba).1.bytesReceived + (fileWrite env s ba).2 })
      else
        .ok { (fileWrite env s ba).1 with
            bytesReceived := (fileWrite env s ba).1.bytesReceived + (fileWrite env s ba).2 } := by
  unfold writeFrame
  rw [if_neg h0]

/-- The fields a write leaves alone. -/
theorem fileWrite_same (env : Env) (s : FileUpdater) (data : QByteArray) :
    (fileWrite env s data).1.sent = s.sent ∧ (fileWrite env s data).1.queryList = s.queryList ∧
    (fileWrite env s data).1.exits = s.exits ∧
    (fileWrite env s data).1.returnCode = s.returnCode ∧
    (fileWrite env s data).1.file = s.file ∧
    (fileWrite env s data).1.destinationDir = s.destinationDir ∧
    (fileWrite env s data).1.sCurrentFileName = s.sCurrentFileName ∧
    (fileWrite env s data).1.bytesReceived = s.bytesReceived := by
  unfold fileWrite
  split <;> exact ⟨rfl, rfl, rfl, rfl, rfl, rfl, rfl, rfl⟩

/-- The fields the preparation of a new file leaves alone. -/
theorem prepareNewFile_same (deps : Deps) (s : FileUpdater) (ba : QByteArray) :
    (prepareNewFile deps s ba).sent = s.sent ∧
    (prepareNewFile deps s ba).queryList = s.queryList ∧
    (prepareNewFile deps s ba).exits = s.exits ∧
    (prepareNewFile deps s ba).returnCode = s.returnCode ∧
    (prepareNewFile deps s ba).destinationDir = s.destinationDir ∧
    (prepareNewFile deps s ba).bytesReceived = s.bytesReceived ∧
    (prepareNewFile deps s ba).sCurrentFileName = headerFileName deps ba ∧
    (prepareNewFile deps s ba).file =
      { fileName := s.destinationDir ++ headerFileName deps ba ++ dotTemp, isOpen := false } :=
  ⟨rfl, rfl, rfl, rfl, rfl, rfl, rfl, rfl⟩

/-- What a successful `open` changes. -/
theorem fileOpenAppend_some (env : Env) (s so : FileUpdater)
    (h : fileOpenAppend env s = some so) :
    so = { s with file := { s.file with isOpen := true },
                  disk := s.disk.create s.file.fileName } := by
  unfold fileOpenAppend at h
  split at h
  · exact (Option.some.inj h).symm
  · exact absurd h (by simp)

theorem handleWriteFileError_same (s : FileUpdater) :
    (handleWriteFileError s).returnCode = some FILE_ERROR ∧
    (handleWriteFileError s).exits = s.exits ++ [FILE_ERROR] ∧
    (handleWriteFileError s).file.isOpen = false ∧
    (handleWriteFileError s).sent = s.sent ∧ (handleWriteFileError s).queryList = s.queryList ∧
    (handleWriteFileError s).disk = s.disk :=
  ⟨rfl, rfl, rfl, rfl, rfl, rfl⟩

/-! ## Lemmas: the last frame of a delivery -/

theorem getCommand_eq_specGet (f : QString) (k : Int) (h : '%' ∉ f) :
    getCommand f k = specGet f k :=
  getCommand_plain f k h

theorem writeFrame_ok_same (deps : Deps) (env : Env) (s s1 : FileUpdater) (ba : QByteArray)
    (h : writeFrame deps env s ba = .ok s1) :
    s1.sent = s.sent ∧ s1.queryList = s.queryList ∧ s1.exits = s.exits ∧
    s1.returnCode = s.returnCode ∧ s1.destinationDir = s.destinationDir ∧
    s1.file.isOpen = true := by
  by_cases h0 : s.bytesReceived = 0
  · rw [writeFrame_zero deps env s ba h0] at h
    cases hopen : fileOpenAppend env (prepareNewFile deps s ba) with
    | none => rw [hopen] at h; exact absurd h (by simp)
    | some so =>
      rw [hopen] at h
      dsimp only at h
      split at h
      · exact absurd h (by simp)
      · have hs1 := (Except.ok.inj h).symm
        obtain ⟨a, b, c, d, e, f, -⟩ := fileWrite_same env so (ba.drop 1024)
        have hso := fileOpenAppend_some env _ so hopen
        obtain ⟨pa, pb, pc, pd, pe, -⟩ := prepareNewFile_same deps s ba
        subst hs1
        refine ⟨a.trans ?_, b.trans ?_, c.trans ?_, d.trans ?_, f.trans ?_, ?_⟩
        · rw [hso]; exact pa
        · rw [hso]; exact pb
        · rw [hso]; exact pc
        · rw [hso]; exact pd
        · rw [hso]; exact pe
        · show (fileWrite env so (ba.drop 1024)).1.file.isOpen = true
          rw [e, hso]
  · rw [writeFrame_nonzero deps env s ba h0] at h
    split at h
    · exact absurd h (by simp)
    · rename_i hlen
      have hs1 := (Except.ok.inj h).symm
      obtain ⟨a, b, c, d, e, f, -⟩ := fileWrite_same env s ba
      subst hs1
      refine ⟨a, b, c, d, f, ?_⟩
      show (fileWrite env s ba).1.file.isOpen = true
      rw [e]
      cases hop : s.file.isOpen with
      | true => rfl
      | false =>
        exfalso
        apply hlen
        have : (fileWrite env s ba).2 = -1 := by simp [fileWrite, hop]
        rw [this]
        have : (0 : Int) ≤ (ba.length : Int) := Int.ofNat_nonneg _
        omega

theorem onProcessBinaryFrame_last (deps : Deps) (env : Env) (s s1 : FileUpdater)
    (ba : QByteArray) (hint : env.interruptionRequested = false)
    (hw : writeFrame deps env s ba = .ok s1) :
    onProcessBinaryFrame deps env s ba true = lastFrame env s1 := by
  unfold onProcessBinaryFrame
  rw [hint, hw]
  rfl

theorem sendGet_status (env : Env) (s : FileUpdater) (n : QString) :
    (env.sendTextMessage (getCommand n s.bytesReceived) =
        QString.qlength (getCommand n s.bytesReceived) →
      (sendGet env s n).returnCode = s.returnCode ∧ (sendGet env s n).exits = s.exits) ∧
    (env.sendTextMessage (getCommand n s.bytesReceived) ≠
        QString.qlength (getCommand n s.bytesReceived) →
      (sendGet env s n).returnCode = some ERROR_SOCKET ∧
      (sendGet env s n).exits = s.exits ++ [ERROR_SOCKET]) := by
  unfold sendGet sendTextMessage
  dsimp only
  constructor
  · intro h
    rw [if_neg (by simpa using h)]
    exact ⟨rfl, rfl⟩
  · intro h
    rw [if_pos h]
    exact ⟨rfl, rfl⟩

theorem askNextFile_done (env : Env) (s : FileUpdater) (h : s.queryList = []) :
    askNextFile env s = threadExit s TRANSFER_DONE := by
  unfold askNextFile
  rw [h]
  rfl

theorem askNextFile_fresh (env : Env) (s : FileUpdater) (next : files)
    (h : s.queryList.getLast? = some next)
    (hex : s.disk.fileExists (s.destinationDir ++ next.fileName ++ dotTemp) = false) :
    askNextFile env s =
      sendGet env
        { s with bytesReceived := 0, sCurrentFileName := s.destinationDir ++ next.fileName }
        next.fileName := by
  unfold askNextFile
  simp only [h]
  rw [openTempFile_absent env
    { s with bytesReceived := 0, sCurrentFileName := s.destinationDir ++ next.fileName }
    (s.destinationDir ++ next.fileName ++ dotTemp) hex]

theorem askNextFile_resume (env : Env) (s : FileUpdater) (next : files)
    (h : s.queryList.getLast? = some next)
    (hex : s.disk.fileExists (s.destinationDir ++ next.fileName ++ dotTemp) = true)
    (hopen : env.canOpen (s.destinationDir ++ next.fileName ++ dotTemp) = true) :
    askNextFile env s =
      sendGet env
        { s with bytesReceived := s.disk.size (s.destinationDir ++ next.fileName ++ dotTemp),
                 sCurrentFileName := s.destinationDir ++ next.fileName,
                 file := { fileName := s.destinationDir ++ next.fileName ++ dotTemp,
                           isOpen := true } }
        next.fileName := by
  unfold askNextFile
  simp only [h]
  rw [openTempFile_opened env
    { s with bytesReceived := 0, sCurrentFileName := s.destinationDir ++ next.fileName }
    (s.destinationDir ++ next.fileName ++ dotTemp) hex hopen]

theorem lastFrame_complete (env : Env) (s : FileUpdater) (last : files)
    (hlast : s.queryList.getLast? = some last) (hfull : ¬ s.bytesReceived < last.fileSize) :
    lastFrame env s = some (askNextFile env
      { s with file := { s.file with isOpen := false },
               disk := s.disk.rename (s.destinationDir ++ s.sCurrentFileName ++ dotTemp)
                 (s.destinationDir ++ s.sCurrentFileName),
               queryList := s.queryList.dropLast }) := by
  unfold lastFrame
  simp only [hlast]
  rw [if_neg hfull]
  rfl

theorem lastFrame_short (env : Env) (s : FileUpdater) (last : files)
    (hlast : s.queryList.getLast? = some last) (hshort : s.bytesReceived < last.fileSize) :
    lastFrame env s = some (sendGet env s last.fileName) := by
  unfold lastFrame
  simp only [hlast]
  rw [if_pos hshort]

theorem fileExists_of_read (d : Disk) (p : QString) (c : QByteArray) (h : d.read p = some c) :
    d.fileExists p = true ∧ d.size p = c.length := by
  unfold Disk.fileExists Disk.size
  rw [h]
  exact ⟨rfl, rfl⟩

theorem fileExists_of_read_none (d : Disk) (p : QString) (h : d.read p = none) :
    d.fileExists p = false := by
  unfold Disk.fileExists
  rw [h]
  rfl

/-- The request for the next file of the list (lines 325-367), for a file name
without `%`. -/
theorem askNextFile_next (env : Env) (sc : FileUpdater) (next : files)
    (hnext : sc.queryList.getLast? = some next) (hname : '%' ∉ next.fileName) :
    (sc.disk.read (sc.destinationDir ++ next.fileName ++ dotTemp) = none →
      (askNextFile env sc).sent = sc.sent ++ [specGet next.fileName 0] ∧
      (askNextFile env sc).bytesReceived = 0 ∧
      (askNextFile env sc).file = sc.file ∧
      (env.sendTextMessage (specGet next.fileName 0) =
          QString.qlength (specGet next.fileName 0) →
        (askNextFile env sc).returnCode = sc.returnCode ∧
        (askNextFile env sc).exits = sc.exits)) ∧
    (∀ content : QByteArray,
      sc.disk.read (sc.destinationDir ++ next.fileName ++ dotTemp) = some content →
      env.canOpen (sc.destinationDir ++ next.fileName ++ dotTemp) = true →
      (askNextFile env sc).sent = sc.sent ++ [specGet next.fileName content.length] ∧
      (askNextFile env sc).bytesReceived = content.length ∧
      (askNextFile env sc).file =
        { fileName := sc.destinationDir ++ next.fileName ++ dotTemp, isOpen := true } ∧
      (env.sendTextMessage (specGet next.fileName content.length) =
          QString.qlength (specGet next.fileName content.length) →
        (askNextFile env sc).returnCode = sc.returnCode ∧
        (askNextFile env sc).exits = sc.exits)) := by
  constructor
  · intro hread
    rw [askNextFile_fresh env sc next hnext (fileExists_of_read_none _ _ hread)]
    refine ⟨?_, ?_, ?_, ?_⟩
    · rw [sendGet_sent, getCommand_eq_specGet _ _ hname]
    · rw [sendGet_bytesReceived]
    · rw [sendGet_file]
    · intro hsend
      rw [← getCommand_eq_specGet _ _ hname] at hsend
      exact (sendGet_status env
        { sc with bytesReceived := 0, sCurrentFileName := sc.destinationDir ++ next.fileName }
        next.fileName).1 hsend
  · intro content hread hopen
    obtain ⟨hex, hsz⟩ := fileExists_of_read _ _ _ hread
    rw [askNextFile_resume env sc next hnext hex hopen]
    refine ⟨?_, ?_, ?_, ?_⟩
    · rw [sendGet_sent, getCommand_eq_specGet _ _ hname]
      show sc.sent ++ [specGet next.fileName (Disk.size _ _)] = _
      rw [hsz]
    · rw [sendGet_bytesReceived]; exact hsz
    · rw [sendGet_file]
    · intro hsend
      rw [← getCommand_eq_specGet _ _ hname, ← hsz] at hsend
      exact (sendGet_status env
        { sc with bytesReceived := sc.disk.size (sc.destinationDir ++ next.fileName ++ dotTemp),
                  sCurrentFileName := sc.destinationDir ++ next.fileName,
                  file := { fileName := sc.destinationDir ++ next.fileName ++ dotTemp,
                            isOpen := true } }
        next.fileName).1 hsend

/-! ## Lemmas: a file in transfer -/

theorem frame_keeps_receiving (deps : Deps) (dest cur : QString) (last : files)
    (data : QByteArray) (s : FileUpdater) (fr : Frame)
    (hinv : Receiving dest cur last data s) (hw : fr.written)
    (hkeep : fr.isLastFrame = true →
      (data.length : Int) + fr.baMessage.length < last.fileSize) :
    ∃ s', onProcessBinaryFrame deps fr.env s fr.baMessage fr.isLastFrame = some s' ∧
      Receiving dest cur last (data ++ fr.baMessage) s' ∧ s'.queryList = s.queryList := by
  obtain ⟨hd, hc, hfile, htemp, hbytes, hpos, hlast, hfinal⟩ := hinv
  have h0 : s.bytesReceived ≠ 0 := by rw [hbytes]; omega
  have hopen : s.file.isOpen = true := by rw [hfile]
  have hwr := writeFrame_next deps fr.env s fr.baMessage h0 hopen hw.2
  have hname : s.file.fileName = dest ++ cur ++ dotTemp := by rw [hfile]
  have hlen : s.bytesReceived + (fr.baMessage.length : Int) =
      ((data ++ fr.baMessage).length : Int) := by
    rw [hbytes, List.length_append]; push_cast; rfl
  have hpos' : 0 < (data ++ fr.baMessage).length := by
    rw [List.length_append]; omega
  have hread1 : (s.disk.append s.file.fileName fr.baMessage).read (dest ++ cur ++ dotTemp) =
      some (data ++ fr.baMessage) := by
    rw [hname, read_append_self, htemp]; rfl
  have hread2 : (s.disk.append s.file.fileName fr.baMessage).read (dest ++ cur) = none := by
    rw [hname, read_append_ne _ _ _ (path_ne_temp (dest ++ cur)).symm, hfinal]
  cases hfin : fr.isLastFrame with
  | false =>
    unfold onProcessBinaryFrame
    rw [hw.1, hwr]
    simp only [Bool.false_eq_true, if_false]
    exact ⟨_, rfl, ⟨hd, hc, hfile, hread1, hlen, hpos', hlast, hread2⟩, rfl⟩
  | true =>
    have hlt := hkeep hfin
    rw [onProcessBinaryFrame_last deps fr.env s _ fr.baMessage hw.1 hwr,
      lastFrame_short fr.env
        { s with disk := s.disk.append s.file.fileName fr.baMessage,
                 bytesReceived := s.bytesReceived + fr.baMessage.length }
        last hlast (show s.bytesReceived + (fr.baMessage.length : Int) < _ by
          rw [hbytes]; exact hlt)]
    refine ⟨_, rfl, ⟨?_, ?_, ?_, ?_, ?_, hpos', ?_, ?_⟩, ?_⟩
    · rw [sendGet_destinationDir]; exact hd
    · rw [sendGet_sCurrentFileName]; exact hc
    · rw [sendGet_file]; exact hfile
    · rw [sendGet_disk]; exact hread1
    · rw [sendGet_bytesReceived]; exact hlen
    · rw [sendGet_queryList]; exact hlast
    · rw [sendGet_disk]; exact hread2
    · rw [sendGet_queryList]

theorem frame_completes_receiving (deps : Deps) (dest cur : QString) (last : files)
    (data : QByteArray) (s : FileUpdater) (fr : Frame)
    (hinv : Receiving dest cur last data s) (hw : fr.written)
    (hfin : fr.isLastFrame = true)
    (hsum : ¬ ((data.length : Int) + fr.baMessage.length < last.fileSize)) :
    ∃ s', onProcessBinaryFrame deps fr.env s fr.baMessage fr.isLastFrame = some s' ∧
      s'.disk.read (dest ++ cur) = some (data ++ fr.baMessage) ∧
      s'.disk.read (dest ++ cur ++ dotTemp) = none ∧
      s'.queryList = s.queryList.dropLast := by
  obtain ⟨hd, hc, hfile, htemp, hbytes, hpos, hlast, hfinal⟩ := hinv
  have h0 : s.bytesReceived ≠ 0 := by rw [hbytes]; omega
  have hopen : s.file.isOpen = true := by rw [hfile]
  have hwr := writeFrame_next deps fr.env s fr.baMessage h0 hopen hw.2
  have hname : s.file.fileName = dest ++ cur ++ dotTemp := by rw [hfile]
  have hread1 : (s.disk.append s.file.fileName fr.baMessage).read (dest ++ cur ++ dotTemp) =
      some (data ++ fr.baMessage) := by
    rw [hname, read_append_self, htemp]; rfl
  have hread2 : (s.disk.append s.file.fileName fr.baMessage).read (dest ++ cur) = none := by
    rw [hname, read_append_ne _ _ _ (path_ne_temp (dest ++ cur)).symm, hfinal]
  obtain ⟨hr1, hr2⟩ := read_rename _ _ _ _ (path_ne_temp (dest ++ cur)) hread1 hread2
  rw [hfin, onProcessBinaryFrame_last deps fr.env s _ fr.baMessage hw.1 hwr,
    lastFrame_complete fr.env
      { s with disk := s.disk.append s.file.fileName fr.baMessage,
               bytesReceived := s.bytesReceived + fr.baMessage.length }
      last hlast (show ¬ (s.bytesReceived + (fr.baMessage.length : Int) < _) by
        rw [hbytes]; exact hsum)]
  refine ⟨_, rfl, ?_, ?_, ?_⟩
  · rw [(askNextFile_frame _ _).1]
    dsimp only
    rw [hd, hc]; exact hr1
  · rw [(askNextFile_frame _ _).1]
    dsimp only
    rw [hd, hc]; exact hr2
  · rw [(askNextFile_frame _ _).2]

theorem processFrames_keep_receiving (deps : Deps) (dest cur : QString) (last : files)
    (pre : List Frame) (data : QByteArray) (s : FileUpdater)
    (hinv : Receiving dest cur last data s)
    (hw : ∀ fr ∈ pre, fr.written) (hkeep : framesKeepOpen last.fileSize data.length pre) :
    ∃ s', processFrames deps s pre = some s' ∧
      Receiving dest cur last (data ++ framesBytes pre) s' ∧ s'.queryList = s.queryList := by
  induction pre generalizing data s with
  | nil => exact ⟨s, rfl, by simpa [framesBytes] using hinv, rfl⟩
  | cons fr rest ih =>
    obtain ⟨hk1, hk2⟩ := hkeep
    obtain ⟨s1, h1, hinv1, hq1⟩ := frame_keeps_receiving deps dest cur last data s fr hinv
      (hw fr (List.mem_cons_self _ _)) hk1
    have hk2' : framesKeepOpen last.fileSize ((data ++ fr.baMessage).length : Int) rest := by
      rw [List.length_append]; push_cast; exact hk2
    obtain ⟨s2, h2, hinv2, hq2⟩ := ih (data ++ fr.baMessage) s1 hinv1
      (fun x hx => hw x (List.mem_cons_of_mem _ hx)) hk2'
    refine ⟨s2, ?_, ?_, by rw [hq2, hq1]⟩
    · simp only [processFrames, h1]; exact h2
    · simpa [framesBytes, List.append_assoc] using hinv2

theorem lookupPath_append_new (p : QString) (c : QByteArray)
    (l : List (QString × QByteArray)) (h : lookupPath p l = none) :
    lookupPath p (l ++ [(p, c)]) = some c := by
  induction l with
  | nil => simp [lookupPath]
  | cons e rest ih =>
    obtain ⟨q, x⟩ := e
    by_cases hq : q = p
    · rw [lookupPath_cons, if_pos hq] at h
      exact absurd h (by simp)
    · rw [lookupPath_cons, if_neg hq] at h
      rw [List.cons_append, lookupPath_cons, if_neg hq]
      exact ih h

theorem lookupPath_append_ne (p q : QString) (c : QByteArray) (hne : q ≠ p)
    (l : List (QString × QByteArray)) :
    lookupPath q (l ++ [(p, c)]) = lookupPath q l := by
  induction l with
  | nil =>
    have : ¬ p = q := fun e => hne e.symm
    simp [lookupPath, this]
  | cons e rest ih =>
    obtain ⟨r, x⟩ := e
    rw [List.cons_append, lookupPath_cons, lookupPath_cons, ih]

theorem read_create (d : Disk) (p : QString) (h : d.read p = none) :
    (d.create p).read p = some [] ∧ ∀ q, q ≠ p → (d.create p).read q = d.read q := by
  unfold Disk.create
  rw [fileExists_of_read_none d p h]
  simp only [Bool.false_eq_true, if_false]
  exact ⟨lookupPath_append_new p [] d.entries h,
    fun q hq => lookupPath_append_ne p q [] hq d.entries⟩

/-- The first frame of a file, written whole: the header names the file, the
final file and the `.temp` file of that name are removed, and the `.temp` file
is created with the payload. -/
theorem writeFrame_first (deps : Deps) (s : FileUpdater) (fr : Frame)
    (h0 : s.bytesReceived = 0) (hfw : fr.firstWritten deps s.destinationDir) :
    ∃ s1, writeFrame deps fr.env s fr.baMessage = .ok s1 ∧
      s1.destinationDir = s.destinationDir ∧
      s1.sCurrentFileName = headerFileName deps fr.baMessage ∧
      s1.file = { fileName := s.destinationDir ++ headerFileName deps fr.baMessage ++ dotTemp,
                  isOpen := true } ∧
      s1.disk.read (s.destinationDir ++ headerFileName deps fr.baMessage ++ dotTemp) =
        some fr.payload ∧
      s1.bytesReceived = fr.payload.length ∧
      s1.queryList = s.queryList ∧
      s1.disk.read (s.destinationDir ++ headerFileName deps fr.baMessage) = none := by
  obtain ⟨-, hlen, hopen, hwrite⟩ := hfw
  have hprep := prepareNewFile_same deps s fr.baMessage
  obtain ⟨-, pq, -, -, pd, pb, pn, pf⟩ := hprep
  have hopened : fileOpenAppend fr.env (prepareNewFile deps s fr.baMessage) =
      some { prepareNewFile deps s fr.baMessage with
        file := { (prepareNewFile deps s fr.baMessage).file with isOpen := true },
        disk := (prepareNewFile deps s fr.baMessage).disk.create
          (prepareNewFile deps s fr.baMessage).file.fileName } := by
    unfold fileOpenAppend
    rw [pf]
    rw [if_pos ⟨rfl, hopen⟩]
  have hpaylen : ((fr.baMessage.length : Int) - 1024) = (fr.payload.length : Int) := by
    unfold Frame.payload
    rw [List.length_drop]
    omega
  rw [writeFrame_zero deps fr.env s fr.baMessage h0, hopened]
  dsimp only
  have hw2 : ∀ so : FileUpdater, so.file.isOpen = true →
      (fileWrite fr.env so (fr.baMessage.drop 1024)).2 = (fr.payload.length : Int) ∧
      (fileWrite fr.env so (fr.baMessage.drop 1024)).1 =
        { so with disk := so.disk.append so.file.fileName fr.payload } := by
    intro so hso
    unfold fileWrite
    rw [hso]
    simp only [if_true]
    have : fr.env.fileWrite (fr.baMessage.drop 1024).length = (fr.payload.length : Int) := hwrite
    rw [this]
    refine ⟨rfl, ?_⟩
    have ht : (fr.baMessage.drop 1024).take ((fr.payload.length : Int)).toNat = fr.payload := by
      unfold Frame.payload
      simp
    rw [ht]
  obtain ⟨hwa, hwb⟩ := hw2 { prepareNewFile deps s fr.baMessage with
        file := { (prepareNewFile deps s fr.baMessage).file with isOpen := true },
        disk := (prepareNewFile deps s fr.baMessage).disk.create
          (prepareNewFile deps s fr.baMessage).file.fileName } rfl
  rw [if_neg (by rw [hwa, hpaylen]; simp)]
  rw [hwa, hwb]
  have hd2t : (prepareNewFile deps s fr.baMessage).disk.read
      (s.destinationDir ++ headerFileName deps fr.baMessage ++ dotTemp) = none :=
    read_remove_self _ _
  have hd2f : (prepareNewFile deps s fr.baMessage).disk.read
      (s.destinationDir ++ headerFileName deps fr.baMessage) = none :=
    read_remove_of_none _ _ _ (read_remove_self _ _)
  obtain ⟨hc1, hc2⟩ := read_create _ _ hd2t
  refine ⟨_, rfl, pd, pn, ?_, ?_, ?_, pq, ?_⟩
  · show ({ (prepareNewFile deps s fr.baMessage).file with isOpen := true } : QFile) = _
    rw [pf]
  · show (((prepareNewFile deps s fr.baMessage).disk.create
        (prepareNewFile deps s fr.baMessage).file.fileName).append
        (prepareNewFile deps s fr.baMessage).file.fileName fr.payload).read _ = _
    rw [pf]
    dsimp only
    rw [read_append_self, hc1]
    rfl
  · show (prepareNewFile deps s fr.baMessage).bytesReceived + (fr.payload.length : Int) = _
    rw [pb, h0]
    simp
  · show (((prepareNewFile deps s fr.baMessage).disk.create
        (prepareNewFile deps s fr.baMessage).file.fileName).append
        (prepareNewFile deps s fr.baMessage).file.fileName fr.payload).read _ = _
    rw [pf]
    dsimp only
    rw [read_append_ne _ _ _ (path_ne_temp _).symm, hc2 _ (path_ne_temp _).symm, hd2f]

/-! ## Cancellation, status codes and the host (claims C15, C19 and C20) -/

/-- C15: for every binary frame, final or not, that arrives while an
interruption is requested, `onProcessBinaryFrame` returns with the disk as it
was (no byte written, no file renamed or deleted), the member `file` as it was
(not closed), `bytesReceived`, `sCurrentFileName` and `queryList` unchanged,
nothing handed to the socket, and `returnCode` set to `TRANSFER_DONE` through
one call of `thread()->exit`. -/
theorem cancellation (deps : Deps) (env : Env) (s : FileUpdater) (baMessage : QByteArray)
    (isLastFrame : Bool) (h : env.interruptionRequested = true) :
    ∃ s', onProcessBinaryFrame deps env s baMessage isLastFrame = some s' ∧
      s'.disk = s.disk ∧ s'.file = s.file ∧ s'.bytesReceived = s.bytesReceived ∧
      s'.sCurrentFileName = s.sCurrentFileName ∧ s'.queryList = s.queryList ∧
      s'.sent = s.sent ∧ s'.returnCode = some TRANSFER_DONE ∧
      s'.exits = s.exits ++ [TRANSFER_DONE] := by
  refine ⟨threadExit s TRANSFER_DONE, ?_, rfl, rfl, rfl, rfl, rfl, rfl, rfl, rfl⟩
  unfold onProcessBinaryFrame
  rw [h]
  rfl

/-- C15 on a final frame that would complete `b.jpg`: with the interruption
requested the 2 bytes are not written and `b.jpg.temp` is not renamed. -/
theorem cancellation_witness :
    ∃ s', onProcessBinaryFrame referenceDeps
        { fairEnv with interruptionRequested := true }
        { freshUpdater "/home/pi/slides/" "*.jpg"
            { dirs := ["/home/pi/slides/".toList],
              entries := [("/home/pi/slides/b.jpg.temp".toList, [1, 2, 3])] } with
          bytesReceived := 3, sCurrentFileName := "b.jpg".toList,
          file := { fileName := "/home/pi/slides/b.jpg.temp".toList, isOpen := true },
          queryList := [{ fileName := "b.jpg".toList, fileSize := 5 }] }
        [4, 5] true = some s' ∧
      s'.disk.read "/home/pi/slides/b.jpg.temp".toList = some [1, 2, 3] ∧
      s'.file.isOpen = true ∧ s'.bytesReceived = 3 ∧
      s'.queryList = [{ fileName := "b.jpg".toList, fileSize := 5 }] ∧
      s'.sent = [] ∧ s'.returnCode = some 0 := by
  obtain ⟨s', h1, h2, h3, h4, -, h6, h7, h8, -⟩ := cancellation referenceDeps
    { fairEnv with interruptionRequested := true }
    { freshUpdater "/home/pi/slides/" "*.jpg"
        { dirs := ["/home/pi/slides/".toList],
          entries := [("/home/pi/slides/b.jpg.temp".toList, [1, 2, 3])] } with
      bytesReceived := 3, sCurrentFileName := "b.jpg".toList,
      file := { fileName := "/home/pi/slides/b.jpg.temp".toList, isOpen := true },
      queryList := [{ fileName := "b.jpg".toList, fileSize := 5 }] }
    [4, 5] true rfl
  exact ⟨s', h1, by rw [h2]; rfl, by rw [h3], h4.trans rfl, h6.trans rfl, h7.trans rfl, h8⟩

/-- C19: the status codes are `TRANSFER_DONE` = 0, `ERROR_SOCKET` = -1,
`SERVER_DISCONNECTED` = -2 and `FILE_ERROR` = -3, pairwise distinct; the slot
of the socket error sets `returnCode` to -1 and the slot of the disconnection
sets it to -2, each through one call of `thread()->exit` with that code, and
neither touches the disk, the list of files or the socket. -/
theorem status_codes :
    TRANSFER_DONE = 0 ∧ ERROR_SOCKET = -1 ∧ SERVER_DISCONNECTED = -2 ∧ FILE_ERROR = -3 ∧
    [TRANSFER_DONE, ERROR_SOCKET, SERVER_DISCONNECTED, FILE_ERROR].Nodup ∧
    (∀ s : FileUpdater,
      (onUpdateSocketError s).returnCode = some (-1) ∧
      (onUpdateSocketError s).exits = s.exits ++ [-1] ∧
      (onUpdateSocketError s).disk = s.disk ∧
      (onUpdateSocketError s).queryList = s.queryList ∧
      (onUpdateSocketError s).sent = s.sent) ∧
    (∀ s : FileUpdater,
      (onServerDisconnected s).returnCode = some (-2) ∧
      (onServerDisconnected s).exits = s.exits ++ [-2] ∧
      (onServerDisconnected s).disk = s.disk ∧
      (onServerDisconnected s).queryList = s.queryList ∧
      (onServerDisconnected s).sent = s.sent) := by
  refine ⟨rfl, rfl, rfl, rfl, by decide, ?_, ?_⟩
  · intro s; exact ⟨rfl, rfl, rfl, rfl, rfl⟩
  · intro s; exact ⟨rfl, rfl, rfl, rfl, rfl⟩

/-- C20: for every value of `returnCode` and every value `r` of `rand()`, the
slot `onSpotUpdaterThreadDone` starts the restart timer of the spots, with the
interval `r % 5000 + 5000`, when the code is `ERROR_SOCKET` or
`SERVER_DISCONNECTED`, and leaves it alone for every other code, among them
`FILE_ERROR` and `TRANSFER_DONE`; so the timer is started if and only if the
code is one of the two. The slot `onSlideUpdaterThreadDone` does the same with
the timer of the slides, and neither slot touches the timer of the other. -/
theorem host_retry_policy (p : ScorePanel) (r : Nat) :
    ((p.spotReturnCode = ERROR_SOCKET ∨ p.spotReturnCode = SERVER_DISCONNECTED) →
      (onSpotUpdaterThreadDone p r).spotUpdaterRestartTimer =
        p.spotUpdaterRestartTimer ++ [r % 5000 + 5000]) ∧
    (¬ (p.spotReturnCode = ERROR_SOCKET ∨ p.spotReturnCode = SERVER_DISCONNECTED) →
      (onSpotUpdaterThreadDone p r).spotUpdaterRestartTimer = p.spotUpdaterRestartTimer) ∧
    ((onSpotUpdaterThreadDone p r).spotUpdaterRestartTimer ≠ p.spotUpdaterRestartTimer ↔
      (p.spotReturnCode = ERROR_SOCKET ∨ p.spotReturnCode = SERVER_DISCONNECTED)) ∧
    (onSpotUpdaterThreadDone p r).slideUpdaterRestartTimer = p.slideUpdaterRestartTimer ∧
    ((p.slideReturnCode = ERROR_SOCKET ∨ p.slideReturnCode = SERVER_DISCONNECTED) →
      (onSlideUpdaterThreadDone p r).slideUpdaterRestartTimer =
        p.slideUpdaterRestartTimer ++ [r % 5000 + 5000]) ∧
    (¬ (p.slideReturnCode = ERROR_SOCKET ∨ p.slideReturnCode = SERVER_DISCONNECTED) →
      (onSlideUpdaterThreadDone p r).slideUpdaterRestartTimer = p.slideUpdaterRestartTimer) ∧
    ((onSlideUpdaterThreadDone p r).slideUpdaterRestartTimer ≠ p.slideUpdaterRestartTimer ↔
      (p.slideReturnCode = ERROR_SOCKET ∨ p.slideReturnCode = SERVER_DISCONNECTED)) ∧
    (onSlideUpdaterThreadDone p r).spotUpdaterRestartTimer = p.spotUpdaterRestartTimer := by
  have hspot1 : (p.spotReturnCode = ERROR_SOCKET ∨ p.spotReturnCode = SERVER_DISCONNECTED) →
      (onSpotUpdaterThreadDone p r).spotUpdaterRestartTimer =
        p.spotUpdaterRestartTimer ++ [r % 5000 + 5000] := by
    intro h
    unfold onSpotUpdaterThreadDone closeSpotUpdaterThread
    rcases h with h | h <;>
      simp [h, TRANSFER_DONE, ERROR_SOCKET, FILE_ERROR, SERVER_DISCONNECTED]
  have hspot2 : ¬ (p.spotReturnCode = ERROR_SOCKET ∨ p.spotReturnCode = SERVER_DISCONNECTED) →
      (onSpotUpdaterThreadDone p r).spotUpdaterRestartTimer = p.spotUpdaterRestartTimer := by
    intro h
    rw [not_or] at h
    unfold onSpotUpdaterThreadDone closeSpotUpdaterThread
    simp only [h.1, h.2, if_false]
    split <;> [rfl; (split <;> rfl)]
  have hslide1 : (p.slideReturnCode = ERROR_SOCKET ∨ p.slideReturnCode = SERVER_DISCONNECTED) →
      (onSlideUpdaterThreadDone p r).slideUpdaterRestartTimer =
        p.slideUpdaterRestartTimer ++ [r % 5000 + 5000] := by
    intro h
    unfold onSlideUpdaterThreadDone closeSlideUpdaterThread
    rcases h with h | h <;>
      simp [h, TRANSFER_DONE, ERROR_SOCKET, FILE_ERROR, SERVER_DISCONNECTED]
  have hslide2 :
      ¬ (p.slideReturnCode = ERROR_SOCKET ∨ p.slideReturnCode = SERVER_DISCONNECTED) →
      (onSlideUpdaterThreadDone p r).slideUpdaterRestartTimer = p.slideUpdaterRestartTimer := by
    intro h
    rw [not_or] at h
    unfold onSlideUpdaterThreadDone closeSlideUpdaterThread
    simp only [h.1, h.2, if_false]
    split <;> [rfl; (split <;> rfl)]
  refine ⟨hspot1, hspot2, ?_, ?_, hslide1, hslide2, ?_, ?_⟩
  · constructor
    · intro hne
      by_contra hc
      exact hne (hspot2 hc)
    · intro hc
      rw [hspot1 hc]
      simp
  · unfold onSpotUpdaterThreadDone closeSpotUpdaterThread
    dsimp only
    split_ifs <;> rfl
  · constructor
    · intro hne
      by_contra hc
      exact hne (hslide2 hc)
    · intro hc
      rw [hslide1 hc]
      simp
  · unfold onSlideUpdaterThreadDone closeSlideUpdaterThread
    dsimp only
    split_ifs <;> rfl

/-- C20 on a host whose spot updater ended with `ERROR_SOCKET` and whose slide
updater ended with `FILE_ERROR`, with `rand()` = 12345: the timer of the spots
is started with 7345 ms, the timer of the slides is not started. -/
theorem host_retry_policy_witness :
    (onSpotUpdaterThreadDone
      { spotReturnCode := -1, slideReturnCode := -3, pSpotUpdaterThread := true,
        pSlideUpdaterThread := true, spotUpdaterRestartTimer := [],
        slideUpdaterRestartTimer := [] } 12345).spotUpdaterRestartTimer = [7345] ∧
    (onSlideUpdaterThreadDone
      { spotReturnCode := -1, slideReturnCode := -3, pSpotUpdaterThread := true,
        pSlideUpdaterThread := true, spotUpdaterRestartTimer := [],
        slideUpdaterRestartTimer := [] } 12345).slideUpdaterRestartTimer = [] :=
  ⟨((host_retry_policy
      { spotReturnCode := -1, slideReturnCode := -3, pSpotUpdaterThread := true,
        pSlideUpdaterThread := true, spotUpdaterRestartTimer := [],
        slideUpdaterRestartTimer := [] } 12345).1 (Or.inl rfl)).trans rfl,
   ((host_retry_policy
      { spotReturnCode := -1, slideReturnCode := -3, pSpotUpdaterThread := true,
        pSlideUpdaterThread := true, spotUpdaterRestartTimer := [],
        slideUpdaterRestartTimer := [] } 12345).2.2.2.2.2.1 (by decide)).trans rfl⟩

/-! ## Write errors (claim C16) -/

/-- C16: let a frame arrive with no interruption requested. If the file is not
new (`bytesReceived` is not 0) and `file.write` returns a count different from
the length of the frame, or if the file is new, its `.temp` file has been
opened and `file.write` returns a count different from the length of the frame
minus 1024, then `onProcessBinaryFrame` returns with the file closed and
`returnCode` set to `FILE_ERROR`, which is -3, through one call of
`thread()->exit`; whether the frame is final or not, nothing is handed to the
socket, the disk is as the write left it (nothing is renamed) and `queryList`
is unchanged. -/
theorem write_mismatch_is_file_error (deps : Deps) (env : Env) (s : FileUpdater)
    (baMessage : QByteArray) (isLastFrame : Bool) (hint : env.interruptionRequested = false) :
    (s.bytesReceived ≠ 0 → (fileWrite env s baMessage).2 ≠ baMessage.length →
      ∃ s', onProcessBinaryFrame deps env s baMessage isLastFrame = some s' ∧
        s'.returnCode = some FILE_ERROR ∧ FILE_ERROR = -3 ∧
        s'.exits = s.exits ++ [FILE_ERROR] ∧ s'.file.isOpen = false ∧
        s'.sent = s.sent ∧ s'.queryList = s.queryList ∧
        s'.disk = (fileWrite env s baMessage).1.disk) ∧
    (s.bytesReceived = 0 → ∀ so : FileUpdater,
      fileOpenAppend env (prepareNewFile deps s baMessage) = some so →
      (fileWrite env so (baMessage.drop 1024)).2 ≠ (baMessage.length : Int) - 1024 →
      ∃ s', onProcessBinaryFrame deps env s baMessage isLastFrame = some s' ∧
        s'.returnCode = some FILE_ERROR ∧ FILE_ERROR = -3 ∧
        s'.exits = s.exits ++ [FILE_ERROR] ∧ s'.file.isOpen = false ∧
        s'.sent = s.sent ∧ s'.queryList = s.queryList ∧
        s'.disk = (fileWrite env so (baMessage.drop 1024)).1.disk) := by
  constructor
  · intro h0 hw
    unfold onProcessBinaryFrame
    rw [hint, writeFrame_nonzero deps env s baMessage h0, if_pos (fun e => hw e.symm)]
    obtain ⟨a, b, c, -⟩ := fileWrite_same env s baMessage
    refine ⟨_, rfl, rfl, rfl, ?_, rfl, ?_, ?_, rfl⟩
    · show (fileWrite env s baMessage).1.exits ++ [FILE_ERROR] = _
      rw [c]
    · exact a
    · exact b
  · intro h0 so hopen hw
    unfold onProcessBinaryFrame
    rw [hint, writeFrame_zero deps env s baMessage h0, hopen]
    simp only [Bool.false_eq_true, if_false]
    rw [if_pos (fun e => hw e.symm)]
    obtain ⟨a, b, c, -⟩ := fileWrite_same env so (baMessage.drop 1024)
    have hso := fileOpenAppend_some env _ so hopen
    obtain ⟨pa, pb, pc, -⟩ := prepareNewFile_same deps s baMessage
    have hsent : so.sent = s.sent := by rw [hso]; exact pa
    have hq : so.queryList = s.queryList := by rw [hso]; exact pb
    have he : so.exits = s.exits := by rw [hso]; exact pc
    refine ⟨_, rfl, rfl, rfl, ?_, rfl, ?_, ?_, rfl⟩
    · show (fileWrite env so (baMessage.drop 1024)).1.exits ++ [FILE_ERROR] = _
      rw [c, he]
    · exact a.trans hsent
    · exact b.trans hq

/-- C16 on a final frame of 2 bytes of which the disk takes 1: the file is
closed with `FILE_ERROR`, `b.jpg.temp` holds the 4 bytes written and keeps its
name, no `get` is sent and `b.jpg` stays in the list. -/
theorem write_mismatch_is_file_error_witness :
    ∃ s', onProcessBinaryFrame referenceDeps
        { fairEnv with fileWrite := fun _ => 1 }
        { freshUpdater "/home/pi/slides/" "*.jpg"
            { dirs := ["/home/pi/slides/".toList],
              entries := [("/home/pi/slides/b.jpg.temp".toList, [1, 2, 3])] } with
          bytesReceived := 3, sCurrentFileName := "b.jpg".toList,
          file := { fileName := "/home/pi/slides/b.jpg.temp".toList, isOpen := true },
          queryList := [{ fileName := "b.jpg".toList, fileSize := 5 }] }
        [4, 5] true = some s' ∧
      s'.returnCode = some (-3) ∧ s'.file.isOpen = false ∧ s'.sent = [] ∧
      s'.queryList = [{ fileName := "b.jpg".toList, fileSize := 5 }] ∧
      s'.disk.read "/home/pi/slides/b.jpg.temp".toList = some [1, 2, 3, 4] ∧
      s'.disk.read "/home/pi/slides/b.jpg".toList = none := by
  obtain ⟨s', h1, h2, -, -, h4, h5, h6, h7⟩ := (write_mismatch_is_file_error referenceDeps
    { fairEnv with fileWrite := fun _ => 1 }
    { freshUpdater "/home/pi/slides/" "*.jpg"
        { dirs := ["/home/pi/slides/".toList],
          entries := [("/home/pi/slides/b.jpg.temp".toList, [1, 2, 3])] } with
      bytesReceived := 3, sCurrentFileName := "b.jpg".toList,
      file := { fileName := "/home/pi/slides/b.jpg.temp".toList, isOpen := true },
      queryList := [{ fileName := "b.jpg".toList, fileSize := 5 }] }
    [4, 5] true rfl).1 (by decide) (by decide)
  exact ⟨s', h1, h2, h4, h5.trans rfl, h6.trans rfl, by rw [h7]; rfl, by rw [h7]; rfl⟩

/-! ## The last frame of a delivery (claims C12 to C14) -/

/-- C12, as stated, fails twice. With the file `a%2Bb.jpg` at the tail of the
list, 5 bytes received of 9 after a final frame, the command sent is
`<get>a5Bb.jpg,5,524288</get>`: it does not name the tail file. With the file
`b.jpg` and a socket that reports 0 bytes sent, the command is handed to the
socket and `returnCode` is set to `ERROR_SOCKET`. -/
theorem continuation_counterexample :
    (onProcessBinaryFrame referenceDeps fairEnv
      { freshUpdater "/home/pi/slides/" "*.jpg"
          { dirs := ["/home/pi/slides/".toList],
            entries := [("/home/pi/slides/a%2Bb.jpg.temp".toList, [1, 2, 3])] } with
        bytesReceived := 3, sCurrentFileName := "a%2Bb.jpg".toList,
        file := { fileName := "/home/pi/slides/a%2Bb.jpg.temp".toList, isOpen := true },
        queryList := [{ fileName := "a%2Bb.jpg".toList, fileSize := 9 }] }
      [4, 5] true).map (fun s => (s.bytesReceived, s.sent)) =
      some (5, ["<get>a5Bb.jpg,5,524288</get>".toList]) ∧
    (onProcessBinaryFrame referenceDeps { fairEnv with sendTextMessage := fun _ => 0 }
      { freshUpdater "/home/pi/slides/" "*.jpg"
          { dirs := ["/home/pi/slides/".toList],
            entries := [("/home/pi/slides/b.jpg.temp".toList, [1, 2, 3])] } with
        bytesReceived := 3, sCurrentFileName := "b.jpg".toList,
        file := { fileName := "/home/pi/slides/b.jpg.temp".toList, isOpen := true },
        queryList := [{ fileName := "b.jpg".toList, fileSize := 9 }] }
      [4, 5] true).map (fun s => (s.bytesReceived, s.sent, s.returnCode)) =
      some (5, ["<get>b.jpg,5,524288</get>".toList], some ERROR_SOCKET) := by
  refine ⟨by rfl, by rfl⟩

/-- C12, amended: let a final frame arrive with no interruption requested and
be written, leaving the state `s1` with `bytesReceived` less than the expected
size of the tail of `queryList`, a file whose name has no `%`. Then
`onProcessBinaryFrame` hands the socket exactly the command
`<get>name,bytesReceived,524288</get>` for that tail file, leaves `file` open
and the disk as the write left them (nothing is closed or renamed) and leaves
`queryList` unchanged; when the socket reports the length of the command, no
terminal status is set, and when it reports another count, `returnCode` is set
to `ERROR_SOCKET` through one call of `thread()->exit`. -/
theorem continuation_on_short_final_frame (deps : Deps) (env : Env) (s s1 : FileUpdater)
    (baMessage : QByteArray) (last : files)
    (hint : env.interruptionRequested = false)
    (hw : writeFrame deps env s baMessage = .ok s1)
    (hlast : s.queryList.getLast? = some last)
    (hshort : s1.bytesReceived < last.fileSize)
    (hname : '%' ∉ last.fileName) :
    ∃ s', onProcessBinaryFrame deps env s baMessage true = some s' ∧
      s'.sent = s.sent ++ [specGet last.fileName s1.bytesReceived] ∧
      s'.bytesReceived = s1.bytesReceived ∧
      s'.file = s1.file ∧ s'.file.isOpen = true ∧ s'.disk = s1.disk ∧
      s'.queryList = s.queryList ∧
      (env.sendTextMessage (specGet last.fileName s1.bytesReceived) =
          QString.qlength (specGet last.fileName s1.bytesReceived) →
        s'.returnCode = s.returnCode ∧ s'.exits = s.exits) ∧
      (env.sendTextMessage (specGet last.fileName s1.bytesReceived) ≠
          QString.qlength (specGet last.fileName s1.bytesReceived) →
        s'.returnCode = some ERROR_SOCKET ∧ s'.exits = s.exits ++ [ERROR_SOCKET]) := by
  obtain ⟨a, b, c, d, -, f⟩ := writeFrame_ok_same deps env s s1 baMessage hw
  have hlast1 : s1.queryList.getLast? = some last := by rw [b]; exact hlast
  rw [onProcessBinaryFrame_last deps env s s1 baMessage hint hw,
    lastFrame_short env s1 last hlast1 hshort]
  refine ⟨_, rfl, ?_, ?_, ?_, ?_, ?_, ?_, ?_, ?_⟩
  · rw [sendGet_sent, a, getCommand_eq_specGet _ _ hname]
  · rw [sendGet_bytesReceived]
  · rw [sendGet_file]
  · rw [sendGet_file]; exact f
  · rw [sendGet_disk]
  · rw [sendGet_queryList]; exact b
  · intro hsend
    rw [← getCommand_eq_specGet _ _ hname] at hsend
    obtain ⟨h1, h2⟩ := (sendGet_status env s1 last.fileName).1 hsend
    exact ⟨h1.trans d, h2.trans c⟩
  · intro hsend
    rw [← getCommand_eq_specGet _ _ hname] at hsend
    obtain ⟨h1, h2⟩ := (sendGet_status env s1 last.fileName).2 hsend
    exact ⟨h1, by rw [h2, c]⟩

/-- C12, amended, on `b.jpg` with 5 bytes of 9 after the final frame. -/
theorem continuation_on_short_final_frame_witness :
    ∃ s', onProcessBinaryFrame referenceDeps fairEnv
        { freshUpdater "/home/pi/slides/" "*.jpg"
            { dirs := ["/home/pi/slides/".toList],
              entries := [("/home/pi/slides/b.jpg.temp".toList, [1, 2, 3])] } with
          bytesReceived := 3, sCurrentFileName := "b.jpg".toList,
          file := { fileName := "/home/pi/slides/b.jpg.temp".toList, isOpen := true },
          queryList := [{ fileName := "b.jpg".toList, fileSize := 9 }] }
        [4, 5] true = some s' ∧
      s'.sent = ["<get>b.jpg,5,524288</get>".toList] ∧ s'.file.isOpen = true ∧
      s'.queryList = [{ fileName := "b.jpg".toList, fileSize := 9 }] ∧
      s'.returnCode = none := by
  obtain ⟨s', h1, h2, -, -, h5, -, h7, h8, -⟩ := continuation_on_short_final_frame
    referenceDeps fairEnv
    { freshUpdater "/home/pi/slides/" "*.jpg"
        { dirs := ["/home/pi/slides/".toList],
          entries := [("/home/pi/slides/b.jpg.temp".toList, [1, 2, 3])] } with
      bytesReceived := 3, sCurrentFileName := "b.jpg".toList,
      file := { fileName := "/home/pi/slides/b.jpg.temp".toList, isOpen := true },
      queryList := [{ fileName := "b.jpg".toList, fileSize := 9 }] }
    { freshUpdater "/home/pi/slides/" "*.jpg"
        { dirs := ["/home/pi/slides/".toList],
          entries := [("/home/pi/slides/b.jpg.temp".toList, [1, 2, 3, 4, 5])] } with
      bytesReceived := 5, sCurrentFileName := "b.jpg".toList,
      file := { fileName := "/home/pi/slides/b.jpg.temp".toList, isOpen := true },
      queryList := [{ fileName := "b.jpg".toList, fileSize := 9 }] }
    [4, 5] { fileName := "b.jpg".toList, fileSize := 9 } rfl (by rfl) (by rfl) (by decide)
    (by decide)
  exact ⟨s', h1, h2.trans (by rfl), h5, h7.trans rfl, (h8 (by rfl)).1.trans rfl⟩

theorem askNextFile_refused (env : Env) (s : FileUpdater) (next : files)
    (h : s.queryList.getLast? = some next)
    (hex : s.disk.fileExists (s.destinationDir ++ next.fileName ++ dotTemp) = true)
    (hopen : env.canOpen (s.destinationDir ++ next.fileName ++ dotTemp) = false) :
    askNextFile env s =
      threadExit
        { s with bytesReceived := s.disk.size (s.destinationDir ++ next.fileName ++ dotTemp),
                 sCurrentFileName := s.destinationDir ++ next.fileName,
                 file := { fileName := s.destinationDir ++ next.fileName ++ dotTemp,
                           isOpen := false } }
        FILE_ERROR := by
  unfold askNextFile
  simp only [h]
  rw [openTempFile_refused env
    { s with bytesReceived := 0, sCurrentFileName := s.destinationDir ++ next.fileName }
    (s.destinationDir ++ next.fileName ++ dotTemp) hex hopen]

/-- The next file is asked for and the socket reports a count that is not the
length of the command. -/
theorem askNextFile_send_failed (env : Env) (sc : FileUpdater) (next : files)
    (hnext : sc.queryList.getLast? = some next) (hname : '%' ∉ next.fileName) :
    (sc.disk.read (sc.destinationDir ++ next.fileName ++ dotTemp) = none →
      env.sendTextMessage (specGet next.fileName 0) ≠
        QString.qlength (specGet next.fileName 0) →
      (askNextFile env sc).returnCode = some ERROR_SOCKET ∧
      (askNextFile env sc).exits = sc.exits ++ [ERROR_SOCKET]) ∧
    (∀ content : QByteArray,
      sc.disk.read (sc.destinationDir ++ next.fileName ++ dotTemp) = some content →
      env.canOpen (sc.destinationDir ++ next.fileName ++ dotTemp) = true →
      env.sendTextMessage (specGet next.fileName content.length) ≠
        QString.qlength (specGet next.fileName content.length) →
      (askNextFile env sc).returnCode = some ERROR_SOCKET ∧
      (askNextFile env sc).exits = sc.exits ++ [ERROR_SOCKET]) := by
  constructor
  · intro hread hsend
    rw [askNextFile_fresh env sc next hnext (fileExists_of_read_none _ _ hread)]
    rw [← getCommand_eq_specGet _ _ hname] at hsend
    exact (sendGet_status env
      { sc with bytesReceived := 0, sCurrentFileName := sc.destinationDir ++ next.fileName }
      next.fileName).2 hsend
  · intro content hread hopen hsend
    obtain ⟨hex, hsz⟩ := fileExists_of_read _ _ _ hread
    rw [askNextFile_resume env sc next hnext hex hopen]
    rw [← getCommand_eq_specGet _ _ hname, ← hsz] at hsend
    exact (sendGet_status env
      { sc with bytesReceived := sc.disk.size (sc.destinationDir ++ next.fileName ++ dotTemp),
                sCurrentFileName := sc.destinationDir ++ next.fileName,
                file := { fileName := sc.destinationDir ++ next.fileName ++ dotTemp,
                          isOpen := true } }
      next.fileName).2 hsend

/-- C13, as stated, fails twice on the list `b.jpg`, `a.jpg` when the final
frame completes `a.jpg` and `b.jpg.temp` exists with 1 byte. If `b.jpg.temp`
cannot be opened, no `get` is sent and `returnCode` is `FILE_ERROR`. If the
socket reports 0 bytes sent, the `get` for `b.jpg` is handed to the socket and
`returnCode` is `ERROR_SOCKET`. -/
theorem completion_step_counterexample :
    (onProcessBinaryFrame referenceDeps { fairEnv with canOpen := fun _ => false }
      { freshUpdater "/home/pi/slides/" "*.jpg"
          { dirs := ["/home/pi/slides/".toList],
            entries := [("/home/pi/slides/a.jpg.temp".toList, [1, 2, 3]),
                        ("/home/pi/slides/b.jpg.temp".toList, [7])] } with
        bytesReceived := 3, sCurrentFileName := "a.jpg".toList,
        file := { fileName := "/home/pi/slides/a.jpg.temp".toList, isOpen := true },
        queryList := [{ fileName := "b.jpg".toList, fileSize := 4 },
                      { fileName := "a.jpg".toList, fileSize := 5 }] }
      [4, 5] true).map (fun s => (s.queryList, s.sent, s.returnCode)) =
      some ([{ fileName := "b.jpg".toList, fileSize := 4 }], [], some FILE_ERROR) ∧
    (onProcessBinaryFrame referenceDeps { fairEnv with sendTextMessage := fun _ => 0 }
      { freshUpdater "/home/pi/slides/" "*.jpg"
          { dirs := ["/home/pi/slides/".toList],
            entries := [("/home/pi/slides/a.jpg.temp".toList, [1, 2, 3]),
                        ("/home/pi/slides/b.jpg.temp".toList, [7])] } with
        bytesReceived := 3, sCurrentFileName := "a.jpg".toList,
        file := { fileName := "/home/pi/slides/a.jpg.temp".toList, isOpen := true },
        queryList := [{ fileName := "b.jpg".toList, fileSize := 4 },
                      { fileName := "a.jpg".toList, fileSize := 5 }] }
      [4, 5] true).map (fun s => (s.queryList, s.sent, s.returnCode)) =
      some ([{ fileName := "b.jpg".toList, fileSize := 4 }],
        ["<get>b.jpg,1,524288</get>".toList], some ERROR_SOCKET) := by
  refine ⟨by rfl, by rfl⟩

/-- C13, amended: let a final frame arrive with no interruption requested and
be written, leaving the state `s1` with `bytesReceived` not less than the
expected size of the tail `last` of `queryList`. Then `onProcessBinaryFrame`
returns, the tail is removed from `queryList`, and the file is closed and
`<dest>sCurrentFileName.temp` renamed to `<dest>sCurrentFileName`: when
`sCurrentFileName` is the name of the tail, its `.temp` file exists and its
final file does not, afterwards the final file holds the content and the
`.temp` file is gone. If the list is now empty, nothing is sent, the file is
closed and `returnCode` is `TRANSFER_DONE`. If the list has a new tail, whose
name has no `%`: when that file has no `.temp`, the command
`<get>name,0,524288</get>` is sent with `bytesReceived` 0 and the file closed;
when it has a `.temp` that can be opened, the command
`<get>name,k,524288</get>` is sent, `k` being the size of the `.temp`, with
`bytesReceived` `k` and the `.temp` open; in both cases no terminal status is
set when the socket reports the length of the command, and `returnCode` is set
to `ERROR_SOCKET` through one call of `thread()->exit` when it reports another
count. If the list has a new tail, of any name, whose `.temp` exists and
cannot be opened, nothing is sent, the file is closed and `returnCode` is set
to `FILE_ERROR` through one call of `thread()->exit`. -/
theorem completion_step (deps : Deps) (env : Env) (s s1 : FileUpdater)
    (baMessage : QByteArray) (last : files)
    (hint : env.interruptionRequested = false)
    (hw : writeFrame deps env s baMessage = .ok s1)
    (hlast : s.queryList.getLast? = some last)
    (hfull : ¬ s1.bytesReceived < last.fileSize) :
    ∃ s', onProcessBinaryFrame deps env s baMessage true = some s' ∧
      s'.queryList = s.queryList.dropLast ∧
      s'.disk = s1.disk.rename (s.destinationDir ++ s1.sCurrentFileName ++ dotTemp)
        (s.destinationDir ++ s1.sCurrentFileName) ∧
      (∀ content : QByteArray, s1.sCurrentFileName = last.fileName →
        s1.disk.read (s.destinationDir ++ last.fileName ++ dotTemp) = some content →
        s1.disk.read (s.destinationDir ++ last.fileName) = none →
        s'.disk.read (s.destinationDir ++ last.fileName) = some content ∧
        s'.disk.read (s.destinationDir ++ last.fileName ++ dotTemp) = none) ∧
      (s.queryList.dropLast = [] →
        s'.sent = s.sent ∧ s'.file.isOpen = false ∧
        s'.returnCode = some TRANSFER_DONE ∧ s'.exits = s.exits ++ [TRANSFER_DONE]) ∧
      (∀ next : files, s.queryList.dropLast.getLast? = some next → '%' ∉ next.fileName →
        (s'.disk.read (s.destinationDir ++ next.fileName ++ dotTemp) = none →
          s'.sent = s.sent ++ [specGet next.fileName 0] ∧ s'.bytesReceived = 0 ∧
          s'.file.isOpen = false ∧
          (env.sendTextMessage (specGet next.fileName 0) =
              QString.qlength (specGet next.fileName 0) →
            s'.returnCode = s.returnCode ∧ s'.exits = s.exits) ∧
          (env.sendTextMessage (specGet next.fileName 0) ≠
              QString.qlength (specGet next.fileName 0) →
            s'.returnCode = some ERROR_SOCKET ∧ s'.exits = s.exits ++ [ERROR_SOCKET])) ∧
        (∀ content : QByteArray,
          s'.disk.read (s.destinationDir ++ next.fileName ++ dotTemp) = some content →
          env.canOpen (s.destinationDir ++ next.fileName ++ dotTemp) = true →
          s'.sent = s.sent ++ [specGet next.fileName content.length] ∧
          s'.bytesReceived = content.length ∧
          s'.file = { fileName := s.destinationDir ++ next.fileName ++ dotTemp,
                      isOpen := true } ∧
          (env.sendTextMessage (specGet next.fileName content.length) =
              QString.qlength (specGet next.fileName content.length) →
            s'.returnCode = s.returnCode ∧ s'.exits = s.exits) ∧
          (env.sendTextMessage (specGet next.fileName content.length) ≠
              QString.qlength (specGet next.fileName content.length) →
            s'.returnCode = some ERROR_SOCKET ∧ s'.exits = s.exits ++ [ERROR_SOCKET]))) ∧
      (∀ (next : files) (content : QByteArray),
        s.queryList.dropLast.getLast? = some next →
        s'.disk.read (s.destinationDir ++ next.fileName ++ dotTemp) = some content →
        env.canOpen (s.destinationDir ++ next.fileName ++ dotTemp) = false →
        s'.sent = s.sent ∧ s'.file.isOpen = false ∧
        s'.returnCode = some FILE_ERROR ∧ s'.exits = s.exits ++ [FILE_ERROR]) := by
  obtain ⟨a, b, c, d, e, -⟩ := writeFrame_ok_same deps env s s1 baMessage hw
  have hlast1 : s1.queryList.getLast? = some last := by rw [b]; exact hlast
  rw [onProcessBinaryFrame_last deps env s s1 baMessage hint hw,
    lastFrame_complete env s1 last hlast1 hfull]
  obtain ⟨hdisk, hq⟩ := askNextFile_frame env
    { s1 with file := { s1.file with isOpen := false },
              disk := s1.disk.rename (s1.destinationDir ++ s1.sCurrentFileName ++ dotTemp)
                (s1.destinationDir ++ s1.sCurrentFileName),
              queryList := s1.queryList.dropLast }
  refine ⟨_, rfl, ?_, ?_, ?_, ?_, ?_, ?_⟩
  · rw [hq, ← b]
  · rw [hdisk, ← e]
  · intro content hcur hread hnone
    rw [hdisk]
    dsimp only
    rw [hcur, e]
    exact read_rename _ _ _ _ (path_ne_temp _) hread hnone
  · intro hempty
    rw [← b] at hempty
    rw [askNextFile_done env _ hempty]
    exact ⟨a, rfl, rfl, by rw [← c]; rfl⟩
  · intro next hnext hname
    rw [← b] at hnext
    obtain ⟨hfresh, hresume⟩ := askNextFile_next env
      { s1 with file := { s1.file with isOpen := false },
                disk := s1.disk.rename (s1.destinationDir ++ s1.sCurrentFileName ++ dotTemp)
                  (s1.destinationDir ++ s1.sCurrentFileName),
                queryList := s1.queryList.dropLast } next hnext hname
    obtain ⟨hfreshFail, hresumeFail⟩ := askNextFile_send_failed env
      { s1 with file := { s1.file with isOpen := false },
                disk := s1.disk.rename (s1.destinationDir ++ s1.sCurrentFileName ++ dotTemp)
                  (s1.destinationDir ++ s1.sCurrentFileName),
                queryList := s1.queryList.dropLast } next hnext hname
    constructor
    · intro hread
      rw [hdisk] at hread
      dsimp only at hread
      rw [← e] at hread
      obtain ⟨h1, h2, h3, h4⟩ := hfresh hread
      refine ⟨h1.trans (by rw [← a]), h2, by rw [h3], ?_, ?_⟩
      · intro hsend
        obtain ⟨h5, h6⟩ := h4 hsend
        exact ⟨h5.trans d, h6.trans c⟩
      · intro hsend
        obtain ⟨h5, h6⟩ := hfreshFail hread hsend
        exact ⟨h5, by rw [h6]; exact congrArg (· ++ [ERROR_SOCKET]) c⟩
    · intro content hread hopen
      rw [hdisk] at hread
      dsimp only at hread
      rw [← e] at hread hopen
      obtain ⟨h1, h2, h3, h4⟩ := hresume content hread hopen
      refine ⟨h1.trans (by rw [← a]), h2, by rw [h3, ← e], ?_, ?_⟩
      · intro hsend
        obtain ⟨h5, h6⟩ := h4 hsend
        exact ⟨h5.trans d, h6.trans c⟩
      · intro hsend
        obtain ⟨h5, h6⟩ := hresumeFail content hread hopen hsend
        exact ⟨h5, by rw [h6]; exact congrArg (· ++ [ERROR_SOCKET]) c⟩
  · intro next content hnext hread hopen
    rw [← b] at hnext
    rw [hdisk] at hread
    dsimp only at hread
    rw [← e] at hread hopen
    obtain ⟨hex, -⟩ := fileExists_of_read _ _ _ hread
    rw [askNextFile_refused env
      { s1 with file := { s1.file with isOpen := false },
                disk := s1.disk.rename (s1.destinationDir ++ s1.sCurrentFileName ++ dotTemp)
                  (s1.destinationDir ++ s1.sCurrentFileName),
                queryList := s1.queryList.dropLast } next hnext hex hopen]
    exact ⟨a, rfl, rfl, congrArg (· ++ [FILE_ERROR]) c⟩

/-- C13, amended, on the list `b.jpg`, `a.jpg`: the final frame completes
`a.jpg`, which is renamed, and `b.jpg`, whose `.temp` holds 1 byte, is asked
for at offset 1. -/
theorem completion_step_witness :
    ∃ s', onProcessBinaryFrame referenceDeps fairEnv
        { freshUpdater "/home/pi/slides/" "*.jpg"
            { dirs := ["/home/pi/slides/".toList],
              entries := [("/home/pi/slides/a.jpg.temp".toList, [1, 2, 3]),
                          ("/home/pi/slides/b.jpg.temp".toList, [7])] } with
          bytesReceived := 3, sCurrentFileName := "a.jpg".toList,
          file := { fileName := "/home/pi/slides/a.jpg.temp".toList, isOpen := true },
          queryList := [{ fileName := "b.jpg".toList, fileSize := 4 },
                        { fileName := "a.jpg".toList, fileSize := 5 }] }
        [4, 5] true = some s' ∧
      s'.queryList = [{ fileName := "b.jpg".toList, fileSize := 4 }] ∧
      s'.disk.read "/home/pi/slides/a.jpg".toList = some [1, 2, 3, 4, 5] ∧
      s'.disk.read "/home/pi/slides/a.jpg.temp".toList = none ∧
      s'.sent = ["<get>b.jpg,1,524288</get>".toList] ∧ s'.bytesReceived = 1 ∧
      s'.returnCode = none := by
  obtain ⟨s', h1, h2, h3, -, -, h6, -⟩ := completion_step referenceDeps fairEnv
    { freshUpdater "/home/pi/slides/" "*.jpg"
        { dirs := ["/home/pi/slides/".toList],
          entries := [("/home/pi/slides/a.jpg.temp".toList, [1, 2, 3]),
                      ("/home/pi/slides/b.jpg.temp".toList, [7])] } with
      bytesReceived := 3, sCurrentFileName := "a.jpg".toList,
      file := { fileName := "/home/pi/slides/a.jpg.temp".toList, isOpen := true },
      queryList := [{ fileName := "b.jpg".toList, fileSize := 4 },
                    { fileName := "a.jpg".toList, fileSize := 5 }] }
    { freshUpdater "/home/pi/slides/" "*.jpg"
        { dirs := ["/home/pi/slides/".toList],
          entries := [("/home/pi/slides/a.jpg.temp".toList, [1, 2, 3, 4, 5]),
                      ("/home/pi/slides/b.jpg.temp".toList, [7])] } with
      bytesReceived := 5, sCurrentFileName := "a.jpg".toList,
      file := { fileName := "/home/pi/slides/a.jpg.temp".toList, isOpen := true },
      queryList := [{ fileName := "b.jpg".toList, fileSize := 4 },
                    { fileName := "a.jpg".toList, fileSize := 5 }] }
    [4, 5] { fileName := "a.jpg".toList, fileSize := 5 } rfl (by rfl) (by rfl) (by decide)
  obtain ⟨-, hres⟩ := h6 { fileName := "b.jpg".toList, fileSize := 4 } (by rfl) (by decide)
  obtain ⟨k1, k2, -, k4, -⟩ := hres [7] (by rw [h3]; rfl) (by rfl)
  exact ⟨s', h1, h2.trans rfl, by rw [h3]; rfl, by rw [h3]; rfl, k1.trans (by rfl), k2,
    (k4 (by rfl)).1.trans rfl⟩

set_option maxRecDepth 100000 in
/-- C14 fails for a later file resumed from a `.temp`. The list is `b.jpg`
(5 bytes), `a.jpg` (2 bytes) and `b.jpg.temp` holds 3 bytes. `a.jpg` is asked
for first and arrives in one frame; `b.jpg` is then asked for at offset 3, with
`sCurrentFileName` set to `<dest>b.jpg` (line 328); the final frame of 2 bytes
completes it, `b.jpg` is removed from the list and the session ends with
`TRANSFER_DONE`, but the rename is tried on `<dest><dest>b.jpg.temp`:
`b.jpg.temp` stays, with 5 bytes, and `b.jpg` does not exist. -/
theorem temp_survives_later_resumed_file :
    ((askFirstFile fairEnv
        { freshUpdater "/home/pi/slides/" "*.jpg"
            { dirs := ["/home/pi/slides/".toList],
              entries := [("/home/pi/slides/b.jpg.temp".toList, [7, 8, 9])] } with
          queryList := [{ fileName := "b.jpg".toList, fileSize := 5 },
                        { fileName := "a.jpg".toList, fileSize := 2 }] }).bind
      (fun s => processFrames referenceDeps s
        [{ env := fairEnv,
           baMessage := asciiBytes "a.jpg,2" ++ List.replicate 1017 0 ++ [1, 2],
           isLastFrame := true },
         { env := fairEnv, baMessage := [10, 11], isLastFrame := true }])).map
      (fun s => (s.queryList, s.returnCode, s.sCurrentFileName,
                 s.disk.read "/home/pi/slides/a.jpg".toList,
                 s.disk.read "/home/pi/slides/b.jpg".toList,
                 s.disk.read "/home/pi/slides/b.jpg.temp".toList)) =
    some ([], some TRANSFER_DONE, "/home/pi/slides/b.jpg".toList,
      some [1, 2], none, some [7, 8, 9, 10, 11]) := by
  rfl

/-! ## Frame accounting (claim C11) -/

set_option maxRecDepth 100000 in
/-- C11, as stated, fails when the first frame carries the header alone. The
file `a.jpg` has manifest size 2 and is started at offset 0; a frame of 1024
bytes arrives (the header, payload of 0 bytes), then a final frame of 2 bytes:
the payload lengths sum to 2. After the first frame `bytesReceived` is still
0, so the second frame is read as the first frame of a new file: it is shorter
than a header, nothing is written, and the slot ends with `FILE_ERROR`. No file
`a.jpg` exists and `a.jpg.temp` is empty. -/
theorem frame_accounting_counterexample :
    (processFrames referenceDeps
      { freshUpdater "/home/pi/slides/" "*.jpg"
          { dirs := ["/home/pi/slides/".toList], entries := [] } with
        queryList := [{ fileName := "a.jpg".toList, fileSize := 2 }] }
      [{ env := fairEnv, baMessage := asciiBytes "a.jpg,2" ++ List.replicate 1017 0,
         isLastFrame := false },
       { env := fairEnv, baMessage := [1, 2], isLastFrame := true }]).map
      (fun s => (s.returnCode, s.queryList,
                 s.disk.read "/home/pi/slides/a.jpg".toList,
                 s.disk.read "/home/pi/slides/a.jpg.temp".toList)) =
    some (some FILE_ERROR, [{ fileName := "a.jpg".toList, fileSize := 2 }], none, some []) := by
  rfl

/-- C11, amended: let `bytesReceived` be 0 and `last` be the tail of
`queryList`. Let the first frame be handled with no interruption requested,
hold the whole header of 1024 bytes, name the file `name` in it, have its
`.temp` file opened and its payload written whole, and carry at least one
payload byte unless it is the only frame; let the later frames be handled with
no interruption requested and written whole; let the payload lengths sum to the
size of `last`, the last frame be marked final, and no earlier final frame
bring the count to that size. Then processing the frames ends with
`<dest>name` holding exactly the payload bytes in order, as many as the size of
`last`, with no file `<dest>name.temp`, and with the tail removed from
`queryList`. -/
theorem frame_accounting (deps : Deps) (s : FileUpdater) (last : files) (first : Frame)
    (rest : List Frame) (lastFr : Frame)
    (h0 : s.bytesReceived = 0)
    (hlast : s.queryList.getLast? = some last)
    (hfirst : first.firstWritten deps s.destinationDir)
    (hpay : rest ≠ [] → 0 < first.payload.length)
    (hw : ∀ fr ∈ rest, fr.written)
    (hl : (first :: rest).getLast? = some lastFr)
    (hfin : lastFr.isLastFrame = true)
    (hsum : ((first.payload ++ framesBytes rest).length : Int) = last.fileSize)
    (hkeep1 : rest ≠ [] → first.isLastFrame = true →
      (first.payload.length : Int) < last.fileSize)
    (hkeep : framesKeepOpen last.fileSize first.payload.length rest.dropLast) :
    ∃ s', processFrames deps s (first :: rest) = some s' ∧
      s'.disk.read (s.destinationDir ++ headerFileName deps first.baMessage) =
        some (first.payload ++ framesBytes rest) ∧
      ((first.payload ++ framesBytes rest).length : Int) = last.fileSize ∧
      s'.disk.read (s.destinationDir ++ headerFileName deps first.baMessage ++ dotTemp) =
        none ∧
      s'.queryList = s.queryList.dropLast := by
  obtain ⟨s1, hwr, hd, hc, hfile, htemp, hbytes, hq, hfinal⟩ :=
    writeFrame_first deps s first h0 hfirst
  have hlast1 : s1.queryList.getLast? = some last := by rw [hq]; exact hlast
  rcases List.eq_nil_or_concat rest with hnil | ⟨mid, l, hrest⟩
  · subst hnil
    have hlf : lastFr = first := by simpa using hl.symm
    subst hlf
    have hfull : ¬ s1.bytesReceived < last.fileSize := by
      rw [hbytes, ← hsum]
      simp [framesBytes]
    obtain ⟨hr1, hr2⟩ := read_rename s1.disk _ _ _
      (path_ne_temp (s.destinationDir ++ headerFileName deps lastFr.baMessage)) htemp hfinal
    have hproc : processFrames deps s [lastFr] = some (askNextFile lastFr.env
        { s1 with file := { s1.file with isOpen := false },
                  disk := s1.disk.rename (s1.destinationDir ++ s1.sCurrentFileName ++ dotTemp)
                    (s1.destinationDir ++ s1.sCurrentFileName),
                  queryList := s1.queryList.dropLast }) := by
      simp only [processFrames]
      rw [hfin, onProcessBinaryFrame_last deps lastFr.env s s1 lastFr.baMessage hfirst.1 hwr,
        lastFrame_complete lastFr.env s1 last hlast1 hfull]
    refine ⟨_, hproc, ?_, hsum, ?_, ?_⟩
    · rw [(askNextFile_frame _ _).1]
      dsimp only
      rw [hd, hc]
      simpa [framesBytes] using hr1
    · rw [(askNextFile_frame _ _).1]
      dsimp only
      rw [hd, hc]
      exact hr2
    · rw [(askNextFile_frame _ _).2, hq]
  · rw [List.concat_eq_append] at hrest
    subst hrest
    have hne : mid ++ [l] ≠ [] := by simp
    have hlf : lastFr = l := by
      rw [← List.cons_append, List.getLast?_concat] at hl
      exact (Option.some.inj hl).symm
    subst hlf
    have hpos := hpay hne
    have hdrop : (mid ++ [lastFr]).dropLast = mid := by simp
    rw [hdrop] at hkeep
    -- the first frame leaves the file in transfer
    obtain ⟨s2, hstep, hinv, hq2⟩ : ∃ s2,
        onProcessBinaryFrame deps first.env s first.baMessage first.isLastFrame = some s2 ∧
        Receiving s.destinationDir (headerFileName deps first.baMessage) last first.payload s2 ∧
        s2.queryList = s.queryList := by
      cases hf : first.isLastFrame with
      | false =>
        refine ⟨s1, ?_, ⟨hd, hc, hfile, htemp, hbytes, hpos, hlast1, hfinal⟩, hq⟩
        unfold onProcessBinaryFrame
        rw [hfirst.1, hwr]
        rfl
      | true =>
        have hshort : s1.bytesReceived < last.fileSize := by
          rw [hbytes]; exact hkeep1 hne hf
        refine ⟨sendGet first.env s1 last.fileName, ?_, ⟨?_, ?_, ?_, ?_, ?_, hpos, ?_, ?_⟩, ?_⟩
        · rw [onProcessBinaryFrame_last deps first.env s s1 first.baMessage hfirst.1 hwr,
            lastFrame_short first.env s1 last hlast1 hshort]
        · rw [sendGet_destinationDir]; exact hd
        · rw [sendGet_sCurrentFileName]; exact hc
        · rw [sendGet_file]; exact hfile
        · rw [sendGet_disk]; exact htemp
        · rw [sendGet_bytesReceived]; exact hbytes
        · rw [sendGet_queryList]; exact hlast1
        · rw [sendGet_disk]; exact hfinal
        · rw [sendGet_queryList]; exact hq
    obtain ⟨s3, hmid, hinv3, hq3⟩ := processFrames_keep_receiving deps s.destinationDir
      (headerFileName deps first.baMessage) last mid first.payload s2 hinv
      (fun fr hfr => hw fr (List.mem_append_left _ hfr)) hkeep
    have hbytes3 : framesBytes (mid ++ [lastFr]) = framesBytes mid ++ lastFr.baMessage := by
      simp [framesBytes]
    have hnot : ¬ (((first.payload ++ framesBytes mid).length : Int) +
        lastFr.baMessage.length < last.fileSize) := by
      rw [hbytes3, ← List.append_assoc, List.length_append] at hsum
      push_cast at hsum
      omega
    obtain ⟨s4, hend, hr1, hr2, hq4⟩ := frame_completes_receiving deps s.destinationDir
      (headerFileName deps first.baMessage) last (first.payload ++ framesBytes mid) s3 lastFr
      hinv3 (hw lastFr (by simp)) hfin hnot
    refine ⟨s4, ?_, ?_, hsum, hr2, ?_⟩
    · simp only [processFrames, hstep]
      rw [processFrames_append, hmid]
      simp only [Option.bind, processFrames, hend]
    · rw [hbytes3, ← List.append_assoc]; exact hr1
    · rw [hq4, hq3, hq2]

set_option maxRecDepth 100000 in
/-- C11, amended, on `a.jpg` of 5 bytes: a first frame with the header and 2
bytes, a frame of 1 byte, and a final frame of 2 bytes. -/
theorem frame_accounting_witness :
    ∃ s', processFrames referenceDeps
        { freshUpdater "/home/pi/slides/" "*.jpg"
            { dirs := ["/home/pi/slides/".toList], entries := [] } with
          queryList := [{ fileName := "a.jpg".toList, fileSize := 5 }] }
        [{ env := fairEnv, baMessage := asciiBytes "a.jpg,5" ++ List.replicate 1017 0 ++ [1, 2],
           isLastFrame := false },
         { env := fairEnv, baMessage := [3], isLastFrame := false },
         { env := fairEnv, baMessage := [4, 5], isLastFrame := true }] = some s' ∧
      s'.disk.read "/home/pi/slides/a.jpg".toList = some [1, 2, 3, 4, 5] ∧
      s'.disk.read "/home/pi/slides/a.jpg.temp".toList = none ∧ s'.queryList = [] := by
  obtain ⟨s', h1, h2, -, h4, h5⟩ := frame_accounting referenceDeps
    { freshUpdater "/home/pi/slides/" "*.jpg"
        { dirs := ["/home/pi/slides/".toList], entries := [] } with
      queryList := [{ fileName := "a.jpg".toList, fileSize := 5 }] }
    { fileName := "a.jpg".toList, fileSize := 5 }
    { env := fairEnv, baMessage := asciiBytes "a.jpg,5" ++ List.replicate 1017 0 ++ [1, 2],
      isLastFrame := false }
    [{ env := fairEnv, baMessage := [3], isLastFrame := false },
     { env := fairEnv, baMessage := [4, 5], isLastFrame := true }]
    { env := fairEnv, baMessage := [4, 5], isLastFrame := true }
    rfl (by rfl) ⟨rfl, by decide, by rfl, by rfl⟩ (fun _ => by decide)
    (by
      intro fr hfr
      simp only [List.mem_cons, List.mem_singleton, List.not_mem_nil, or_false] at hfr
      rcases hfr with rfl | rfl <;> exact ⟨rfl, rfl⟩)
    (by rfl) (by rfl) (by rfl) (fun _ h => absurd h (by decide))
    ⟨fun h => absurd h (by decide), trivial⟩
  exact ⟨s', h1, h2, h4, h5⟩

/-! ## Failed sends (claim C17) -/

/-- What the code does at the two kinds of places where a command is sent, the
request of the manifest and the three `get`: a reported count different from
`sMessage.length()` sets `ERROR_SOCKET` through one call of `thread()->exit`,
and the function returns with nothing else changed. -/
theorem send_count_mismatch (env : Env) (s : FileUpdater) (n : QString) :
    (env.socketValid = true →
      env.sendTextMessage "<send_file_list>1</send_file_list>".toList ≠
        QString.qlength "<send_file_list>1</send_file_list>".toList →
      askFileList env s =
        threadExit { s with sent := s.sent ++ ["<send_file_list>1</send_file_list>".toList] }
          ERROR_SOCKET) ∧
    (env.sendTextMessage (getCommand n s.bytesReceived) ≠
        QString.qlength (getCommand n s.bytesReceived) →
      sendGet env s n =
        threadExit { s with sent := s.sent ++ [getCommand n s.bytesReceived] } ERROR_SOCKET) := by
  constructor
  · intro hv hne
    unfold askFileList sendTextMessage
    rw [hv]
    simp only [if_true]
    rw [if_pos hne]
  · intro hne
    unfold sendGet sendTextMessage
    dsimp only
    rw [if_pos hne]

/-- For a command made of ASCII characters, `sMessage.length()` is the number
of bytes of the command. -/
theorem utf8Length_ascii (m : QString) (h : ∀ c ∈ m, c.toNat < 0x80) :
    QString.utf8Length m = QString.qlength m := by
  induction m with
  | nil => rfl
  | cons c cs ih =>
    have hc : c.toNat < 0x80 := h c (List.mem_cons_self _ _)
    have hc2 : c.toNat < 0x10000 := by omega
    have ih' := ih (fun x hx => h x (List.mem_cons_of_mem _ hx))
    unfold QString.utf8Length QString.qlength at *
    simp only [List.map_cons, List.sum_cons, hc, hc2, if_true, ih']

/-- C17 fails for a command with a character outside ASCII. The command
`<get>é.jpg,0,524288</get>` takes 26 bytes and `sMessage.length()` is 25; when
the socket reports 25 bytes sent, one fewer than the command requires,
`askFirstFile` compares 25 with 25 and returns with no status set. -/
theorem short_send_not_detected :
    QString.utf8Length "<get>é.jpg,0,524288</get>".toList = 26 ∧
    QString.qlength "<get>é.jpg,0,524288</get>".toList = 25 ∧
    (askFirstFile { fairEnv with sendTextMessage := fun _ => 25 }
      { freshUpdater "/home/pi/slides/" "*.jpg"
          { dirs := ["/home/pi/slides/".toList], entries := [] } with
        queryList := [{ fileName := "é.jpg".toList, fileSize := 9 }] }).map
      (fun s => (s.sent, s.returnCode, s.exits)) =
    some (["<get>é.jpg,0,524288</get>".toList], none, []) := by
  refine ⟨by rfl, by rfl, by rfl⟩

/-! ## The terminal status in a run (claim C18) -/

theorem openTempFile_status (env : Env) (s : FileUpdater) (t : QString) :
    match openTempFile env s t with
    | .ok s1 => s1.exits = s.exits ∧ s1.returnCode = s.returnCode
    | .error s1 => s1.exits = s.exits ++ [FILE_ERROR] ∧ s1.returnCode = some FILE_ERROR := by
  cases h : s.disk.fileExists t with
  | false =>
    rw [openTempFile_absent env s t h]
    exact ⟨rfl, rfl⟩
  | true =>
    cases ho : env.canOpen t with
    | true =>
      rw [openTempFile_opened env s t h ho]
      exact ⟨rfl, rfl⟩
    | false =>
      rw [openTempFile_refused env s t h ho]
      exact ⟨rfl, rfl⟩

theorem sendGet_sets_once (env : Env) (s0 s : FileUpdater) (n : QString)
    (he : s.exits = s0.exits) (hr : s.returnCode = s0.returnCode) :
    SetsStatusAtMostOnce s0 (sendGet env s n) := by
  unfold sendGet sendTextMessage
  dsimp only
  split
  · exact Or.inr ⟨ERROR_SOCKET, by unfold threadExit; dsimp only; rw [he], rfl⟩
  · exact Or.inl ⟨he, hr⟩

theorem threadExit_sets_once (s0 s : FileUpdater) (c : Int) (he : s.exits = s0.exits) :
    SetsStatusAtMostOnce s0 (threadExit s c) :=
  Or.inr ⟨c, by unfold threadExit; dsimp only; rw [he], rfl⟩

theorem askFirstFile_sets_once (env : Env) (s0 s s1 : FileUpdater)
    (he : s.exits = s0.exits) (hr : s.returnCode = s0.returnCode)
    (h : askFirstFile env s = some s1) : SetsStatusAtMostOnce s0 s1 := by
  unfold askFirstFile at h
  split at h
  · exact absurd h (by simp)
  · rename_i last _
    dsimp only at h
    have ho := openTempFile_status env
      { s with bytesReceived := 0, sCurrentFileName := last.fileName }
      (s.destinationDir ++ last.fileName ++ dotTemp)
    split at h
    · rename_i se heq
      rw [heq] at ho
      have h1 : se = s1 := Option.some.inj h
      subst h1
      exact Or.inr ⟨FILE_ERROR, by rw [ho.1]; exact congrArg (· ++ [FILE_ERROR]) he, ho.2⟩
    · rename_i so heq
      rw [heq] at ho
      have h1 := Option.some.inj h
      rw [← h1]
      exact sendGet_sets_once env s0 so _ (ho.1.trans he) (ho.2.trans hr)

theorem askNextFile_sets_once (env : Env) (s0 s : FileUpdater)
    (he : s.exits = s0.exits) (hr : s.returnCode = s0.returnCode) :
    SetsStatusAtMostOnce s0 (askNextFile env s) := by
  unfold askNextFile
  split
  · rename_i last _
    dsimp only
    have ho := openTempFile_status env
      { s with bytesReceived := 0, sCurrentFileName := s.destinationDir ++ last.fileName }
      (s.destinationDir ++ last.fileName ++ dotTemp)
    split
    · rename_i se heq
      rw [heq] at ho
      exact Or.inr ⟨FILE_ERROR, by rw [ho.1]; exact congrArg (· ++ [FILE_ERROR]) he, ho.2⟩
    · rename_i so heq
      rw [heq] at ho
      exact sendGet_sets_once env s0 so _ (ho.1.trans he) (ho.2.trans hr)
  · exact threadExit_sets_once s0 s _ he

theorem updateFiles_sets_once (deps : Deps) (env : Env) (s0 s s1 : FileUpdater)
    (he : s.exits = s0.exits) (hr : s.returnCode = s0.returnCode)
    (h : updateFiles deps env s = some s1) : SetsStatusAtMostOnce s0 s1 := by
  unfold updateFiles at h
  dsimp only at h
  split at h
  · have h1 := Option.some.inj h
    rw [← h1]
    exact threadExit_sets_once s0 _ _ he
  · exact askFirstFile_sets_once env s0 _ s1 (by exact he) (by exact hr) h

theorem writeFrame_status (deps : Deps) (env : Env) (s : FileUpdater) (ba : QByteArray) :
    match writeFrame deps env s ba with
    | .ok s1 => s1.exits = s.exits ∧ s1.returnCode = s.returnCode
    | .error s1 => s1.exits = s.exits ++ [FILE_ERROR] ∧ s1.returnCode = some FILE_ERROR := by
  by_cases h0 : s.bytesReceived = 0
  · rw [writeFrame_zero deps env s ba h0]
    cases ho : fileOpenAppend env (prepareNewFile deps s ba) with
    | none => exact ⟨rfl, rfl⟩
    | some so =>
      have hso := fileOpenAppend_some env _ so ho
      have hw := fileWrite_same env so (ba.drop 1024)
      have he : so.exits = s.exits := by rw [hso]; rfl
      have hr : so.returnCode = s.returnCode := by rw [hso]; rfl
      dsimp only
      by_cases hc : ((ba.length : Int) - 1024) ≠ (fileWrite env so (ba.drop 1024)).2
      · rw [if_pos hc]
        exact ⟨congrArg (· ++ [FILE_ERROR]) (hw.2.2.1.trans he), rfl⟩
      · rw [if_neg hc]
        exact ⟨hw.2.2.1.trans he, hw.2.2.2.1.trans hr⟩
  · rw [writeFrame_nonzero deps env s ba h0]
    have hw := fileWrite_same env s ba
    by_cases hc : (ba.length : Int) ≠ (fileWrite env s ba).2
    · rw [if_pos hc]
      exact ⟨congrArg (· ++ [FILE_ERROR]) hw.2.2.1, rfl⟩
    · rw [if_neg hc]
      exact ⟨hw.2.2.1, hw.2.2.2.1⟩

theorem lastFrame_sets_once (env : Env) (s0 s s1 : FileUpdater)
    (he : s.exits = s0.exits) (hr : s.returnCode = s0.returnCode)
    (h : lastFrame env s = some s1) : SetsStatusAtMostOnce s0 s1 := by
  unfold lastFrame at h
  split at h
  · exact absurd h (by simp)
  · dsimp only at h
    split at h
    · have h1 := Option.some.inj h
      rw [← h1]
      exact sendGet_sets_once env s0 s _ he hr
    · have h1 := Option.some.inj h
      rw [← h1]
      exact askNextFile_sets_once env s0 _ he hr

theorem handleEvent_sets_once (deps : Deps) (s s1 : FileUpdater) (e : Event)
    (h : handleEvent deps s e = some s1) : SetsStatusAtMostOnce s s1 := by
  cases e with
  | connected env =>
    have h1 : onUpdateSocketConnected env s = s1 := Option.some.inj h
    rw [← h1]
    unfold onUpdateSocketConnected askFileList sendTextMessage
    split
    · dsimp only
      split
      · exact threadExit_sets_once s _ _ rfl
      · exact Or.inl ⟨rfl, rfl⟩
    · exact Or.inl ⟨rfl, rfl⟩
  | textMessage env sMessage =>
    have h1 : onProcessTextMessage deps env s sMessage = some s1 := h
    unfold onProcessTextMessage at h1
    dsimp only at h1
    split at h1
    · exact updateFiles_sets_once deps env s _ s1 (by rfl) (by rfl) h1
    · have h2 := Option.some.inj h1
      rw [← h2]
      exact threadExit_sets_once s s _ rfl
  | binaryFrame env baMessage isLastFrame =>
    have h1 : onProcessBinaryFrame deps env s baMessage isLastFrame = some s1 := h
    unfold onProcessBinaryFrame at h1
    split at h1
    · have h2 := Option.some.inj h1
      rw [← h2]
      exact threadExit_sets_once s s _ rfl
    · have hw := writeFrame_status deps env s baMessage
      split at h1
      · rename_i se heq
        rw [heq] at hw
        have h2 : se = s1 := Option.some.inj h1
        subst h2
        exact Or.inr ⟨FILE_ERROR, hw.1, hw.2⟩
      · rename_i so heq
        rw [heq] at hw
        split at h1
        · exact lastFrame_sets_once env s so s1 hw.1 hw.2 h1
        · have h2 : so = s1 := Option.some.inj h1
          subst h2
          exact Or.inl hw
  | socketError =>
    have h1 : onUpdateSocketError s = s1 := Option.some.inj h
    rw [← h1]
    exact threadExit_sets_once s s _ rfl
  | disconnected =>
    have h1 : onServerDisconnected s = s1 := Option.some.inj h
    rw [← h1]
    exact threadExit_sets_once s s _ rfl

theorem runSession_status (deps : Deps) (events : List Event) :
    ∀ s s1 : FileUpdater, runSession deps s events = some s1 →
      s.returnCode = s.exits.getLast? →
      s1.returnCode = s1.exits.getLast? ∧ s.exits <+: s1.exits ∧
        s1.exits.length ≤ s.exits.length + events.length := by
  induction events with
  | nil =>
    intro s s1 h hs
    have h1 : s = s1 := Option.some.inj h
    subst h1
    exact ⟨hs, List.prefix_refl _, by simp⟩
  | cons e rest ih =>
    intro s s1 h hs
    unfold runSession at h
    split at h
    · exact absurd h (by simp)
    · rename_i sm hm
      have hstep := handleEvent_sets_once deps s sm e hm
      have hsm : sm.returnCode = sm.exits.getLast? ∧ s.exits <+: sm.exits ∧
          sm.exits.length ≤ s.exits.length + 1 := by
        rcases hstep with ⟨he, hr⟩ | ⟨c, he, hr⟩
        · rw [he, hr]
          exact ⟨hs, List.prefix_refl _, by omega⟩
        · rw [he, hr]
          exact ⟨by simp, List.prefix_append _ _, by simp⟩
      obtain ⟨h1, h2, h3⟩ := ih sm s1 h hsm.1
      refine ⟨h1, hsm.2.1.trans h2, ?_⟩
      have := hsm.2.2
      simp only [List.length_cons]
      omega

/-- C18 fails: the slots have no guard against a status already set. When the
socket reports an error and then the disconnection, `onUpdateSocketError` sets
`ERROR_SOCKET` and `onServerDisconnected` sets `SERVER_DISCONNECTED` after it:
`thread()->exit` is called twice and `returnCode` changes from -1 to -2. -/
theorem status_set_once_counterexample :
    ((runSession referenceDeps
        (freshUpdater "/home/pi/slides/" "*.jpg"
          { dirs := ["/home/pi/slides/".toList], entries := [] })
        [Event.socketError]).map (fun s => (s.returnCode, s.exits)) =
      some (some (-1), [-1])) ∧
    ((runSession referenceDeps
        (freshUpdater "/home/pi/slides/" "*.jpg"
          { dirs := ["/home/pi/slides/".toList], entries := [] })
        [Event.socketError, Event.disconnected]).map (fun s => (s.returnCode, s.exits)) =
      some (some (-2), [-1, -2])) := by
  refine ⟨by rfl, by rfl⟩

/-- C18, amended: one invocation of a slot sets the terminal status at most
once: it leaves `returnCode` and the calls of `thread()->exit` as they were, or
it assigns `returnCode` and calls `thread()->exit` with it one time. In a run
that starts with `returnCode` equal to the code of the last call of
`thread()->exit` (none, for a new updater), after every sequence of events
`returnCode` is still the code of the last call, the earlier calls are kept, and
there are at most as many new calls as events. -/
theorem status_set_once_per_slot (deps : Deps) (s : FileUpdater) :
    (∀ (e : Event) (s1 : FileUpdater), handleEvent deps s e = some s1 →
      SetsStatusAtMostOnce s s1) ∧
    (∀ (events : List Event) (s1 : FileUpdater), runSession deps s events = some s1 →
      s.returnCode = s.exits.getLast? →
      s1.returnCode = s1.exits.getLast? ∧ s.exits <+: s1.exits ∧
        s1.exits.length ≤ s.exits.length + events.length) :=
  ⟨fun e s1 h => handleEvent_sets_once deps s s1 e h,
   fun events s1 h hs => runSession_status deps events s s1 h hs⟩

set_option maxRecDepth 100000 in
/-- The amended C18 applied to a whole session: the connection, the manifest
`a.jpg;2`, and the only frame of the file. The status is set by the last of
the three slots, one time. -/
theorem status_set_once_per_slot_witness :
    ∃ s1 : FileUpdater,
      runSession referenceDeps
        (freshUpdater "/home/pi/slides/" "*.jpg"
          { dirs := ["/home/pi/slides/".toList], entries := [] })
        [Event.connected fairEnv,
         Event.textMessage fairEnv "<file_list>a.jpg;2</file_list>".toList,
         Event.binaryFrame fairEnv
           (asciiBytes "a.jpg,2" ++ List.replicate 1017 0 ++ [1, 2]) true] = some s1 ∧
      s1.exits = [0] ∧
      (s1.returnCode = s1.exits.getLast? ∧
        (freshUpdater "/home/pi/slides/" "*.jpg"
          { dirs := ["/home/pi/slides/".toList], entries := [] }).exits <+: s1.exits ∧
        s1.exits.length ≤
          (freshUpdater "/home/pi/slides/" "*.jpg"
            { dirs := ["/home/pi/slides/".toList], entries := [] }).exits.length + 3) := by
  have h : ∃ s1 : FileUpdater,
      runSession referenceDeps
        (freshUpdater "/home/pi/slides/" "*.jpg"
          { dirs := ["/home/pi/slides/".toList], entries := [] })
        [Event.connected fairEnv,
         Event.textMessage fairEnv "<file_list>a.jpg;2</file_list>".toList,
         Event.binaryFrame fairEnv
           (asciiBytes "a.jpg,2" ++ List.replicate 1017 0 ++ [1, 2]) true] = some s1 ∧
      s1.exits = [0] := ⟨_, rfl, rfl⟩
  obtain ⟨s1, hrun, hex⟩ := h
  exact ⟨s1, hrun, hex,
    (status_set_once_per_slot referenceDeps
      (freshUpdater "/home/pi/slides/" "*.jpg"
        { dirs := ["/home/pi/slides/".toList], entries := [] })).2 _ s1 hrun rfl⟩

/-! ## The delay of a restart (claim C21) -/

/-- C21: for every value `r` of `rand()`, a natural number, the delay
`r % 5000 + 5000` lies between 5000 and 9999 ms, and every interval found in
the restart timer of the spots after `onSpotUpdaterThreadDone`, or in the
restart timer of the slides after `onSlideUpdaterThreadDone`, was there before
or lies between 5000 and 9999 ms, whatever the return code. -/
theorem retry_delay_bound (p : ScorePanel) (r : Nat) :
    (5000 ≤ r % 5000 + 5000 ∧ r % 5000 + 5000 ≤ 9999) ∧
    (∀ d ∈ (onSpotUpdaterThreadDone p r).spotUpdaterRestartTimer,
      d ∈ p.spotUpdaterRestartTimer ∨ (d = r % 5000 + 5000 ∧ 5000 ≤ d ∧ d ≤ 9999)) ∧
    (∀ d ∈ (onSlideUpdaterThreadDone p r).slideUpdaterRestartTimer,
      d ∈ p.slideUpdaterRestartTimer ∨ (d = r % 5000 + 5000 ∧ 5000 ≤ d ∧ d ≤ 9999)) := by
  have hr : 5000 ≤ r % 5000 + 5000 ∧ r % 5000 + 5000 ≤ 9999 := by
    have := Nat.mod_lt r (show 0 < 5000 by decide)
    omega
  refine ⟨hr, ?_, ?_⟩
  · intro d hd
    unfold onSpotUpdaterThreadDone closeSpotUpdaterThread at hd
    dsimp only at hd
    split_ifs at hd
    · exact Or.inl hd
    · rcases List.mem_append.1 hd with h | h
      · exact Or.inl h
      · exact Or.inr ⟨List.mem_singleton.1 h, by rw [List.mem_singleton.1 h]; exact hr⟩
    · exact Or.inl hd
    · rcases List.mem_append.1 hd with h | h
      · exact Or.inl h
      · exact Or.inr ⟨List.mem_singleton.1 h, by rw [List.mem_singleton.1 h]; exact hr⟩
    · exact Or.inl hd
  · intro d hd
    unfold onSlideUpdaterThreadDone closeSlideUpdaterThread at hd
    dsimp only at hd
    split_ifs at hd
    · exact Or.inl hd
    · rcases List.mem_append.1 hd with h | h
      · exact Or.inl h
      · exact Or.inr ⟨List.mem_singleton.1 h, by rw [List.mem_singleton.1 h]; exact hr⟩
    · exact Or.inl hd
    · rcases List.mem_append.1 hd with h | h
      · exact Or.inl h
      · exact Or.inr ⟨List.mem_singleton.1 h, by rw [List.mem_singleton.1 h]; exact hr⟩
    · exact Or.inl hd

/-- C21 on a spot updater that ended with `SERVER_DISCONNECTED`, with
`rand()` = 2147483647: the timer is started with 8647 ms. -/
theorem retry_delay_bound_witness :
    (onSpotUpdaterThreadDone
      { spotReturnCode := -2, slideReturnCode := 0, pSpotUpdaterThread := true,
        pSlideUpdaterThread := true, spotUpdaterRestartTimer := [],
        slideUpdaterRestartTimer := [] } 2147483647).spotUpdaterRestartTimer = [8647] ∧
    (8647 ∈ ([] : List Nat) ∨ (8647 = 2147483647 % 5000 + 5000 ∧ 5000 ≤ 8647 ∧ 8647 ≤ 9999)) :=
  ⟨rfl, (retry_delay_bound
      { spotReturnCode := -2, slideReturnCode := 0, pSpotUpdaterThread := true,
        pSlideUpdaterThread := true, spotUpdaterRestartTimer := [],
        slideUpdaterRestartTimer := [] } 2147483647).2.1 8647 (by decide)⟩

/-! ## The size test of a final frame (claim C22) -/

/-- C22 fails for a total larger than the expected size. The tail of the list
is `b.jpg`, expected size 4, and `b.jpg.temp` holds 3 bytes; a final frame of 2
bytes brings the total to 5. The test of line 292 is `bytesReceived <
fileSize`, so a total of 5 is taken as complete: `b.jpg.temp` is renamed to
`b.jpg`, which holds 5 bytes, `b.jpg` is removed from the list and the session
ends with `TRANSFER_DONE`. -/
theorem oversize_file_declared_complete :
    (onProcessBinaryFrame referenceDeps fairEnv
      { freshUpdater "/home/pi/slides/" "*.jpg"
          { dirs := ["/home/pi/slides/".toList],
            entries := [("/home/pi/slides/b.jpg.temp".toList, [1, 2, 3])] } with
        bytesReceived := 3, sCurrentFileName := "b.jpg".toList,
        file := { fileName := "/home/pi/slides/b.jpg.temp".toList, isOpen := true },
        queryList := [{ fileName := "b.jpg".toList, fileSize := 4 }] }
      [4, 5] true).map
      (fun s => (s.bytesReceived, s.queryList, s.returnCode,
                 s.disk.read "/home/pi/slides/b.jpg".toList,
                 s.disk.read "/home/pi/slides/b.jpg.temp".toList)) =
    some (5, [], some TRANSFER_DONE, some [1, 2, 3, 4, 5], none) := by
  rfl

/-! ## A command sent whole (claim C27) -/

/-- C27 fails for a name with a character outside ASCII. The command
`<get>é.jpg,0,524288</get>` takes 26 bytes in UTF-8 and `sMessage.length()` is
25. When the socket sends the whole command and reports its 26 bytes,
`askFirstFile` compares 26 with 25 and sets `ERROR_SOCKET`; so does the branch
of `onProcessBinaryFrame` that asks for the rest of `é.jpg` after a final frame
(command `<get>é.jpg,5,524288</get>`, 26 bytes, length 25). -/
theorem whole_send_reported_as_error :
    QString.utf8Length "<get>é.jpg,0,524288</get>".toList = 26 ∧
    QString.qlength "<get>é.jpg,0,524288</get>".toList = 25 ∧
    (askFirstFile { fairEnv with sendTextMessage := QString.utf8Length }
      { freshUpdater "/home/pi/slides/" "*.jpg"
          { dirs := ["/home/pi/slides/".toList], entries := [] } with
        queryList := [{ fileName := "é.jpg".toList, fileSize := 9 }] }).map
      (fun s => (s.sent, s.returnCode, s.exits)) =
    some (["<get>é.jpg,0,524288</get>".toList], some ERROR_SOCKET, [ERROR_SOCKET]) ∧
    (onProcessBinaryFrame referenceDeps { fairEnv with sendTextMessage := QString.utf8Length }
      { freshUpdater "/home/pi/slides/" "*.jpg"
          { dirs := ["/home/pi/slides/".toList],
            entries := [("/home/pi/slides/é.jpg.temp".toList, [1, 2, 3])] } with
        bytesReceived := 3, sCurrentFileName := "é.jpg".toList,
        file := { fileName := "/home/pi/slides/é.jpg.temp".toList, isOpen := true },
        queryList := [{ fileName := "é.jpg".toList, fileSize := 9 }] }
      [4, 5] true).map (fun s => (s.sent, s.returnCode, s.exits)) =
    some (["<get>é.jpg,5,524288</get>".toList], some ERROR_SOCKET, [ERROR_SOCKET]) := by
  refine ⟨by rfl, by rfl, by rfl, by rfl⟩

/-! ## A first frame without payload (claim C29) -/

theorem fileOpenAppend_prepareNewFile (deps : Deps) (env : Env) (s : FileUpdater)
    (ba : QByteArray)
    (hopen : env.canOpen (s.destinationDir ++ headerFileName deps ba ++ dotTemp) = true) :
    fileOpenAppend env (prepareNewFile deps s ba) =
      some { prepareNewFile deps s ba with
        file := { fileName := s.destinationDir ++ headerFileName deps ba ++ dotTemp,
                  isOpen := true },
        disk := (prepareNewFile deps s ba).disk.create
          (s.destinationDir ++ headerFileName deps ba ++ dotTemp) } := by
  have pf := (prepareNewFile_same deps s ba).2.2.2.2.2.2.2
  unfold fileOpenAppend
  rw [pf]
  rw [if_pos ⟨rfl, hopen⟩]

theorem read_prepareNewFile (deps : Deps) (s : FileUpdater) (ba : QByteArray) :
    (prepareNewFile deps s ba).disk.read
        (s.destinationDir ++ headerFileName deps ba ++ dotTemp) = none ∧
    (prepareNewFile deps s ba).disk.read (s.destinationDir ++ headerFileName deps ba) = none :=
  ⟨read_remove_self _ _, read_remove_of_none _ _ _ (read_remove_self _ _)⟩

/-- C29: let a frame arrive with no interruption requested while
`bytesReceived` is 0, let the `.temp` file named by its header be opened, and
let `file.write` of an empty block return 0. If the frame has fewer than 1024
bytes, the block written is empty, the payload length computed, the size minus
1024, is negative and differs from the 0 bytes written, and the slot ends with
`FILE_ERROR` through one call of `thread()->exit`: the file is closed, the
`.temp` file is there and empty, `bytesReceived` is 0, nothing is sent and
`queryList` is as before. If the frame has exactly 1024 bytes, the write of
the frame succeeds: the `.temp` file is there and empty, `bytesReceived` is 0
and no status is set; a frame that is not final ends there, a final frame goes
on to the size test. -/
theorem short_first_frame (deps : Deps) (env : Env) (s : FileUpdater) (baMessage : QByteArray)
    (isLastFrame : Bool)
    (hint : env.interruptionRequested = false) (h0 : s.bytesReceived = 0)
    (hopen : env.canOpen (s.destinationDir ++ headerFileName deps baMessage ++ dotTemp) = true)
    (hzero : env.fileWrite 0 = 0) :
    (baMessage.length < 1024 →
      baMessage.drop 1024 = [] ∧ (baMessage.length : Int) - 1024 < 0 ∧
      ∃ s', onProcessBinaryFrame deps env s baMessage isLastFrame = some s' ∧
        s'.returnCode = some FILE_ERROR ∧ s'.exits = s.exits ++ [FILE_ERROR] ∧
        s'.file.isOpen = false ∧ s'.bytesReceived = 0 ∧
        s'.disk.read (s.destinationDir ++ headerFileName deps baMessage ++ dotTemp) =
          some [] ∧
        s'.sent = s.sent ∧ s'.queryList = s.queryList) ∧
    (baMessage.length = 1024 →
      ∃ s1, writeFrame deps env s baMessage = .ok s1 ∧
        s1.bytesReceived = 0 ∧
        s1.disk.read (s.destinationDir ++ headerFileName deps baMessage ++ dotTemp) =
          some [] ∧
        s1.returnCode = s.returnCode ∧ s1.exits = s.exits ∧
        onProcessBinaryFrame deps env s baMessage false = some s1 ∧
        onProcessBinaryFrame deps env s baMessage true = lastFrame env s1) := by
  constructor
  · intro hlen
    have hdrop : baMessage.drop 1024 = [] := List.drop_eq_nil_of_le (by omega)
    have hneg : (baMessage.length : Int) - 1024 < 0 := by omega
    refine ⟨hdrop, hneg, ?_⟩
    obtain ⟨ps, pq, pe, -, -, pb, -, -⟩ := prepareNewFile_same deps s baMessage
    obtain ⟨hc1, -⟩ := read_create _ _ (read_prepareNewFile deps s baMessage).1
    unfold onProcessBinaryFrame
    rw [hint, writeFrame_zero deps env s baMessage h0,
      fileOpenAppend_prepareNewFile deps env s baMessage hopen, hdrop]
    simp only [Bool.false_eq_true, if_false]
    have hw : ∀ so : FileUpdater, so.file.isOpen = true →
        fileWrite env so [] = ({ so with disk := so.disk.append so.file.fileName [] }, 0) := by
      intro so hso
      unfold fileWrite
      rw [hso]
      simp only [if_true, List.length_nil, Nat.cast_zero, List.take_nil]
      rw [hzero]
    rw [hw _ rfl]
    dsimp only
    rw [if_pos (by omega)]
    refine ⟨_, rfl, rfl, ?_, rfl, ?_, ?_, ?_, ?_⟩
    · show (prepareNewFile deps s baMessage).exits ++ [FILE_ERROR] = _
      rw [pe]
    · show (prepareNewFile deps s baMessage).bytesReceived + 0 = 0
      rw [pb, h0]; rfl
    · show (((prepareNewFile deps s baMessage).disk.create _).append _ []).read _ = _
      rw [read_append_self, hc1]
      rfl
    · exact ps
    · exact pq
  · intro hlen
    have hfw : Frame.firstWritten deps s.destinationDir
        { env := env, baMessage := baMessage, isLastFrame := isLastFrame } := by
      refine ⟨hint, by show 1024 ≤ baMessage.length; omega, hopen, ?_⟩
      show env.fileWrite (baMessage.drop 1024).length = (baMessage.drop 1024).length
      rw [List.drop_eq_nil_of_le (by omega)]
      exact hzero
    obtain ⟨s1, hwr, -, -, -, htemp, hbytes, -, -⟩ :=
      writeFrame_first deps s { env := env, baMessage := baMessage, isLastFrame := isLastFrame }
        h0 hfw
    have hpay : Frame.payload { env := env, baMessage := baMessage, isLastFrame := isLastFrame }
        = [] := List.drop_eq_nil_of_le (by show baMessage.length ≤ 1024; omega)
    rw [hpay] at htemp hbytes
    have hwr2 : writeFrame deps env s baMessage = .ok s1 := hwr
    obtain ⟨-, -, he, hr, -, -⟩ := writeFrame_ok_same deps env s s1 baMessage hwr2
    refine ⟨s1, hwr2, hbytes, htemp, hr, he, ?_,
      onProcessBinaryFrame_last deps env s s1 baMessage hint hwr2⟩
    unfold onProcessBinaryFrame
    rw [hint, hwr2]
    rfl

set_option maxRecDepth 100000 in
/-- C29 on a frame of 7 bytes, `a.jpg,2`, for the file `a.jpg`. -/
theorem short_first_frame_witness :
    ∃ s', onProcessBinaryFrame referenceDeps fairEnv
        { freshUpdater "/home/pi/slides/" "*.jpg"
            { dirs := ["/home/pi/slides/".toList], entries := [] } with
          queryList := [{ fileName := "a.jpg".toList, fileSize := 2 }] }
        (asciiBytes "a.jpg,2") true = some s' ∧
      s'.returnCode = some (-3) ∧ s'.bytesReceived = 0 ∧
      s'.disk.read "/home/pi/slides/a.jpg.temp".toList = some [] ∧ s'.sent = [] := by
  obtain ⟨-, -, s', h1, h2, -, -, h4, h5, h6, -⟩ := (short_first_frame referenceDeps fairEnv
    { freshUpdater "/home/pi/slides/" "*.jpg"
        { dirs := ["/home/pi/slides/".toList], entries := [] } with
      queryList := [{ fileName := "a.jpg".toList, fileSize := 2 }] }
    (asciiBytes "a.jpg,2") true rfl rfl rfl rfl).1 (by decide)
  exact ⟨s', h1, h2, h4, h5.trans (by rfl), h6⟩

/-! ## The length announced in the header (claim C30) -/

theorem indexOf_append_sep (b : UInt8) (name t : QByteArray) (h : b ∉ name) :
    QByteArray.indexOf b (name ++ b :: t) = name.length := by
  induction name with
  | nil => simp [QByteArray.indexOf]
  | cons x xs ih =>
    have hx : x ≠ b := fun e => h (by rw [e]; exact List.mem_cons_self _ _)
    have ih2 := ih (fun hm => h (List.mem_cons_of_mem _ hm))
    show QByteArray.indexOf b (x :: (xs ++ b :: t)) = _
    unfold QByteArray.indexOf
    rw [if_neg hx]
    dsimp only
    rw [ih2, if_pos (by omega)]
    simp

theorem headerFileName_firstFrame (deps : Deps) (name field payload : QByteArray)
    (hname : (44 : UInt8) ∉ name) (hlen : (name ++ [44] ++ field).length = 1024) :
    headerFileName deps (firstFrame name field payload) = deps.fromUtf8 name := by
  have hleft : QByteArray.left (firstFrame name field payload) 1024 = name ++ [44] ++ field := by
    unfold QByteArray.left firstFrame
    show List.take 1024 (name ++ [44] ++ field ++ payload) = _
    rw [← hlen, List.take_left']
    rfl
  unfold headerFileName
  rw [hleft]
  have hidx : QByteArray.indexOf 44 (name ++ [44] ++ field) = name.length := by
    have := indexOf_append_sep 44 name field hname
    simpa using this
  rw [hidx]
  unfold QByteArray.left
  rw [Int.toNat_ofNat, List.append_assoc, List.take_left']
  rfl

theorem firstFrame_payload (name field payload : QByteArray)
    (hlen : (name ++ [44] ++ field).length = 1024) :
    (firstFrame name field payload).drop 1024 = payload ∧
    (firstFrame name field payload).length = 1024 + payload.length := by
  unfold firstFrame
  constructor
  · rw [← hlen, List.drop_left']
    rfl
  · rw [List.length_append, hlen]

/-- With `bytesReceived` 0, a frame acts through the name in its header, its
length and its bytes after the header. -/
theorem writeFrame_header_only (deps : Deps) (env : Env) (s : FileUpdater)
    (b1 b2 : QByteArray) (h0 : s.bytesReceived = 0)
    (hname : headerFileName deps b1 = headerFileName deps b2)
    (hlen : b1.length = b2.length) (hpay : b1.drop 1024 = b2.drop 1024) :
    writeFrame deps env s b1 = writeFrame deps env s b2 := by
  have hprep : prepareNewFile deps s b1 = prepareNewFile deps s b2 := by
    unfold prepareNewFile
    rw [hname]
  rw [writeFrame_zero deps env s b1 h0, writeFrame_zero deps env s b2 h0, hprep, hpay, hlen]

/-- C30: let two first frames be built with the same file name (free of `,`)
and the same payload, and with headers of 1024 bytes that differ in the field
of the announced length only; the length read there (lines 233-236) is lost
when `len` is assigned again at line 245. Started from the same state with `bytesReceived`
0 and with the same answers of the world, `onProcessBinaryFrame` yields the
same state for both: the same disk, `bytesReceived`, `queryList`, messages
sent and `returnCode`. The frame written, what follows for a final frame is
`lastFrame`, whose test is `bytesReceived` against the size of the tail of
`queryList`. -/
theorem header_length_ignored (deps : Deps) (env : Env) (s : FileUpdater)
    (name field1 field2 payload : QByteArray) (isLastFrame : Bool)
    (h0 : s.bytesReceived = 0) (hname : (44 : UInt8) ∉ name)
    (h1 : (name ++ [44] ++ field1).length = 1024)
    (h2 : (name ++ [44] ++ field2).length = 1024) :
    onProcessBinaryFrame deps env s (firstFrame name field1 payload) isLastFrame =
      onProcessBinaryFrame deps env s (firstFrame name field2 payload) isLastFrame ∧
    (env.interruptionRequested = false →
      ∀ s1, writeFrame deps env s (firstFrame name field1 payload) = .ok s1 →
        writeFrame deps env s (firstFrame name field2 payload) = .ok s1 ∧
        onProcessBinaryFrame deps env s (firstFrame name field1 payload) true =
          lastFrame env s1 ∧
        onProcessBinaryFrame deps env s (firstFrame name field2 payload) true =
          lastFrame env s1) := by
  have hw : writeFrame deps env s (firstFrame name field1 payload) =
      writeFrame deps env s (firstFrame name field2 payload) := by
    apply writeFrame_header_only deps env s _ _ h0
    · rw [headerFileName_firstFrame deps name field1 payload hname h1,
        headerFileName_firstFrame deps name field2 payload hname h2]
    · rw [(firstFrame_payload name field1 payload h1).2,
        (firstFrame_payload name field2 payload h2).2]
    · rw [(firstFrame_payload name field1 payload h1).1,
        (firstFrame_payload name field2 payload h2).1]
  constructor
  · unfold onProcessBinaryFrame
    rw [hw]
  · intro hint s1 hs1
    have hs2 : writeFrame deps env s (firstFrame name field2 payload) = .ok s1 := by
      rw [← hw]; exact hs1
    exact ⟨hs2, onProcessBinaryFrame_last deps env s s1 _ hint hs1,
      onProcessBinaryFrame_last deps env s s1 _ hint hs2⟩

set_option maxRecDepth 100000 in
/-- C30 on two frames for `a.jpg` with the payload `[1, 2]`, one announcing 2
bytes and one announcing 999 bytes, the file having 5 bytes in the list: both
write 2 bytes to `a.jpg.temp` and ask for the rest at offset 2. -/
theorem header_length_ignored_witness :
    headerLength
      (firstFrame (asciiBytes "a.jpg") (asciiBytes "2" ++ List.replicate 1017 0) [1, 2]) = 2 ∧
    headerLength
      (firstFrame (asciiBytes "a.jpg") (asciiBytes "999" ++ List.replicate 1015 0) [1, 2]) =
      999 ∧
    onProcessBinaryFrame referenceDeps fairEnv
        { freshUpdater "/home/pi/slides/" "*.jpg"
            { dirs := ["/home/pi/slides/".toList], entries := [] } with
          queryList := [{ fileName := "a.jpg".toList, fileSize := 5 }] }
        (firstFrame (asciiBytes "a.jpg") (asciiBytes "2" ++ List.replicate 1017 0) [1, 2])
        true =
      onProcessBinaryFrame referenceDeps fairEnv
        { freshUpdater "/home/pi/slides/" "*.jpg"
            { dirs := ["/home/pi/slides/".toList], entries := [] } with
          queryList := [{ fileName := "a.jpg".toList, fileSize := 5 }] }
        (firstFrame (asciiBytes "a.jpg") (asciiBytes "999" ++ List.replicate 1015 0) [1, 2])
        true ∧
    (onProcessBinaryFrame referenceDeps fairEnv
        { freshUpdater "/home/pi/slides/" "*.jpg"
            { dirs := ["/home/pi/slides/".toList], entries := [] } with
          queryList := [{ fileName := "a.jpg".toList, fileSize := 5 }] }
        (firstFrame (asciiBytes "a.jpg") (asciiBytes "999" ++ List.replicate 1015 0) [1, 2])
        true).map (fun s => (s.bytesReceived, s.sent, s.returnCode,
          s.disk.read "/home/pi/slides/a.jpg.temp".toList)) =
      some (2, ["<get>a.jpg,2,524288</get>".toList], none, some [1, 2]) :=
  ⟨by rfl, by rfl, (header_length_ignored referenceDeps fairEnv
      { freshUpdater "/home/pi/slides/" "*.jpg"
          { dirs := ["/home/pi/slides/".toList], entries := [] } with
        queryList := [{ fileName := "a.jpg".toList, fileSize := 5 }] }
      (asciiBytes "a.jpg") (asciiBytes "2" ++ List.replicate 1017 0)
      (asciiBytes "999" ++ List.replicate 1015 0) [1, 2] true rfl (by decide)
      (by decide) (by decide)).1, by rfl⟩

/-! ## The rule of deletion (claims C26 and C28) -/

theorem lastIndexOfDot_no_dot (n : QString) (h : '.' ∉ n) : QString.lastIndexOfDot n = -1 := by
  induction n with
  | nil => rfl
  | cons c cs ih =>
    have hc : c ≠ '.' := fun e => h (by rw [e]; exact List.mem_cons_self _ _)
    rw [lastIndexOfDot_cons, ih (fun hm => h (List.mem_cons_of_mem _ hm))]
    simp [hc]

theorem mem_localFiles (deps : Deps) (s : FileUpdater) (info : QFileInfo) :
    info ∈ localFiles deps s ↔
      s.disk.dirExists s.destinationDir = true ∧
      info ∈ entryInfoList deps s.disk s.destinationDir
        (QString.splitKeep ' ' s.sFileExtensions ++ ["*.temp".toList]) := by
  unfold localFiles
  split
  · rename_i h
    exact ⟨fun hi => ⟨h, hi⟩, fun hi => hi.2⟩
  · rename_i h
    constructor
    · intro hi
      exact absurd hi (List.not_mem_nil _)
    · intro hi
      exact absurd hi.1 h

theorem foundRemote_false_iff (info : QFileInfo) (t : QString) (remotes : List files) :
    foundRemote info t remotes = false ↔
      (∀ r ∈ remotes, ¬ (r.fileName = info.fileName ∧ r.fileSize = info.size)) ∧
      (∀ r ∈ remotes, r.fileName ≠ t) := by
  rw [← Bool.not_eq_true, foundRemote_iff]
  constructor
  · intro h
    exact ⟨fun r hr hc => h ⟨r, hr, Or.inl hc⟩, fun r hr hc => h ⟨r, hr, Or.inr hc⟩⟩
  · rintro ⟨h1, h2⟩ ⟨r, hr, hc | hc⟩
    · exact h1 r hr hc
    · exact h2 r hr hc

/-- What `removeLocalFiles` does to one path of the disk. -/
theorem removeLocalFiles_read (remotes : List files) (infos : List QFileInfo) (d : Disk)
    (p : QString) (c : QByteArray) (hp : d.read p = some c) :
    ((removeLocalFiles remotes infos d).read p = none ↔
      ∃ info ∈ infos, info.absoluteFilePath = p ∧
        (∀ r ∈ remotes, ¬ (r.fileName = info.fileName ∧ r.fileSize = info.size)) ∧
        (∀ r ∈ remotes,
          r.fileName ≠ QString.left info.fileName (QString.lastIndexOfDot info.fileName))) ∧
    ((removeLocalFiles remotes infos d).read p = none ∨
      (removeLocalFiles remotes infos d).read p = some c) := by
  by_cases hex : ∃ info ∈ infos, info.absoluteFilePath = p ∧
      foundRemote info (QString.left info.fileName (QString.lastIndexOfDot info.fileName))
        remotes = false
  · have hnone := removeLocalFiles_read_none remotes p infos d (Or.inr hex)
    obtain ⟨info, hi, hpath, hf⟩ := hex
    obtain ⟨ha, hb⟩ := (foundRemote_false_iff _ _ _).1 hf
    exact ⟨⟨fun _ => ⟨info, hi, hpath, ha, hb⟩, fun _ => hnone⟩, Or.inl hnone⟩
  · have hkept := removeLocalFiles_read_kept remotes p infos d (by
      intro info hi hpath
      cases hf : foundRemote info
          (QString.left info.fileName (QString.lastIndexOfDot info.fileName)) remotes with
      | true => rfl
      | false => exact absurd ⟨info, hi, hpath, hf⟩ hex)
    rw [hp] at hkept
    refine ⟨⟨fun hn => ?_, fun hx => ?_⟩, Or.inr hkept⟩
    · rw [hkept] at hn
      exact absurd hn (by simp)
    · obtain ⟨info, hi, hpath, ha, hb⟩ := hx
      exact absurd ⟨info, hi, hpath, (foundRemote_false_iff _ _ _).2 ⟨ha, hb⟩⟩ hex

/-- C26: `updateFiles` returns, and a file that was at the path `p` is gone
afterwards if and only if the filtered listing of the destination directory
has a file with that path such that no manifest entry has both its name and its
size and no manifest entry has for name the name of the file cut before its
last `.`; a file that is not deleted keeps its content, and a file whose path
is not in the listing is not deleted. The listing holds the files directly in
the destination directory, when it exists, whose names are accepted by the
filters, the patterns of `sFileExtensions` between spaces and `*.temp`. The
name cut before its last `.` is the whole name when the name has no `.`. -/
theorem exact_pruning_rule (deps : Deps) (env : Env) (s : FileUpdater) (p : QString)
    (c : QByteArray) (hp : s.disk.read p = some c) :
    ∃ s', updateFiles deps env s = some s' ∧
      (s'.disk.read p = none ↔
        ∃ info ∈ localFiles deps s, info.absoluteFilePath = p ∧
          (∀ r ∈ s.remoteFileList, ¬ (r.fileName = info.fileName ∧ r.fileSize = info.size)) ∧
          (∀ r ∈ s.remoteFileList,
            r.fileName ≠
              QString.left info.fileName (QString.lastIndexOfDot info.fileName))) ∧
      (s'.disk.read p = none ∨ s'.disk.read p = some c) ∧
      ((∀ info ∈ localFiles deps s, info.absoluteFilePath ≠ p) → s'.disk.read p = some c) ∧
      (∀ info : QFileInfo, info ∈ localFiles deps s ↔
        s.disk.dirExists s.destinationDir = true ∧
        info.absoluteFilePath ∈ s.disk.entries.map Prod.fst ∧
        info.absoluteFilePath = dirPath s.destinationDir ++ info.fileName ∧
        info.size = s.disk.size info.absoluteFilePath ∧ info.fileName ≠ [] ∧
        '/' ∉ info.fileName ∧
        deps.nameFilterAccepts
          (QString.splitKeep ' ' s.sFileExtensions ++ ["*.temp".toList]) info.fileName = true) ∧
      (∀ n : QString, '.' ∉ n → QString.left n (QString.lastIndexOfDot n) = n) := by
  obtain ⟨s', h1, -, -, h4, -⟩ := updateFiles_result deps env s
  obtain ⟨hiff, hor⟩ := removeLocalFiles_read s.remoteFileList (localFiles deps s) s.disk p c hp
  refine ⟨s', h1, ?_, ?_, ?_, ?_, ?_⟩
  · rw [h4]; exact hiff
  · rw [h4]; exact hor
  · intro hout
    rw [h4]
    rcases hor with hn | hs
    · obtain ⟨info, hi, hpath, -⟩ := hiff.1 hn
      exact absurd hpath (hout info hi)
    · exact hs
  · intro info
    rw [mem_localFiles, mem_entryInfoList]
  · intro n hn
    rw [lastIndexOfDot_no_dot n hn]
    rfl

set_option maxRecDepth 100000 in
/-- C26 on a directory with `old.jpg`, which no entry asks for, `x.jpg`, kept
because the manifest has an entry named `x`, and `notes.txt`, outside the
filters: after `updateFiles`, `old.jpg` is gone and the two others are there. -/
theorem exact_pruning_rule_witness :
    ∃ s', updateFiles referenceDeps fairEnv
        { freshUpdater "/home/pi/slides/" "*.jpg"
            { dirs := ["/home/pi/slides/".toList],
              entries := [("/home/pi/slides/old.jpg".toList, [1]),
                          ("/home/pi/slides/x.jpg".toList, [2]),
                          ("/home/pi/slides/notes.txt".toList, [3])] } with
          remoteFileList := [{ fileName := "x".toList, fileSize := 7 }] } = some s' ∧
      s'.disk.read "/home/pi/slides/old.jpg".toList = none ∧
      s'.disk.read "/home/pi/slides/notes.txt".toList = some [3] := by
  obtain ⟨s', h1, h2, -, -, -, -⟩ := exact_pruning_rule referenceDeps fairEnv
    { freshUpdater "/home/pi/slides/" "*.jpg"
        { dirs := ["/home/pi/slides/".toList],
          entries := [("/home/pi/slides/old.jpg".toList, [1]),
                      ("/home/pi/slides/x.jpg".toList, [2]),
                      ("/home/pi/slides/notes.txt".toList, [3])] } with
      remoteFileList := [{ fileName := "x".toList, fileSize := 7 }] }
    "/home/pi/slides/old.jpg".toList [1] rfl
  obtain ⟨s2, k1, -, -, k3, -, -⟩ := exact_pruning_rule referenceDeps fairEnv
    { freshUpdater "/home/pi/slides/" "*.jpg"
        { dirs := ["/home/pi/slides/".toList],
          entries := [("/home/pi/slides/old.jpg".toList, [1]),
                      ("/home/pi/slides/x.jpg".toList, [2]),
                      ("/home/pi/slides/notes.txt".toList, [3])] } with
      remoteFileList := [{ fileName := "x".toList, fileSize := 7 }] }
    "/home/pi/slides/notes.txt".toList [3] rfl
  have hs : s2 = s' := Option.some.inj (k1.symm.trans h1)
  subst hs
  exact ⟨s2, h1,
    h2.2 ⟨({ fileName := "old.jpg".toList, size := 1,
             absoluteFilePath := "/home/pi/slides/old.jpg".toList } : QFileInfo),
      by decide, rfl, by decide, by decide⟩,
    k3 (by decide)⟩

theorem updateFiles_empty_manifest (deps : Deps) (env : Env) (s : FileUpdater)
    (hempty : s.remoteFileList = []) :
    ∃ s', updateFiles deps env s = some s' ∧
      s'.returnCode = some TRANSFER_DONE ∧ s'.exits = s.exits ++ [TRANSFER_DONE] ∧
      s'.sent = s.sent ∧ s'.queryList = [] ∧
      (∀ info ∈ localFiles deps s, s'.disk.read info.absoluteFilePath = none) ∧
      (∀ p : QString, (∀ info ∈ localFiles deps s, info.absoluteFilePath ≠ p) →
        s'.disk.read p = s.disk.read p) := by
  obtain ⟨s', h1, h2, -, h4, h5⟩ := updateFiles_result deps env s
  have hq : s'.queryList = [] := by
    rw [h2, hempty]
    rfl
  obtain ⟨a, b, c⟩ := h5 hq
  refine ⟨s', h1, a, c, b, hq, ?_, ?_⟩
  · intro info hi
    rw [h4]
    apply removeLocalFiles_read_none
    right
    refine ⟨info, hi, rfl, ?_⟩
    rw [hempty]
    rfl
  · intro p hout
    rw [h4]
    apply removeLocalFiles_read_kept
    intro info hi hpath
    exact absurd hpath (hout info hi)

/-- C28: when `remoteFileList` is empty, `updateFiles` removes every file of
the filtered listing of the destination directory (the files accepted by the
patterns of `sFileExtensions` or by `*.temp`), leaves the files outside the
listing, sends nothing and ends with `TRANSFER_DONE`. A `file_list` message
whose token is not `NoData` and parses to no entry does so; a message whose
token is `NoData` ends with `TRANSFER_DONE` and leaves the disk as it was. -/
theorem empty_manifest_wipes_listing (deps : Deps) (env : Env) (s : FileUpdater)
    (sMessage : QString) :
    (s.remoteFileList = [] →
      ∃ s', updateFiles deps env s = some s' ∧
        s'.returnCode = some TRANSFER_DONE ∧ s'.sent = s.sent ∧
        (∀ info ∈ localFiles deps s, s'.disk.read info.absoluteFilePath = none) ∧
        (∀ p : QString, (∀ info ∈ localFiles deps s, info.absoluteFilePath ≠ p) →
          s'.disk.read p = s.disk.read p)) ∧
    (deps.XML_Parse sMessage fileListTag ≠ sNoData →
      parseFileList (deps.XML_Parse sMessage fileListTag) = [] →
      ∃ s', onProcessTextMessage deps env s sMessage = some s' ∧
        s'.returnCode = some TRANSFER_DONE ∧ s'.sent = s.sent ∧
        (∀ info ∈ localFiles deps s, s'.disk.read info.absoluteFilePath = none) ∧
        (∀ p : QString, (∀ info ∈ localFiles deps s, info.absoluteFilePath ≠ p) →
          s'.disk.read p = s.disk.read p)) ∧
    (deps.XML_Parse sMessage fileListTag = sNoData →
      ∃ s', onProcessTextMessage deps env s sMessage = some s' ∧
        s'.returnCode = some TRANSFER_DONE ∧ s'.sent = s.sent ∧ s'.disk = s.disk) := by
  refine ⟨?_, ?_, ?_⟩
  · intro hempty
    obtain ⟨s', h1, h2, -, h4, -, h6, h7⟩ := updateFiles_empty_manifest deps env s hempty
    exact ⟨s', h1, h2, h4, h6, h7⟩
  · intro hne hparse
    obtain ⟨s', h1, h2, -, h4, -, h6, h7⟩ := updateFiles_empty_manifest deps env
      { s with remoteFileList := parseFileList (deps.XML_Parse sMessage fileListTag) } hparse
    refine ⟨s', ?_, h2, h4, h6, h7⟩
    unfold onProcessTextMessage
    simp only [hne, ne_eq, not_false_eq_true, if_true]
    exact h1
  · intro hnd
    refine ⟨threadExit s TRANSFER_DONE, ?_, rfl, rfl, rfl⟩
    simp [onProcessTextMessage, hnd]

set_option maxRecDepth 100000 in
/-- C28 on a directory with a slide, a `.temp` file and a text file: the
message `<file_list></file_list>` removes the slide and the `.temp` file and
leaves the text file; the message with `NoData` removes nothing. -/
theorem empty_manifest_wipes_listing_witness :
    (∃ s', onProcessTextMessage referenceDeps fairEnv
        (freshUpdater "/home/pi/slides/" "*.jpg"
          { dirs := ["/home/pi/slides/".toList],
            entries := [("/home/pi/slides/a.jpg".toList, [1, 2, 3]),
                        ("/home/pi/slides/b.jpg.temp".toList, [4]),
                        ("/home/pi/slides/notes.txt".toList, [5])] })
        "<file_list></file_list>".toList = some s' ∧
      s'.returnCode = some 0 ∧
      s'.disk.read "/home/pi/slides/a.jpg".toList = none ∧
      s'.disk.read "/home/pi/slides/b.jpg.temp".toList = none ∧
      s'.disk.read "/home/pi/slides/notes.txt".toList = some [5]) ∧
    (∃ s', onProcessTextMessage referenceDeps fairEnv
        (freshUpdater "/home/pi/slides/" "*.jpg"
          { dirs := ["/home/pi/slides/".toList],
            entries := [("/home/pi/slides/a.jpg".toList, [1, 2, 3]),
                        ("/home/pi/slides/b.jpg.temp".toList, [4]),
                        ("/home/pi/slides/notes.txt".toList, [5])] })
        "<file_list>NoData</file_list>".toList = some s' ∧
      s'.disk.read "/home/pi/slides/a.jpg".toList = some [1, 2, 3]) := by
  constructor
  · obtain ⟨s', h1, h2, -, h4, h5⟩ := (empty_manifest_wipes_listing referenceDeps fairEnv
      (freshUpdater "/home/pi/slides/" "*.jpg"
        { dirs := ["/home/pi/slides/".toList],
          entries := [("/home/pi/slides/a.jpg".toList, [1, 2, 3]),
                      ("/home/pi/slides/b.jpg.temp".toList, [4]),
                      ("/home/pi/slides/notes.txt".toList, [5])] })
      "<file_list></file_list>".toList).2.1 (by decide) (by decide)
    exact ⟨s', h1, h2,
      h4 ({ fileName := "a.jpg".toList, size := 3,
            absoluteFilePath := "/home/pi/slides/a.jpg".toList } : QFileInfo) (by decide),
      h4 ({ fileName := "b.jpg.temp".toList, size := 1,
            absoluteFilePath := "/home/pi/slides/b.jpg.temp".toList } : QFileInfo) (by decide),
      (h5 "/home/pi/slides/notes.txt".toList (by decide)).trans (by rfl)⟩
  · obtain ⟨s', h1, -, -, h4⟩ := (empty_manifest_wipes_listing referenceDeps fairEnv
      (freshUpdater "/home/pi/slides/" "*.jpg"
        { dirs := ["/home/pi/slides/".toList],
          entries := [("/home/pi/slides/a.jpg".toList, [1, 2, 3]),
                      ("/home/pi/slides/b.jpg.temp".toList, [4]),
                      ("/home/pi/slides/notes.txt".toList, [5])] })
      "<file_list>NoData</file_list>".toList).2.2 (by decide)
    exact ⟨s', h1, by rw [h4]; rfl⟩

/-! ## The content of the artifact (claim C23) -/

/-- The first frame of a file, written, and not completing the file. -/
theorem first_frame_step (deps : Deps) (s : FileUpdater) (last : files) (first : Frame)
    (h0 : s.bytesReceived = 0) (hlast : s.queryList.getLast? = some last)
    (hfirst : first.firstWritten deps s.destinationDir)
    (hkeep1 : first.isLastFrame = true → (first.payload.length : Int) < last.fileSize) :
    ∃ s2, onProcessBinaryFrame deps first.env s first.baMessage first.isLastFrame = some s2 ∧
      s2.disk.read (s.destinationDir ++ headerFileName deps first.baMessage ++ dotTemp) =
        some first.payload ∧
      s2.bytesReceived = first.payload.length ∧
      s2.file = { fileName := s.destinationDir ++ headerFileName deps first.baMessage ++ dotTemp,
                  isOpen := true } ∧
      s2.queryList = s.queryList ∧ s2.destinationDir = s.destinationDir ∧
      (0 < first.payload.length →
        Receiving s.destinationDir (headerFileName deps first.baMessage) last
          first.payload s2) := by
  obtain ⟨s1, hwr, hd, hc, hfile, htemp, hbytes, hq, hfinal⟩ :=
    writeFrame_first deps s first h0 hfirst
  have hlast1 : s1.queryList.getLast? = some last := by rw [hq]; exact hlast
  cases hf : first.isLastFrame with
  | false =>
    refine ⟨s1, ?_, htemp, hbytes, hfile, hq, hd,
      fun hpos => ⟨hd, hc, hfile, htemp, hbytes, hpos, hlast1, hfinal⟩⟩
    unfold onProcessBinaryFrame
    rw [hfirst.1, hwr]
    rfl
  | true =>
    have hshort : s1.bytesReceived < last.fileSize := by
      rw [hbytes]; exact hkeep1 hf
    refine ⟨sendGet first.env s1 last.fileName, ?_, ?_, ?_, ?_, ?_, ?_, fun hpos =>
      ⟨?_, ?_, ?_, ?_, ?_, hpos, ?_, ?_⟩⟩
    · rw [onProcessBinaryFrame_last deps first.env s s1 first.baMessage hfirst.1 hwr,
        lastFrame_short first.env s1 last hlast1 hshort]
    · rw [sendGet_disk]; exact htemp
    · rw [sendGet_bytesReceived]; exact hbytes
    · rw [sendGet_file]; exact hfile
    · rw [sendGet_queryList]; exact hq
    · rw [sendGet_destinationDir]; exact hd
    · rw [sendGet_destinationDir]; exact hd
    · rw [sendGet_sCurrentFileName]; exact hc
    · rw [sendGet_file]; exact hfile
    · rw [sendGet_disk]; exact htemp
    · rw [sendGet_bytesReceived]; exact hbytes
    · rw [sendGet_queryList]; exact hlast1
    · rw [sendGet_disk]; exact hfinal

set_option maxRecDepth 100000 in
/-- C23, as stated, fails when the first frame carries the header alone. For
`a.jpg` started at offset 0, a frame of 1024 bytes (the header) is followed by
a frame of 1026 bytes of the file; both are written with no error reported.
After the first frame `bytesReceived` is still 0, so the second frame is read
as the first frame of a file: its first 1024 bytes are taken as a header and
dropped. The artifact `a.jpg.temp` holds the 2 last bytes, not the 1026 bytes
of the second frame. -/
theorem header_stripping_counterexample :
    (processFrames referenceDeps
      { freshUpdater "/home/pi/slides/" "*.jpg"
          { dirs := ["/home/pi/slides/".toList], entries := [] } with
        queryList := [{ fileName := "a.jpg".toList, fileSize := 2000 }] }
      [{ env := fairEnv, baMessage := asciiBytes "a.jpg,2000" ++ List.replicate 1014 0,
         isLastFrame := false },
       { env := fairEnv, baMessage := asciiBytes "a.jpg,2000" ++ List.replicate 1014 0 ++ [1, 2],
         isLastFrame := false }]).map
      (fun s => (s.returnCode, s.bytesReceived,
                 s.disk.read "/home/pi/slides/a.jpg.temp".toList)) =
      some (none, 2, some [1, 2]) ∧
    ((asciiBytes "a.jpg,2000" ++ List.replicate 1014 0).drop 1024 ++
      (asciiBytes "a.jpg,2000" ++ List.replicate 1014 0 ++ [1, 2])).length = 1026 := by
  refine ⟨by rfl, by rfl⟩

/-- C23, amended: let `bytesReceived` be 0 and `last` be the tail of
`queryList`. Let the first frame be handled with no interruption requested,
hold the whole header of 1024 bytes, have the `.temp` file named in the header
opened and its bytes after the header written whole, and carry at least one
byte after the header unless it is the only frame; let the later frames be
handled with no interruption requested and written whole; let no frame marked
final bring the count of bytes to the size of `last`. Then processing the
frames leaves in `<dest>name.temp`, `name` being the name in the header, the
first frame without its first 1024 bytes followed by the later frames whole and
in order, and `bytesReceived` is the length of that content. -/
theorem header_stripping (deps : Deps) (s : FileUpdater) (last : files) (first : Frame)
    (rest : List Frame)
    (h0 : s.bytesReceived = 0)
    (hlast : s.queryList.getLast? = some last)
    (hfirst : first.firstWritten deps s.destinationDir)
    (hpay : rest ≠ [] → 0 < first.payload.length)
    (hw : ∀ fr ∈ rest, fr.written)
    (hkeep1 : first.isLastFrame = true → (first.payload.length : Int) < last.fileSize)
    (hkeep : framesKeepOpen last.fileSize first.payload.length rest) :
    ∃ s', processFrames deps s (first :: rest) = some s' ∧
      s'.disk.read (s.destinationDir ++ headerFileName deps first.baMessage ++ dotTemp) =
        some (first.baMessage.drop 1024 ++ framesBytes rest) ∧
      s'.bytesReceived = (first.baMessage.drop 1024 ++ framesBytes rest).length ∧
      s'.queryList = s.queryList := by
  obtain ⟨s2, hstep, htemp, hbytes, -, hq, -, hrec⟩ :=
    first_frame_step deps s last first h0 hlast hfirst hkeep1
  by_cases hne : rest = []
  · subst hne
    refine ⟨s2, ?_, ?_, ?_, hq⟩
    · simp only [processFrames, hstep]
    · rw [htemp]
      simp [framesBytes, Frame.payload]
    · rw [hbytes]
      simp [framesBytes, Frame.payload]
  · obtain ⟨s3, hproc, hinv, hq3⟩ := processFrames_keep_receiving deps s.destinationDir
      (headerFileName deps first.baMessage) last rest first.payload s2 (hrec (hpay hne)) hw hkeep
    obtain ⟨-, -, -, hread, hb, -, -, -⟩ := hinv
    refine ⟨s3, ?_, hread, hb, by rw [hq3, hq]⟩
    simp only [processFrames, hstep]
    exact hproc

set_option maxRecDepth 100000 in
/-- C23, amended, on `a.jpg` of 9 bytes: a first frame with the header and 2
bytes, a frame of 1 byte and a frame of 2 bytes marked final. -/
theorem header_stripping_witness :
    ∃ s', processFrames referenceDeps
        { freshUpdater "/home/pi/slides/" "*.jpg"
            { dirs := ["/home/pi/slides/".toList], entries := [] } with
          queryList := [{ fileName := "a.jpg".toList, fileSize := 9 }] }
        [{ env := fairEnv, baMessage := asciiBytes "a.jpg,9" ++ List.replicate 1017 0 ++ [1, 2],
           isLastFrame := false },
         { env := fairEnv, baMessage := [3], isLastFrame := false },
         { env := fairEnv, baMessage := [4, 5], isLastFrame := true }] = some s' ∧
      s'.disk.read "/home/pi/slides/a.jpg.temp".toList = some [1, 2, 3, 4, 5] ∧
      s'.bytesReceived = 5 := by
  obtain ⟨s', h1, h2, h3, -⟩ := header_stripping referenceDeps
    { freshUpdater "/home/pi/slides/" "*.jpg"
        { dirs := ["/home/pi/slides/".toList], entries := [] } with
      queryList := [{ fileName := "a.jpg".toList, fileSize := 9 }] }
    { fileName := "a.jpg".toList, fileSize := 9 }
    { env := fairEnv, baMessage := asciiBytes "a.jpg,9" ++ List.replicate 1017 0 ++ [1, 2],
      isLastFrame := false }
    [{ env := fairEnv, baMessage := [3], isLastFrame := false },
     { env := fairEnv, baMessage := [4, 5], isLastFrame := true }]
    rfl rfl ⟨rfl, by decide, rfl, rfl⟩ (fun _ => by decide)
    (by
      intro fr hfr
      simp only [List.mem_cons, List.mem_singleton, List.not_mem_nil, or_false] at hfr
      rcases hfr with h | h <;> subst h <;> exact ⟨rfl, rfl⟩)
    (by intro h; exact absurd h (by decide))
    (by simp [framesKeepOpen, Frame.payload, asciiBytes])
  exact ⟨s', h1, h2.trans (by rfl), h3.trans (by rfl)⟩

/-! ## The count of bytes and the artifact (claim C24) -/

theorem size_of_read (d : Disk) (p : QString) (c : QByteArray) (h : d.read p = some c) :
    d.size p = c.length := (fileExists_of_read d p c h).2

theorem size_of_read_none (d : Disk) (p : QString) (h : d.read p = none) : d.size p = 0 := by
  unfold Disk.size
  rw [h]

theorem read_of_size_ne_zero (d : Disk) (p : QString) (h : d.size p ≠ 0) :
    ∃ c, d.read p = some c ∧ d.size p = c.length := by
  cases hr : d.read p with
  | none => exact absurd (size_of_read_none d p hr) h
  | some c => exact ⟨c, rfl, size_of_read d p c hr⟩

/-- The block `if(tempFile.exists()) ...`, entered with `bytesReceived` 0,
leaves the count of bytes equal to the size of the `.temp` file. -/
theorem openTempFile_inFlight (env : Env) (s : FileUpdater) (t : QString)
    (h0 : s.bytesReceived = 0) :
    (match openTempFile env s t with
      | .ok s1 => InFlight t s1 ∧ s1.disk = s.disk
      | .error s1 => s1.disk.size t = s1.bytesReceived ∧ s1.disk = s.disk) ∧
    ((s.disk.fileExists t = true → env.canOpen t = true) →
      ∃ s1, openTempFile env s t = .ok s1) := by
  cases h : s.disk.fileExists t with
  | false =>
    rw [openTempFile_absent env s t h]
    refine ⟨⟨⟨?_, fun hne => absurd h0 hne⟩, rfl⟩, fun _ => ⟨s, rfl⟩⟩
    rw [h0]
    apply size_of_read_none
    unfold Disk.fileExists at h
    cases hr : s.disk.read t with
    | none => rfl
    | some c => rw [hr] at h; exact absurd h (by simp)
  | true =>
    cases ho : env.canOpen t with
    | true =>
      rw [openTempFile_opened env s t h ho]
      exact ⟨⟨⟨rfl, fun _ => rfl⟩, rfl⟩, fun _ => ⟨_, rfl⟩⟩
    | false =>
      rw [openTempFile_refused env s t h ho]
      exact ⟨⟨rfl, rfl⟩, fun hc => absurd (hc rfl) (by simp)⟩

theorem sendGet_inFlight (env : Env) (s : FileUpdater) (n path : QString)
    (h : InFlight path s) : InFlight path (sendGet env s n) := by
  unfold InFlight
  rw [sendGet_disk, sendGet_bytesReceived, sendGet_file]
  exact h

theorem askFirstFile_inFlight (env : Env) (s s1 : FileUpdater) (last : files)
    (hlast : s.queryList.getLast? = some last) (h : askFirstFile env s = some s1) :
    s1.disk.size (s.destinationDir ++ last.fileName ++ dotTemp) = s1.bytesReceived ∧
    s1.disk = s.disk ∧
    ((s.disk.fileExists (s.destinationDir ++ last.fileName ++ dotTemp) = true →
        env.canOpen (s.destinationDir ++ last.fileName ++ dotTemp) = true) →
      InFlight (s.destinationDir ++ last.fileName ++ dotTemp) s1) := by
  unfold askFirstFile at h
  rw [hlast] at h
  dsimp only at h
  obtain ⟨hm, hok⟩ := openTempFile_inFlight env
    { s with bytesReceived := 0, sCurrentFileName := last.fileName }
    (s.destinationDir ++ last.fileName ++ dotTemp) rfl
  cases ho : openTempFile env { s with bytesReceived := 0, sCurrentFileName := last.fileName }
      (s.destinationDir ++ last.fileName ++ dotTemp) with
  | error se =>
    rw [ho] at h hm
    have hs : se = s1 := Option.some.inj h
    subst hs
    refine ⟨hm.1, hm.2, fun hc => ?_⟩
    obtain ⟨sx, hx⟩ := hok hc
    rw [ho] at hx
    exact absurd hx (by simp)
  | ok so =>
    rw [ho] at h hm
    have hs := Option.some.inj h
    rw [← hs]
    have hin := sendGet_inFlight env so so.sCurrentFileName _ hm.1
    exact ⟨hin.1, by rw [sendGet_disk]; exact hm.2, fun _ => hin⟩

theorem askNextFile_inFlight (env : Env) (s : FileUpdater) (next : files)
    (hnext : s.queryList.getLast? = some next) :
    (askNextFile env s).disk.size (s.destinationDir ++ next.fileName ++ dotTemp) =
      (askNextFile env s).bytesReceived ∧
    ((s.disk.fileExists (s.destinationDir ++ next.fileName ++ dotTemp) = true →
        env.canOpen (s.destinationDir ++ next.fileName ++ dotTemp) = true) →
      InFlight (s.destinationDir ++ next.fileName ++ dotTemp) (askNextFile env s)) := by
  obtain ⟨hm, hok⟩ := openTempFile_inFlight env
    { s with bytesReceived := 0, sCurrentFileName := s.destinationDir ++ next.fileName }
    (s.destinationDir ++ next.fileName ++ dotTemp) rfl
  have hun : askNextFile env s =
      match openTempFile env
          { s with bytesReceived := 0, sCurrentFileName := s.destinationDir ++ next.fileName }
          (s.destinationDir ++ next.fileName ++ dotTemp) with
      | .error se => se
      | .ok so => sendGet env so next.fileName := by
    unfold askNextFile
    rw [hnext]
  rw [hun]
  cases ho : openTempFile env
      { s with bytesReceived := 0, sCurrentFileName := s.destinationDir ++ next.fileName }
      (s.destinationDir ++ next.fileName ++ dotTemp) with
  | error se =>
    rw [ho] at hm
    refine ⟨hm.1, fun hc => ?_⟩
    obtain ⟨sx, hx⟩ := hok hc
    rw [ho] at hx
    exact absurd hx (by simp)
  | ok so =>
    rw [ho] at hm
    have hin := sendGet_inFlight env so next.fileName _ hm.1
    exact ⟨hin.1, fun _ => hin⟩

/-- A frame written to the artifact in transfer, not completing the file. -/
theorem frame_keeps_inFlight (deps : Deps) (s : FileUpdater) (path : QString) (last : files)
    (fr : Frame) (hin : InFlight path s) (hlast : s.queryList.getLast? = some last)
    (hn0 : s.bytesReceived ≠ 0) (hw : fr.written)
    (hkeep : fr.isLastFrame = true → s.bytesReceived + fr.baMessage.length < last.fileSize) :
    ∃ s', onProcessBinaryFrame deps fr.env s fr.baMessage fr.isLastFrame = some s' ∧
      InFlight path s' ∧ s'.bytesReceived = s.bytesReceived + fr.baMessage.length ∧
      s'.queryList = s.queryList := by
  obtain ⟨hsize, hfile⟩ := hin
  have hf := hfile hn0
  obtain ⟨c, hread, hlen⟩ := read_of_size_ne_zero s.disk path (by rw [hsize]; exact hn0)
  have hwr := writeFrame_next deps fr.env s fr.baMessage hn0 (by rw [hf]) hw.2
  have hin1 : InFlight path
      { s with disk := s.disk.append s.file.fileName fr.baMessage,
               bytesReceived := s.bytesReceived + fr.baMessage.length } := by
    refine ⟨?_, fun _ => hf⟩
    show (s.disk.append s.file.fileName fr.baMessage).size path =
      s.bytesReceived + fr.baMessage.length
    rw [hf]
    dsimp only
    rw [size_of_read _ path (c ++ fr.baMessage) (by rw [read_append_self, hread]; rfl),
      ← hsize, hlen]
    simp
  cases hfin : fr.isLastFrame with
  | false =>
    refine ⟨_, ?_, hin1, rfl, rfl⟩
    unfold onProcessBinaryFrame
    rw [hw.1, hwr]
    rfl
  | true =>
    refine ⟨_, ?_, sendGet_inFlight fr.env _ last.fileName path hin1, ?_, ?_⟩
    · rw [onProcessBinaryFrame_last deps fr.env s _ fr.baMessage hw.1 hwr]
      exact lastFrame_short fr.env _ last hlast (hkeep hfin)
    · rw [sendGet_bytesReceived]
    · rw [sendGet_queryList]

/-- C24: the count of bytes and the artifact in transfer agree. (1) After
`askFirstFile`, the size of `<dest>name.temp`, `name` being the name of the
tail of `queryList`, is `bytesReceived` (0 when there is no such file), and
when that file, if it exists, can be opened, `file` is that artifact, open,
once `bytesReceived` is not 0. (2) The same holds after the branch of
`onProcessBinaryFrame` that starts the next file. (3) A first frame of a file
(`bytesReceived` is 0) that is written whole and does not complete the file
leaves `<dest>name.temp`, `name` being the name in the header, with
`bytesReceived` bytes, the length of its payload. (4) A later frame that is
written whole and does not complete the file keeps the agreement, the size
and `bytesReceived` both growing by the length of the frame. (5) A final frame
that is written and completes the file, another file being left in
`queryList`, runs the branch of (2): the size of the `.temp` file of the new
tail is `bytesReceived`. -/
theorem byte_count_invariant (deps : Deps) :
    (∀ (env : Env) (s s1 : FileUpdater) (last : files),
      s.queryList.getLast? = some last → askFirstFile env s = some s1 →
      s1.disk.size (s.destinationDir ++ last.fileName ++ dotTemp) = s1.bytesReceived ∧
      ((s.disk.fileExists (s.destinationDir ++ last.fileName ++ dotTemp) = true →
          env.canOpen (s.destinationDir ++ last.fileName ++ dotTemp) = true) →
        InFlight (s.destinationDir ++ last.fileName ++ dotTemp) s1)) ∧
    (∀ (env : Env) (s : FileUpdater) (next : files),
      s.queryList.getLast? = some next →
      (askNextFile env s).disk.size (s.destinationDir ++ next.fileName ++ dotTemp) =
        (askNextFile env s).bytesReceived ∧
      ((s.disk.fileExists (s.destinationDir ++ next.fileName ++ dotTemp) = true →
          env.canOpen (s.destinationDir ++ next.fileName ++ dotTemp) = true) →
        InFlight (s.destinationDir ++ next.fileName ++ dotTemp) (askNextFile env s))) ∧
    (∀ (s : FileUpdater) (last : files) (fr : Frame),
      s.bytesReceived = 0 → s.queryList.getLast? = some last →
      fr.firstWritten deps s.destinationDir →
      (fr.isLastFrame = true → (fr.payload.length : Int) < last.fileSize) →
      ∃ s', onProcessBinaryFrame deps fr.env s fr.baMessage fr.isLastFrame = some s' ∧
        InFlight (s.destinationDir ++ headerFileName deps fr.baMessage ++ dotTemp) s' ∧
        s'.bytesReceived = fr.payload.length) ∧
    (∀ (s : FileUpdater) (path : QString) (last : files) (fr : Frame),
      InFlight path s → s.queryList.getLast? = some last → s.bytesReceived ≠ 0 →
      fr.written →
      (fr.isLastFrame = true → s.bytesReceived + fr.baMessage.length < last.fileSize) →
      ∃ s', onProcessBinaryFrame deps fr.env s fr.baMessage fr.isLastFrame = some s' ∧
        InFlight path s' ∧ s'.bytesReceived = s.bytesReceived + fr.baMessage.length) ∧
    (∀ (env : Env) (s s1 : FileUpdater) (baMessage : QByteArray) (last next : files),
      env.interruptionRequested = false → writeFrame deps env s baMessage = .ok s1 →
      s.queryList.getLast? = some last → ¬ s1.bytesReceived < last.fileSize →
      s.queryList.dropLast.getLast? = some next →
      ∃ s', onProcessBinaryFrame deps env s baMessage true = some s' ∧
        s'.disk.size (s.destinationDir ++ next.fileName ++ dotTemp) = s'.bytesReceived ∧
        ((s'.disk.fileExists (s.destinationDir ++ next.fileName ++ dotTemp) = true →
            env.canOpen (s.destinationDir ++ next.fileName ++ dotTemp) = true) →
          InFlight (s.destinationDir ++ next.fileName ++ dotTemp) s')) := by
  refine ⟨?_, ?_, ?_, ?_, ?_⟩
  · intro env s s1 last hlast h
    obtain ⟨a, -, c⟩ := askFirstFile_inFlight env s s1 last hlast h
    exact ⟨a, c⟩
  · intro env s next hnext
    exact askNextFile_inFlight env s next hnext
  · intro s last fr h0 hlast hfw hkeep
    obtain ⟨s2, hstep, htemp, hbytes, hfile, -, -, -⟩ :=
      first_frame_step deps s last fr h0 hlast hfw hkeep
    refine ⟨s2, hstep, ⟨?_, fun _ => hfile⟩, hbytes⟩
    rw [size_of_read _ _ _ htemp, hbytes]
  · intro s path last fr hin hlast hn0 hw hkeep
    obtain ⟨s', h1, h2, h3, -⟩ := frame_keeps_inFlight deps s path last fr hin hlast hn0 hw hkeep
    exact ⟨s', h1, h2, h3⟩
  · intro env s s1 baMessage last next hint hw hlast hfull hnext
    obtain ⟨-, hq, -, -, hd, -⟩ := writeFrame_ok_same deps env s s1 baMessage hw
    have hlast1 : s1.queryList.getLast? = some last := by rw [hq]; exact hlast
    have hstep := onProcessBinaryFrame_last deps env s s1 baMessage hint hw
    rw [lastFrame_complete env s1 last hlast1 hfull] at hstep
    obtain ⟨a, b⟩ := askNextFile_inFlight env
      { s1 with file := { s1.file with isOpen := false },
                disk := s1.disk.rename (s1.destinationDir ++ s1.sCurrentFileName ++ dotTemp)
                  (s1.destinationDir ++ s1.sCurrentFileName),
                queryList := s1.queryList.dropLast } next (by
        show s1.queryList.dropLast.getLast? = some next
        rw [hq]; exact hnext)
    refine ⟨_, hstep, ?_, ?_⟩
    · rw [← hd]; exact a
    · intro hc
      rw [← hd]
      apply b
      intro hex
      rw [← hd] at hc
      apply hc
      rw [(askNextFile_frame _ _).1]
      exact hex

set_option maxRecDepth 100000 in
/-- C24 on a session that finds `b.jpg.temp` with 3 bytes: after
`askFirstFile`, `bytesReceived` is 3; after a frame of 2 bytes the artifact
has 5 bytes and `bytesReceived` is 5. -/
theorem byte_count_invariant_witness :
    ∃ s1 s2,
      askFirstFile fairEnv
        { freshUpdater "/home/pi/slides/" "*.jpg"
            { dirs := ["/home/pi/slides/".toList],
              entries := [("/home/pi/slides/b.jpg.temp".toList, [7, 8, 9])] } with
          queryList := [{ fileName := "b.jpg".toList, fileSize := 9 }] } = some s1 ∧
      InFlight "/home/pi/slides/b.jpg.temp".toList s1 ∧ s1.bytesReceived = 3 ∧
      onProcessBinaryFrame referenceDeps fairEnv s1 [10, 11] false = some s2 ∧
      InFlight "/home/pi/slides/b.jpg.temp".toList s2 ∧ s2.bytesReceived = 5 := by
  have h : ∃ s1, askFirstFile fairEnv
        { freshUpdater "/home/pi/slides/" "*.jpg"
            { dirs := ["/home/pi/slides/".toList],
              entries := [("/home/pi/slides/b.jpg.temp".toList, [7, 8, 9])] } with
          queryList := [{ fileName := "b.jpg".toList, fileSize := 9 }] } = some s1 ∧
      s1.bytesReceived = 3 ∧
      s1.queryList = [{ fileName := "b.jpg".toList, fileSize := 9 }] := ⟨_, rfl, rfl, rfl⟩
  obtain ⟨s1, h1, h2, h3⟩ := h
  have hin := ((byte_count_invariant referenceDeps).1 fairEnv
    { freshUpdater "/home/pi/slides/" "*.jpg"
        { dirs := ["/home/pi/slides/".toList],
          entries := [("/home/pi/slides/b.jpg.temp".toList, [7, 8, 9])] } with
      queryList := [{ fileName := "b.jpg".toList, fileSize := 9 }] } s1
    { fileName := "b.jpg".toList, fileSize := 9 } rfl h1).2 (fun _ => rfl)
  obtain ⟨s2, k1, k2, k3⟩ := (byte_count_invariant referenceDeps).2.2.2.1 s1
    "/home/pi/slides/b.jpg.temp".toList { fileName := "b.jpg".toList, fileSize := 9 }
    { env := fairEnv, baMessage := [10, 11], isLastFrame := false }
    hin (by rw [h3]; rfl) (by rw [h2]; decide) ⟨rfl, rfl⟩ (fun h => absurd h (by decide))
  exact ⟨s1, s2, h1, hin, h2, k1, k2, by rw [k3, h2]; rfl⟩

/-! ## The list of files to ask (claim C25) -/

theorem writeFrame_error_same (deps : Deps) (env : Env) (s se : FileUpdater) (ba : QByteArray)
    (h : writeFrame deps env s ba = .error se) :
    se.queryList = s.queryList ∧ se.sent = s.sent := by
  by_cases h0 : s.bytesReceived = 0
  · rw [writeFrame_zero deps env s ba h0] at h
    obtain ⟨ps, pq, -⟩ := prepareNewFile_same deps s ba
    cases ho : fileOpenAppend env (prepareNewFile deps s ba) with
    | none =>
      rw [ho] at h
      have hs : handleOpenFileError (prepareNewFile deps s ba) = se := Except.error.inj h
      rw [← hs]
      exact ⟨pq, ps⟩
    | some so =>
      rw [ho] at h
      dsimp only at h
      have hso := fileOpenAppend_some env _ so ho
      obtain ⟨ws, wq, -⟩ := fileWrite_same env so (ba.drop 1024)
      have hq : so.queryList = s.queryList := by rw [hso]; exact pq
      have hsent : so.sent = s.sent := by rw [hso]; exact ps
      by_cases hc : ((ba.length : Int) - 1024) ≠ (fileWrite env so (ba.drop 1024)).2
      · rw [if_pos hc] at h
        have hs := Except.error.inj h
        rw [← hs]
        exact ⟨wq.trans hq, ws.trans hsent⟩
      · rw [if_neg hc] at h
        exact absurd h (by simp)
  · rw [writeFrame_nonzero deps env s ba h0] at h
    obtain ⟨ws, wq, -⟩ := fileWrite_same env s ba
    by_cases hc : (ba.length : Int) ≠ (fileWrite env s ba).2
    · rw [if_pos hc] at h
      have hs := Except.error.inj h
      rw [← hs]
      exact ⟨wq, ws⟩
    · rw [if_neg hc] at h
      exact absurd h (by simp)

/-- What `askNextFile` hands to the socket: nothing, or one `get` that names
the tail of `queryList` and gives `bytesReceived` as the offset. -/
theorem askNextFile_sent (env : Env) (s : FileUpdater) :
    (askNextFile env s).sent = s.sent ∨
    ∃ tail, s.queryList.getLast? = some tail ∧
      (askNextFile env s).sent =
        s.sent ++ [getCommand tail.fileName (askNextFile env s).bytesReceived] := by
  cases hl : s.queryList.getLast? with
  | none =>
    left
    unfold askNextFile
    rw [hl]
    rfl
  | some next =>
    have hun : askNextFile env s =
        match openTempFile env
            { s with bytesReceived := 0, sCurrentFileName := s.destinationDir ++ next.fileName }
            (s.destinationDir ++ next.fileName ++ dotTemp) with
        | .error se => se
        | .ok so => sendGet env so next.fileName := by
      unfold askNextFile
      rw [hl]
    rw [hun]
    rcases openTempFile_same env
        { s with bytesReceived := 0, sCurrentFileName := s.destinationDir ++ next.fileName }
        (s.destinationDir ++ next.fileName ++ dotTemp) with
      ⟨so, ho, hsame, -, -⟩ | ⟨se, ho, hsame, -⟩
    · rw [ho]
      right
      refine ⟨next, rfl, ?_⟩
      dsimp only
      rw [sendGet_sent, sendGet_bytesReceived, hsame.2.2.2.2.2.1]
    · rw [ho]
      left
      exact hsame.2.2.2.2.2.1

/-- What `askFirstFile` hands to the socket. -/
theorem askFirstFile_sent (env : Env) (s s1 : FileUpdater) (h : askFirstFile env s = some s1) :
    s1.queryList = s.queryList ∧
    (s1.sent = s.sent ∨
      ∃ tail, s.queryList.getLast? = some tail ∧
        s1.sent = s.sent ++ [getCommand tail.fileName s1.bytesReceived]) := by
  unfold askFirstFile at h
  cases hl : s.queryList.getLast? with
  | none =>
    rw [hl] at h
    exact absurd h (by simp)
  | some last =>
    rw [hl] at h
    dsimp only at h
    rcases openTempFile_same env
        { s with bytesReceived := 0, sCurrentFileName := last.fileName }
        (s.destinationDir ++ last.fileName ++ dotTemp) with
      ⟨so, ho, hsame, -, -⟩ | ⟨se, ho, hsame, -⟩
    · rw [ho] at h
      have hs := Option.some.inj h
      rw [← hs]
      refine ⟨by rw [sendGet_queryList]; exact hsame.1, Or.inr ⟨last, rfl, ?_⟩⟩
      rw [sendGet_sent, sendGet_bytesReceived, hsame.2.2.2.2.2.1, hsame.2.2.2.2.2.2]
    · rw [ho] at h
      have hs : se = s1 := Option.some.inj h
      subst hs
      exact ⟨hsame.1, Or.inl hsame.2.2.2.2.2.1⟩

/-- What one binary frame does to `queryList` and to the socket. -/
theorem binaryFrame_queue (deps : Deps) (env : Env) (s s' : FileUpdater) (ba : QByteArray)
    (isLastFrame : Bool) (h : onProcessBinaryFrame deps env s ba isLastFrame = some s') :
    (s'.sent = s.sent ∨
      ∃ tail, s'.queryList.getLast? = some tail ∧
        s'.sent = s.sent ++ [getCommand tail.fileName s'.bytesReceived]) ∧
    (s'.queryList = s.queryList ∨
      (s'.queryList = s.queryList.dropLast ∧ isLastFrame = true ∧
        env.interruptionRequested = false ∧
        ∃ s1 last, writeFrame deps env s ba = .ok s1 ∧ s.queryList.getLast? = some last ∧
          ¬ s1.bytesReceived < last.fileSize)) := by
  unfold onProcessBinaryFrame at h
  cases hint : env.interruptionRequested with
  | true =>
    rw [hint] at h
    have hs := Option.some.inj h
    rw [← hs]
    exact ⟨Or.inl rfl, Or.inl rfl⟩
  | false =>
    rw [hint] at h
    simp only [Bool.false_eq_true, if_false] at h
    cases hw : writeFrame deps env s ba with
    | error se =>
      rw [hw] at h
      have hs : se = s' := Option.some.inj h
      subst hs
      obtain ⟨a, b⟩ := writeFrame_error_same deps env s se ba hw
      exact ⟨Or.inl b, Or.inl a⟩
    | ok s1 =>
      rw [hw] at h
      dsimp only at h
      obtain ⟨hsent, hq, -, -, -, -⟩ := writeFrame_ok_same deps env s s1 ba hw
      cases hfin : isLastFrame with
      | false =>
        rw [hfin] at h
        have hs : s1 = s' := Option.some.inj h
        subst hs
        exact ⟨Or.inl hsent, Or.inl hq⟩
      | true =>
        rw [hfin] at h
        simp only [if_true] at h
        cases hl : s1.queryList.getLast? with
        | none =>
          unfold lastFrame at h
          rw [hl] at h
          exact absurd h (by simp)
        | some last =>
          by_cases hshort : s1.bytesReceived < last.fileSize
          · rw [lastFrame_short env s1 last hl hshort] at h
            have hs := Option.some.inj h
            rw [← hs]
            refine ⟨Or.inr ⟨last, by rw [sendGet_queryList]; exact hl, ?_⟩,
              Or.inl (by rw [sendGet_queryList]; exact hq)⟩
            rw [sendGet_sent, sendGet_bytesReceived, hsent]
          · rw [lastFrame_complete env s1 last hl hshort] at h
            have hs := Option.some.inj h
            rw [← hs]
            refine ⟨?_, Or.inr ⟨by rw [(askNextFile_frame _ _).2, ← hq], rfl, rfl,
              s1, last, rfl, by rw [← hq]; exact hl, hshort⟩⟩
            rcases askNextFile_sent env
                { s1 with file := { s1.file with isOpen := false },
                          disk := s1.disk.rename
                            (s1.destinationDir ++ s1.sCurrentFileName ++ dotTemp)
                            (s1.destinationDir ++ s1.sCurrentFileName),
                          queryList := s1.queryList.dropLast } with hn | ⟨tail, ht, hn⟩
            · exact Or.inl (hn.trans hsent)
            · refine Or.inr ⟨tail, by rw [(askNextFile_frame _ _).2]; exact ht, ?_⟩
              rw [hn]
              show s1.sent ++ _ = _
              rw [hsent]

set_option maxRecDepth 100000 in
/-- C25, as stated, fails for a text message that arrives after the diff. The
list is `b.jpg`, `a.jpg` and `a.jpg` is in transfer; a second message
`<file_list>c.jpg;3</file_list>` runs the diff again: the list becomes `c.jpg`
alone, which is neither the list as it was nor the list without its last
element, and `c.jpg` is asked for. -/
theorem queue_discipline_counterexample :
    (handleEvent referenceDeps
      { freshUpdater "/home/pi/slides/" "*.jpg"
          { dirs := ["/home/pi/slides/".toList],
            entries := [("/home/pi/slides/a.jpg.temp".toList, [1, 2, 3])] } with
        bytesReceived := 3, sCurrentFileName := "a.jpg".toList,
        file := { fileName := "/home/pi/slides/a.jpg.temp".toList, isOpen := true },
        remoteFileList := [{ fileName := "b.jpg".toList, fileSize := 4 },
                           { fileName := "a.jpg".toList, fileSize := 5 }],
        queryList := [{ fileName := "b.jpg".toList, fileSize := 4 },
                      { fileName := "a.jpg".toList, fileSize := 5 }] }
      (Event.textMessage fairEnv "<file_list>c.jpg;3</file_list>".toList)).map
      (fun s => (s.queryList, s.sent)) =
    some ([{ fileName := "c.jpg".toList, fileSize := 3 }],
      ["<get>c.jpg,0,524288</get>".toList]) := by
  rfl

/-- C25, amended: every slot invocation other than that of a text message
carrying a manifest (which runs the diff and builds `queryList` anew) leaves
`queryList` as it was or removes its last element, and removes it only for a
binary frame marked final that was written and left `bytesReceived` not less
than the size of the tail of `queryList`; that test, `bytesReceived` against
the size of the tail, decides alone between the two. Every `get` handed to the
socket, by these slots and by `askFirstFile`, is built with the name of the
tail of `queryList` at that moment and with `bytesReceived` as the offset; the
only other message is the request of the manifest, sent by the slot of the
connection. -/
theorem queue_discipline (deps : Deps) (s s' : FileUpdater) :
    (∀ e : Event,
      (∀ env m, e = Event.textMessage env m → deps.XML_Parse m fileListTag = sNoData) →
      handleEvent deps s e = some s' →
      (s'.queryList = s.queryList ∨ s'.queryList = s.queryList.dropLast) ∧
      (s'.queryList ≠ s.queryList →
        ∃ env ba s1 last, e = Event.binaryFrame env ba true ∧
          env.interruptionRequested = false ∧ writeFrame deps env s ba = .ok s1 ∧
          s.queryList.getLast? = some last ∧ ¬ s1.bytesReceived < last.fileSize ∧
          s'.queryList = s.queryList.dropLast) ∧
      (s'.sent = s.sent ∨
        ((∃ env, e = Event.connected env) ∧
          s'.sent = s.sent ++ ["<send_file_list>1</send_file_list>".toList]) ∨
        ∃ tail, s'.queryList.getLast? = some tail ∧
          s'.sent = s.sent ++ [getCommand tail.fileName s'.bytesReceived])) ∧
    (∀ (env : Env) (ba : QByteArray) (s1 : FileUpdater) (last : files),
      env.interruptionRequested = false → writeFrame deps env s ba = .ok s1 →
      s.queryList.getLast? = some last →
      handleEvent deps s (Event.binaryFrame env ba true) = some s' →
      (s1.bytesReceived < last.fileSize → s'.queryList = s.queryList) ∧
      (¬ s1.bytesReceived < last.fileSize → s'.queryList = s.queryList.dropLast)) ∧
    (∀ env : Env, askFirstFile env s = some s' →
      s'.queryList = s.queryList ∧
      (s'.sent = s.sent ∨
        ∃ tail, s'.queryList.getLast? = some tail ∧
          s'.sent = s.sent ++ [getCommand tail.fileName s'.bytesReceived])) := by
  refine ⟨?_, ?_, ?_⟩
  · intro e hne h
    cases e with
    | connected env =>
      have h1 : askFileList env s = s' := Option.some.inj h
      have hq : s'.queryList = s.queryList := by
        rw [← h1]
        unfold askFileList sendTextMessage
        split
        · dsimp only
          split <;> rfl
        · rfl
      refine ⟨Or.inl hq, fun hc => absurd hq hc, ?_⟩
      rw [← h1]
      unfold askFileList sendTextMessage
      split
      · right; left
        refine ⟨⟨env, rfl⟩, ?_⟩
        dsimp only
        split <;> rfl
      · exact Or.inl rfl
    | textMessage env m =>
      have h1 : onProcessTextMessage deps env s m = some s' := h
      unfold onProcessTextMessage at h1
      dsimp only at h1
      rw [if_neg (by rw [hne env m rfl]; simp)] at h1
      rw [← Option.some.inj h1]
      exact ⟨Or.inl rfl, fun hc => absurd rfl hc, Or.inl rfl⟩
    | binaryFrame env ba isLastFrame =>
      have h1 : onProcessBinaryFrame deps env s ba isLastFrame = some s' := h
      obtain ⟨hsent, hq⟩ := binaryFrame_queue deps env s s' ba isLastFrame h1
      refine ⟨?_, ?_, ?_⟩
      · rcases hq with hq | ⟨hq, -⟩
        · exact Or.inl hq
        · exact Or.inr hq
      · intro hc
        rcases hq with hq | ⟨hq, hfin, hint, s1, last, hw, hl, hfull⟩
        · exact absurd hq hc
        · subst hfin
          exact ⟨env, ba, s1, last, rfl, hint, hw, hl, hfull, hq⟩
      · rcases hsent with hs | hs
        · exact Or.inl hs
        · exact Or.inr (Or.inr hs)
    | socketError =>
      have h1 : onUpdateSocketError s = s' := Option.some.inj h
      rw [← h1]
      exact ⟨Or.inl rfl, fun hc => absurd rfl hc, Or.inl rfl⟩
    | disconnected =>
      have h1 : onServerDisconnected s = s' := Option.some.inj h
      rw [← h1]
      exact ⟨Or.inl rfl, fun hc => absurd rfl hc, Or.inl rfl⟩
  · intro env ba s1 last hint hw hl h
    have h1 : onProcessBinaryFrame deps env s ba true = some s' := h
    rw [onProcessBinaryFrame_last deps env s s1 ba hint hw] at h1
    obtain ⟨-, hq, -⟩ := writeFrame_ok_same deps env s s1 ba hw
    have hl1 : s1.queryList.getLast? = some last := by rw [hq]; exact hl
    constructor
    · intro hshort
      rw [lastFrame_short env s1 last hl1 hshort] at h1
      rw [← Option.some.inj h1, sendGet_queryList, hq]
    · intro hfull
      rw [lastFrame_complete env s1 last hl1 hfull] at h1
      rw [← Option.some.inj h1, (askNextFile_frame _ _).2]
      show s1.queryList.dropLast = _
      rw [hq]
  · intro env h
    obtain ⟨hq, hsent⟩ := askFirstFile_sent env s s' h
    refine ⟨hq, ?_⟩
    rcases hsent with hs | ⟨tail, ht, hs⟩
    · exact Or.inl hs
    · exact Or.inr ⟨tail, by rw [hq]; exact ht, hs⟩

set_option maxRecDepth 100000 in
/-- C25, amended, on the list `b.jpg`, `a.jpg`: the final frame that completes
`a.jpg` removes it from the list, and the `get` sent names `b.jpg`, the new
tail. -/
theorem queue_discipline_witness :
    ∃ s', handleEvent referenceDeps
        { freshUpdater "/home/pi/slides/" "*.jpg"
            { dirs := ["/home/pi/slides/".toList],
              entries := [("/home/pi/slides/a.jpg.temp".toList, [1, 2, 3])] } with
          bytesReceived := 3, sCurrentFileName := "a.jpg".toList,
          file := { fileName := "/home/pi/slides/a.jpg.temp".toList, isOpen := true },
          queryList := [{ fileName := "b.jpg".toList, fileSize := 4 },
                        { fileName := "a.jpg".toList, fileSize := 5 }] }
        (Event.binaryFrame fairEnv [4, 5] true) = some s' ∧
      s'.queryList = [{ fileName := "b.jpg".toList, fileSize := 4 }] ∧
      s'.sent = ["<get>b.jpg,0,524288</get>".toList] ∧
      (s'.queryList =
          [{ fileName := "b.jpg".toList, fileSize := 4 },
           { fileName := "a.jpg".toList, fileSize := 5 }] ∨
        s'.queryList =
          [{ fileName := "b.jpg".toList, fileSize := 4 },
           { fileName := "a.jpg".toList, fileSize := 5 }].dropLast) := by
  have h : ∃ s', handleEvent referenceDeps
        { freshUpdater "/home/pi/slides/" "*.jpg"
            { dirs := ["/home/pi/slides/".toList],
              entries := [("/home/pi/slides/a.jpg.temp".toList, [1, 2, 3])] } with
          bytesReceived := 3, sCurrentFileName := "a.jpg".toList,
          file := { fileName := "/home/pi/slides/a.jpg.temp".toList, isOpen := true },
          queryList := [{ fileName := "b.jpg".toList, fileSize := 4 },
                        { fileName := "a.jpg".toList, fileSize := 5 }] }
        (Event.binaryFrame fairEnv [4, 5] true) = some s' ∧
      s'.queryList = [{ fileName := "b.jpg".toList, fileSize := 4 }] ∧
      s'.sent = ["<get>b.jpg,0,524288</get>".toList] := ⟨_, rfl, rfl, rfl⟩
  obtain ⟨s', h1, h2, h3⟩ := h
  exact ⟨s', h1, h2, h3,
    ((queue_discipline referenceDeps
      { freshUpdater "/home/pi/slides/" "*.jpg"
          { dirs := ["/home/pi/slides/".toList],
            entries := [("/home/pi/slides/a.jpg.temp".toList, [1, 2, 3])] } with
        bytesReceived := 3, sCurrentFileName := "a.jpg".toList,
        file := { fileName := "/home/pi/slides/a.jpg.temp".toList, isOpen := true },
        queryList := [{ fileName := "b.jpg".toList, fileSize := 4 },
                      { fileName := "a.jpg".toList, fileSize := 5 }] } s').1
      (Event.binaryFrame fairEnv [4, 5] true) (fun env m hx => Event.noConfusion hx) h1).1⟩

end VolleyPanel
